import Mathlib

/-!
# Sub-domain recorder and L7 flow log

A shallow embedding of `server/controller/recorder/sub_domain.go` (namespace `recorder`: the
ordered update pipeline, the refresher state machine and the registry) and of
`server/ingester/flow_log/log_data/l7_flow_log.go` (namespace `log_data`: the trace-id index,
`fillL7FlowLog` and `GenerateNewFlowTags`).

Stateful Go code is written as explicit state passing.  Calls into collaborators that live
outside the file (resource updaters, pub/sub, the platform-data refresh, the cache's VTap
refresh) are recorded, in program order, in a trace of `Event`s; the trace is the observable
behaviour of a run.  Log statements and statsd wiring have no effect on control flow or state
and are left out.
-/

deriving instance DecidableEq for Except

namespace recorder

/-! ## Data model -/

/-- Go `time.Time`, as seconds and nanoseconds since the zero instant (January 1, year 1 UTC). -/
structure Time where
  sec : Int
  nsec : Nat
deriving DecidableEq, Repr

/-- Go `Time.IsZero`: the zero instant. -/
def Time.IsZero (t : Time) : Bool := t.sec == 0 && t.nsec == 0

/-- One element of a cloud-model collection (`cloudmodel.Network`, `cloudmodel.Pod`, ...); only
its identity matters to this file. -/
structure CloudItem where
  Lcuuid : String
deriving DecidableEq, Repr

/-- The snapshot `cloudmodel.SubDomainResource`: the fields read by `sub_domain.go`. -/
structure SubDomainResource where
  Verified : Bool := false
  SyncAt : Time := ⟨0, 0⟩
  ErrorState : Int := 0
  ErrorMessage : String := ""
  Networks : List CloudItem := []
  Subnets : List CloudItem := []
  VInterfaces : List CloudItem := []
  IPs : List CloudItem := []
  PodClusters : List CloudItem := []
  PodNodes : List CloudItem := []
  VMPodNodeConnections : List CloudItem := []
  PodNamespaces : List CloudItem := []
  PodGroups : List CloudItem := []
  PodReplicaSets : List CloudItem := []
  PodServices : List CloudItem := []
  PodServicePorts : List CloudItem := []
  PodGroupPorts : List CloudItem := []
  PodIngresses : List CloudItem := []
  PodIngressRules : List CloudItem := []
  PodIngressRuleBackends : List CloudItem := []
  Pods : List CloudItem := []
  ConfigMaps : List CloudItem := []
  PodGroupConfigMapConnections : List CloudItem := []
  Processes : List CloudItem := []
deriving DecidableEq, Repr

/-- The resource types that have an updater or a listener in `getUpdatersInOrder`.  `LANIP` and
`WANIP` are the two sub-resources of the IP updater; they only occur as listeners. -/
inductive ResourceType where
  | PodCluster | PodNode | PodNamespace | PodIngress | PodIngressRule | PodService
  | PodIngressRuleBackend | PodServicePort | PodGroup | PodGroupPort | PodReplicaSet | Pod
  | ConfigMap | PodGroupConfigMapConnection | Network | Subnet | VInterface | IP | LANIP | WANIP
  | VMPodNodeConnection | Process
deriving DecidableEq, Repr

/-- Which tool data set a pointer refers to: the parent domain's, or the one owned by a
sub-domain cache. -/
inductive ToolDataSetRef where
  | ofDomain
  | ofCache (cache : String)
deriving DecidableEq, Repr

/-- A value of `updater.ResourceUpdater` as built by the constructors `updater.NewX`: the
resource type, the cache it is bound to (a pointer, named by the sub-domain lcuuid that keys
the cache manager), the incoming collection, the domain tool data set when one was passed, the
registered listeners and whether statsd was attached. -/
structure ResourceUpdater where
  resourceType : ResourceType
  cache : String
  cloudData : List CloudItem
  domainToolDataSet : Option ToolDataSetRef := none
  listeners : List ResourceType := []
  statsd : Bool := false
deriving DecidableEq, Repr

/-- Go `RegisterListener`: attaches a listener and returns the same updater. -/
def ResourceUpdater.RegisterListener (u : ResourceUpdater) (l : ResourceType) : ResourceUpdater :=
  { u with listeners := u.listeners ++ [l] }

/-- Go `BuildStatsd`: attaches the statsd handle and returns the same updater. -/
def ResourceUpdater.BuildStatsd (u : ResourceUpdater) : ResourceUpdater :=
  { u with statsd := true }

/-- The `message.Metadata` built in `newSubDomain` (the DB handle is not a value and is left
out). -/
structure MessageMetadata where
  ORGID : Nat
  DomainLcuuid : String
  SubDomainLcuuid : String
  ToolDataSet : ToolDataSetRef
deriving DecidableEq, Repr

/-- The discriminators of `common.DataChanged` used by this file. -/
inductive DataChanged where
  | DATA_CHANGED_PLATFORM_DATA
deriving DecidableEq, Repr

/-- The row type `metadbmodel.SubDomain`: identity, last observed health and the time of the
last reconciliation. -/
structure SubDomainRecord where
  Lcuuid : String
  State : Int := 0
  ErrorMsg : String := ""
  SyncedAt : Option Time := none
deriving DecidableEq, Repr

/-- The fields of `rcommon.Metadata` read by this file (the DB handle is the `DB` component of
the state). -/
structure Metadata where
  ORGID : Nat
  Domain : String
  SubDomain : SubDomainRecord
deriving DecidableEq, Repr

/-- Go `Metadata.SetSubDomain`. -/
def Metadata.SetSubDomain (md : Metadata) (sd : SubDomainRecord) : Metadata :=
  { md with SubDomain := sd }

/-- Go `struct subDomain`: the refresher of one sub-domain.  `cache` is a pointer; the pointee
is the `cache` component of the state the methods run on.  The statsd and pub/sub handles carry
no state and are left out. -/
structure subDomain where
  metadata : Metadata
  domainToolDataSet : ToolDataSetRef
  cache : String
  msgMetadata : MessageMetadata
deriving DecidableEq, Repr

/-- The levels of `go-logging`. -/
inductive LogLevel where
  | CRITICAL | ERROR | WARNING | NOTICE | INFO | DEBUG
deriving DecidableEq, Repr

/-- The callers named in `SetLogLevel` and `ResetRefreshSignal`. -/
inductive RefreshSignalCaller where
  | RefreshSignalCallerSubDomain
deriving DecidableEq, Repr

/-- Calls that leave the file, in the order they are made.  `tryRefresh` and `clear` are call
markers written by the registry loops (`RefreshAll`, `RefreshOne`) right before they invoke
that method on the refresher `sd`, so that invocations can be counted. -/
inductive Event where
  | SetLogLevel (cache : String) (level : LogLevel) (caller : RefreshSignalCaller)
  | RefreshVTaps (cache : String)
  | HandleAddAndUpdate (u : ResourceUpdater)
  | HandleDelete (u : ResourceUpdater)
  | RefreshCache (orgID : Nat) (changes : List DataChanged)
  | PublishChange (md : MessageMetadata)
  | DBFirst (lcuuid : String)
  | DBSave (r : SubDomainRecord)
  | CreateSubDomainCacheIfNotExists (lcuuid : String)
  | tryRefresh (sd : subDomain) (cloudData : SubDomainResource)
  | clear (sd : subDomain)
deriving DecidableEq, Repr

/-- A Go run-time panic. -/
inductive Panic where
  | indexOutOfRange (index : Int) (length : Nat)
  | nilPointerDereference
deriving DecidableEq, Repr

/-- The error values returned by the file: the three package-level sentinel errors and the two
ways a record lookup can fail. -/
inductive Error where
  | DataMissingError
  | DataNotVerifiedError
  | RefreshConflictError
  | ErrRecordNotFound
  | ErrDB
deriving DecidableEq, Repr

/-! ## Ordered update pipeline -/

/-- Go slice indexing `xs[i]` with a signed index: out of range is a panic. -/
def index (xs : List ResourceUpdater) (i : Int) : Except Panic ResourceUpdater :=
  if i < 0 then .error (.indexOutOfRange i xs.length)
  else
    match xs[i.toNat]? with
    | some x => .ok x
    | none => .error (.indexOutOfRange i xs.length)

/-- The first loop of `executeUpdaters`:
`for _, updater := range updatersInUpdateOrder { updater.HandleAddAndUpdate() }`. -/
def addAndUpdateSweep : List ResourceUpdater → List Event → List Event
  | [], tr => tr
  | u :: us, tr => addAndUpdateSweep us (tr ++ [Event.HandleAddAndUpdate u])

/-- The loop `for i := len(updatersInUpdateOrder) - 3; i >= 0; i-- { updaters[i].HandleDelete() }`.
The second argument is `i + 1`, so `0` is the exit `i = -1`. -/
def deleteSweep (updatersInUpdateOrder : List ResourceUpdater) :
    Nat → List Event → Except Panic (List Event)
  | 0, tr => .ok tr
  | i + 1, tr =>
    match index updatersInUpdateOrder (i : Int) with
    | .error p => .error p
    | .ok u => deleteSweep updatersInUpdateOrder i (tr ++ [Event.HandleDelete u])

/-- Go `subDomain.executeUpdaters`.  The add/update sweep runs first; then the last and the
last-but-one updater are read (a panic on a slice shorter than two), the delete loop runs from
index `len-3` down to `0`, and finally `processUpdater.HandleDelete()` and
`vmPodNodeConnectionUpdater.HandleDelete()` are called, in this order.  A panic ends the run:
the result is then the panic alone. -/
def executeUpdaters (updatersInUpdateOrder : List ResourceUpdater) (tr : List Event) :
    Except Panic (List Event) :=
  let tr := addAndUpdateSweep updatersInUpdateOrder tr
  let len : Int := updatersInUpdateOrder.length
  match index updatersInUpdateOrder (len - 1) with
  | .error p => .error p
  | .ok processUpdater =>
    match index updatersInUpdateOrder (len - 2) with
    | .error p => .error p
    | .ok vmPodNodeConnectionUpdater =>
      match deleteSweep updatersInUpdateOrder (len - 3 + 1).toNat tr with
      | .error p => .error p
      | .ok tr =>
        let tr := tr ++ [Event.HandleDelete processUpdater]
        .ok (tr ++ [Event.HandleDelete vmPodNodeConnectionUpdater])

/-- The constructors `updater.NewPodCluster`, `updater.NewPodNode`, ... of the updater package:
an updater of the given type bound to a cache and to the incoming collection of that type. -/
def updater.New (t : ResourceType) (cache : String) (cloudData : List CloudItem) :
    ResourceUpdater :=
  { resourceType := t, cache := cache, cloudData := cloudData }

/-- The constructors `updater.NewVInterface` and `updater.NewIP`, which also take the domain
tool data set. -/
def updater.NewWithToolDataSet (t : ResourceType) (cache : String) (cloudData : List CloudItem)
    (domainToolDataSet : ToolDataSetRef) : ResourceUpdater :=
  { resourceType := t, cache := cache, cloudData := cloudData,
    domainToolDataSet := some domainToolDataSet }

/-- Go `newSubDomain`. -/
def newSubDomain (md : Metadata) (domainToolDataSet : ToolDataSetRef) (cache : String) :
    subDomain :=
  { metadata := md
    domainToolDataSet := domainToolDataSet
    cache := cache
    msgMetadata :=
      { ORGID := md.ORGID
        DomainLcuuid := md.Domain
        SubDomainLcuuid := md.SubDomain.Lcuuid
        ToolDataSet := .ofCache cache } }

/-- Go `subDomain.getUpdatersInOrder`: the slice literal, element by element. -/
def getUpdatersInOrder (s : subDomain) (cloudData : SubDomainResource) : List ResourceUpdater :=
  let ip := updater.NewWithToolDataSet .IP s.cache cloudData.IPs s.domainToolDataSet
  let ip := ip.RegisterListener .LANIP
  let ip := ip.RegisterListener .WANIP
  [ (updater.New .PodCluster s.cache cloudData.PodClusters).RegisterListener .PodCluster,
    (updater.New .PodNode s.cache cloudData.PodNodes).RegisterListener .PodNode,
    (updater.New .PodNamespace s.cache cloudData.PodNamespaces).RegisterListener .PodNamespace,
    (updater.New .PodIngress s.cache cloudData.PodIngresses).RegisterListener .PodIngress,
    (updater.New .PodIngressRule s.cache cloudData.PodIngressRules).RegisterListener
      .PodIngressRule,
    (updater.New .PodService s.cache cloudData.PodServices).RegisterListener .PodService,
    (updater.New .PodIngressRuleBackend s.cache cloudData.PodIngressRuleBackends).RegisterListener
      .PodIngressRuleBackend,
    (updater.New .PodServicePort s.cache cloudData.PodServicePorts).RegisterListener
      .PodServicePort,
    (updater.New .PodGroup s.cache cloudData.PodGroups).RegisterListener .PodGroup,
    (updater.New .PodGroupPort s.cache cloudData.PodGroupPorts).RegisterListener .PodGroupPort,
    (updater.New .PodReplicaSet s.cache cloudData.PodReplicaSets).RegisterListener .PodReplicaSet,
    ((updater.New .Pod s.cache cloudData.Pods).RegisterListener .Pod).BuildStatsd,
    (updater.New .ConfigMap s.cache cloudData.ConfigMaps).RegisterListener .ConfigMap,
    (updater.New .PodGroupConfigMapConnection s.cache
      cloudData.PodGroupConfigMapConnections).RegisterListener .PodGroupConfigMapConnection,
    (updater.New .Network s.cache cloudData.Networks).RegisterListener .Network,
    (updater.New .Subnet s.cache cloudData.Subnets).RegisterListener .Subnet,
    (updater.NewWithToolDataSet .VInterface s.cache cloudData.VInterfaces
      s.domainToolDataSet).RegisterListener .VInterface,
    ip,
    (updater.New .VMPodNodeConnection s.cache
      cloudData.VMPodNodeConnections).RegisterListener .VMPodNodeConnection,
    (updater.New .Process s.cache cloudData.Processes).RegisterListener .Process ]

/-! ## Cache, store and refresher state -/

/-- The fields of `cache.Cache` this file acts on: the sequence counter and the refresh signal
(a channel of capacity one; `true` when the token is in the channel).  The mirrored resources
and the log level are changed only by the updaters, by `RefreshVTaps` and by `SetLogLevel`,
whose calls are in the trace. -/
structure Cache where
  Sequence : Nat
  RefreshSignal : Bool
deriving DecidableEq, Repr

/-- Modelled from the spec: `Cache.IncrementSequence` is not in the source files; the sequence
counter "strictly increases by one". -/
def Cache.IncrementSequence (c : Cache) : Cache :=
  { c with Sequence := c.Sequence + 1 }

/-- Modelled from the spec: `Cache.ResetRefreshSignal` is not in the source files; it restores
the gate token. -/
def Cache.ResetRefreshSignal (c : Cache) : Cache :=
  { c with RefreshSignal := true }

/-- Modelled from the spec: the persisted sub-domain store (`FindByLcuuid`, `Save`, each of which
may fail).  `subDomains` is the table; `faults` scripts the outcome of the operations still to
come, one entry per operation (`true`: the operation fails), none meaning no failure. -/
structure DB where
  subDomains : List SubDomainRecord
  faults : List Bool := []
deriving DecidableEq, Repr

/-- Takes the outcome scripted for the next store operation. -/
def DB.nextFault (db : DB) : Bool × DB :=
  match db.faults with
  | [] => (false, db)
  | f :: fs => (f, { db with faults := fs })

/-- Modelled from the spec: `DB.Where("lcuuid = ?", lcuuid).First(&sd)`, the first row with
the given lcuuid; fails when the store fails or when there is no such row. -/
def DB.First (db : DB) (lcuuid : String) : Except Error SubDomainRecord × DB :=
  let (fault, db) := db.nextFault
  if fault then (.error .ErrDB, db)
  else
    match db.subDomains.find? (fun r => r.Lcuuid == lcuuid) with
    | none => (.error .ErrRecordNotFound, db)
    | some r => (.ok r, db)

/-- Replaces the first row with the lcuuid of `r` by `r`, or appends `r` when there is none. -/
def upsert (r : SubDomainRecord) : List SubDomainRecord → List SubDomainRecord
  | [] => [r]
  | x :: xs => if x.Lcuuid == r.Lcuuid then r :: xs else x :: upsert r xs

/-- Modelled from the spec: `DB.Save(&subDomain)`, which writes the row back unless the store
fails. -/
def DB.Save (db : DB) (r : SubDomainRecord) : Option Error × DB :=
  let (fault, db) := db.nextFault
  if fault then (some .ErrDB, db)
  else (none, { db with subDomains := upsert r db.subDomains })

/-- The state one refresher runs on: the cache behind its pointer, the store, and the trace of
the calls made so far. -/
structure State where
  cache : Cache
  db : DB
  trace : List Event
deriving DecidableEq, Repr

/-! ## Sub-domain refresher -/

/-- Go `subDomain.shouldRefresh`. -/
def shouldRefresh (_s : subDomain) (_lcuuid : String) (cloudData : SubDomainResource) :
    Option Error :=
  if cloudData.Verified then
    if cloudData.Networks.length == 0 || cloudData.VInterfaces.length == 0
        || cloudData.Pods.length == 0 then
      some .DataMissingError
    else none
  else
    some .DataNotVerifiedError

/-- Go `subDomain.notifyOnResourceChanged`.  `isPlatformDataChanged` is declared outside the
source files and is a parameter: it reads the change flags the updaters hold after the two
sweeps, that is, a function of the updaters and of what has been run on them. -/
def notifyOnResourceChanged (isPlatformDataChanged : List ResourceUpdater → List Event → Bool)
    (s : subDomain) (updatersInUpdateOrder : List ResourceUpdater) (st : State) : State :=
  let changed := isPlatformDataChanged updatersInUpdateOrder st.trace
  if changed then
    { st with trace := st.trace ++
        [Event.RefreshCache s.metadata.ORGID [DataChanged.DATA_CHANGED_PLATFORM_DATA]] }
  else st

/-- Go `subDomain.updateSyncedAt`. -/
def updateSyncedAt (_s : subDomain) (lcuuid : String) (syncAt : Time) (st : State) : State :=
  if syncAt.IsZero then st
  else
    let st := { st with trace := st.trace ++ [Event.DBFirst lcuuid] }
    match st.db.First lcuuid with
    | (.error _, db) => { st with db := db }
    | (.ok subDomain, db) =>
      let subDomain := { subDomain with SyncedAt := some syncAt }
      let st := { st with db := db, trace := st.trace ++ [Event.DBSave subDomain] }
      { st with db := (st.db.Save subDomain).2 }

/-- Go `subDomain.refresh`. -/
def refresh (isPlatformDataChanged : List ResourceUpdater → List Event → Bool)
    (s : subDomain) (cloudData : SubDomainResource) (st : State) : Option Panic × State :=
  let st := { st with trace := st.trace ++ [Event.RefreshVTaps s.cache] }
  let subDomainUpdatersInUpdateOrder := getUpdatersInOrder s cloudData
  match executeUpdaters subDomainUpdatersInUpdateOrder st.trace with
  | .error p => (some p, st)
  | .ok tr =>
    let st := { st with trace := tr }
    let st := notifyOnResourceChanged isPlatformDataChanged s subDomainUpdatersInUpdateOrder st
    let st := { st with trace := st.trace ++ [Event.PublishChange s.msgMetadata] }
    let st := updateSyncedAt s s.metadata.SubDomain.Lcuuid cloudData.SyncAt st
    (none, st)

/-- Go `subDomain.tryRefresh`.  The `select` with a `default` branch is a non-blocking receive
on the refresh signal. -/
def tryRefresh (isPlatformDataChanged : List ResourceUpdater → List Event → Bool)
    (s : subDomain) (cloudData : SubDomainResource) (st : State) :
    Except Panic (Option Error) × State :=
  match shouldRefresh s s.metadata.SubDomain.Lcuuid cloudData with
  | some err => (.ok (some err), st)
  | none =>
    if st.cache.RefreshSignal then
      let st := { st with cache := { st.cache with RefreshSignal := false } }
      let st := { st with cache := st.cache.IncrementSequence }
      let st := { st with trace := st.trace ++
        [Event.SetLogLevel s.cache .INFO .RefreshSignalCallerSubDomain] }
      match refresh isPlatformDataChanged s cloudData st with
      | (some p, st) => (.error p, st)
      | (none, st) =>
        let st := { st with cache := st.cache.ResetRefreshSignal }
        (.ok none, st)
    else
      (.ok (some .RefreshConflictError), st)

/-- Go `subDomain.clear`. -/
def clear (s : subDomain) (st : State) : Option Panic × State :=
  let subDomainUpdatersInUpdateOrder := getUpdatersInOrder s {}
  match executeUpdaters subDomainUpdatersInUpdateOrder st.trace with
  | .error p => (some p, st)
  | .ok tr => (none, { st with trace := tr })

/-! ## Sub-domain registry -/

/-- The state the registry runs on: the sub-domain caches held by the cache manager, keyed by
sub-domain lcuuid (`CacheManager.SubDomainCacheMap`), the store, and the trace. -/
structure World where
  caches : List (String × Cache)
  db : DB
  trace : List Event
deriving DecidableEq, Repr

/-- Go `struct subDomains`.  The Go map `refreshers` is an association list with distinct keys;
a `range` over it visits the entries in list order, and a new key is added at the end. -/
structure subDomains where
  metadata : Metadata
  refreshers : List (String × subDomain)
deriving DecidableEq, Repr

/-- Go `newSubDomains`. -/
def newSubDomains (md : Metadata) : subDomains :=
  { metadata := md, refreshers := [] }

/-- Modelled from the spec: the cache a cache manager creates for a sub-domain seen for the
first time: sequence counter zero and the gate token present (state Idle). -/
def NewCache : Cache :=
  { Sequence := 0, RefreshSignal := true }

/-- Modelled from the spec: `CacheManager.CreateSubDomainCacheIfNotExists`, the idempotent
`GetOrCreateCache`; returns the pointer to the cache of the sub-domain of `md`. -/
def CreateSubDomainCacheIfNotExists (md : Metadata) (w : World) : String × World :=
  let w := { w with trace := w.trace ++
    [Event.CreateSubDomainCacheIfNotExists md.SubDomain.Lcuuid] }
  match w.caches.lookup md.SubDomain.Lcuuid with
  | some _ => (md.SubDomain.Lcuuid, w)
  | none => (md.SubDomain.Lcuuid, { w with caches := w.caches ++ [(md.SubDomain.Lcuuid, NewCache)] })

/-- Go `subDomains.newRefresher`. -/
def newRefresher (s : subDomains) (lcuuid : String) (w : World) :
    Except Error subDomain × World :=
  let w := { w with trace := w.trace ++ [Event.DBFirst lcuuid] }
  match w.db.First lcuuid with
  | (.error err, db) => (.error err, { w with db := db })
  | (.ok sd, db) =>
    let w := { w with db := db }
    let md := s.metadata
    let md := md.SetSubDomain sd
    let (cache, w) := CreateSubDomainCacheIfNotExists md w
    (.ok (newSubDomain md .ofDomain cache), w)

/-- Writes through a cache pointer: replaces the cache stored under `k`. -/
def setCache (k : String) (c : Cache) : List (String × Cache) → List (String × Cache)
  | [] => []
  | (k', c') :: rest => if k' == k then (k, c) :: rest else (k', c') :: setCache k c rest

/-- Runs a method of a refresher on the cache behind the pointer `cache`; a pointer to no cache
is a nil dereference. -/
def onCache {α : Type} (cache : String) (f : State → α × State) (w : World) :
    Except Panic α × World :=
  match w.caches.lookup cache with
  | none => (.error .nilPointerDereference, w)
  | some c =>
    match f { cache := c, db := w.db, trace := w.trace } with
    | (a, st) =>
      (.ok a, { caches := setCache cache st.cache w.caches, db := st.db, trace := st.trace })

/-- The call `sd.tryRefresh(resource)` made by the registry. -/
def callTryRefresh (isPlatformDataChanged : List ResourceUpdater → List Event → Bool)
    (sd : subDomain) (resource : SubDomainResource) (w : World) :
    Except Panic (Option Error) × World :=
  let w := { w with trace := w.trace ++ [Event.tryRefresh sd resource] }
  match onCache sd.cache (tryRefresh isPlatformDataChanged sd resource) w with
  | (.error p, w) => (.error p, w)
  | (.ok r, w) => (r, w)

/-- The call `sd.clear()` made by the registry. -/
def callClear (sd : subDomain) (w : World) : Option Panic × World :=
  let w := { w with trace := w.trace ++ [Event.clear sd] }
  match onCache sd.cache (clear sd) w with
  | (.error p, w) => (some p, w)
  | (.ok r, w) => (r, w)

/-- The block shared by `RefreshAll` and `RefreshOne`:
`sd, ok := s.refreshers[lcuuid]; if !ok { sd, err = s.newRefresher(lcuuid); if err != nil
{ return err }; s.refreshers[lcuuid] = sd }`.  An error is the early return. -/
def resolve (s : subDomains) (lcuuid : String) (w : World) :
    Except Error subDomain × subDomains × World :=
  match s.refreshers.lookup lcuuid with
  | some sd => (.ok sd, s, w)
  | none =>
    match newRefresher s lcuuid w with
    | (.error err, w) => (.error err, s, w)
    | (.ok sd, w) => (.ok sd, { s with refreshers := s.refreshers ++ [(lcuuid, sd)] }, w)

/-- The first loop of `RefreshAll`, over the entries of `cloudData`.  The result `some err` is
the early `return err`; `none` means the loop ran to its end. -/
def RefreshAll.refreshLoop (isPlatformDataChanged : List ResourceUpdater → List Event → Bool) :
    List (String × SubDomainResource) → subDomains → World →
    Except Panic (Option Error) × subDomains × World
  | [], s, w => (.ok none, s, w)
  | (lcuuid, resource) :: rest, s, w =>
    match resolve s lcuuid w with
    | (.error err, s, w) => (.ok (some err), s, w)
    | (.ok sd, s, w) =>
      match callTryRefresh isPlatformDataChanged sd resource w with
      | (.error p, w) => (.error p, s, w)
      | (.ok _, w) => RefreshAll.refreshLoop isPlatformDataChanged rest s w

/-- The second loop of `RefreshAll`, over the refreshers: `clear()` on every refresher whose
sub-domain lcuuid is not a key of `cloudData`. -/
def RefreshAll.clearLoop (cloudData : List (String × SubDomainResource)) :
    List (String × subDomain) → World → Option Panic × World
  | [], w => (none, w)
  | (_, sd) :: rest, w =>
    match cloudData.lookup sd.metadata.SubDomain.Lcuuid with
    | some _ => RefreshAll.clearLoop cloudData rest w
    | none =>
      match callClear sd w with
      | (some p, w) => (some p, w)
      | (none, w) => RefreshAll.clearLoop cloudData rest w

/-- Go `subDomains.RefreshAll`.  The Go map `cloudData` is an association list with distinct
keys, visited in list order. -/
def RefreshAll (isPlatformDataChanged : List ResourceUpdater → List Event → Bool)
    (s : subDomains) (cloudData : List (String × SubDomainResource)) (w : World) :
    Except Panic (Option Error) × subDomains × World :=
  match RefreshAll.refreshLoop isPlatformDataChanged cloudData s w with
  | (.error p, s, w) => (.error p, s, w)
  | (.ok (some err), s, w) => (.ok (some err), s, w)
  | (.ok none, s, w) =>
    match RefreshAll.clearLoop cloudData s.refreshers w with
    | (some p, w) => (.error p, s, w)
    | (none, w) => (.ok none, s, w)

/-- Go `subDomains.RefreshOne`: the loop body returns in its first iteration. -/
def RefreshOne (isPlatformDataChanged : List ResourceUpdater → List Event → Bool)
    (s : subDomains) (cloudData : List (String × SubDomainResource)) (w : World) :
    Except Panic (Option Error) × subDomains × World :=
  match cloudData with
  | [] => (.ok none, s, w)
  | (lcuuid, resource) :: _ =>
    match resolve s lcuuid w with
    | (.error err, s, w) => (.ok (some err), s, w)
    | (.ok sd, s, w) =>
      match callTryRefresh isPlatformDataChanged sd resource w with
      | (r, w) => (r, s, w)

/-! ## Observations on traces and the registry invariant -/

/-- The updaters whose `HandleDelete` was called, in call order. -/
def deleteCalls (tr : List Event) : List ResourceUpdater :=
  tr.filterMap fun e =>
    match e with
    | .HandleDelete u => some u
    | _ => none

/-- The call markers among the events. -/
def Event.isMarker : Event → Bool
  | .tryRefresh _ _ => true
  | .clear _ => true
  | _ => false

/-- The call markers of a trace, in order. -/
def markers (tr : List Event) : List Event :=
  tr.filter Event.isMarker

/-- The lcuuids that have a cache in the cache manager. -/
def World.cacheKeys (w : World) : List String :=
  w.caches.map Prod.fst

/-- A registry as `newSubDomains` and `newRefresher` build it: the keys are distinct, the
refresher stored under a key is the refresher of that sub-domain, and its cache pointer points
to a cache of the cache manager. -/
def WellFormed (s : subDomains) (w : World) : Prop :=
  (s.refreshers.map Prod.fst).Nodup ∧
  ∀ p ∈ s.refreshers, p.2.metadata.SubDomain.Lcuuid = p.1 ∧ p.2.cache ∈ w.cacheKeys

instance (s : subDomains) (w : World) : Decidable (WellFormed s w) := by
  unfold WellFormed
  exact inferInstance

/-- The trace `tr'` extends `tr` by events that are not call markers. -/
def Quiet (tr tr' : List Event) : Prop :=
  ∃ ev, tr' = tr ++ ev ∧ markers ev = []

/-! ## Example inputs -/

/-- A pipeline of four updaters; the last two are the VM-to-pod-node connection and the
process updater. -/
def pipeline4 : List ResourceUpdater :=
  [updater.New .VInterface "c" [], updater.New .IP "c" [],
   updater.New .VMPodNodeConnection "c" [], updater.New .Process "c" []]

/-- A refresher of the sub-domain `sub-1`, as `newRefresher` builds it. -/
def exampleRefresher : subDomain :=
  newSubDomain { ORGID := 1, Domain := "domain-1", SubDomain := { Lcuuid := "sub-1" } }
    .ofDomain "sub-1"

/-- A verified snapshot with one network, one interface and one pod, synced at second 5. -/
def validSnapshot : SubDomainResource :=
  { Verified := true, SyncAt := ⟨5, 0⟩, Networks := [⟨"net-1"⟩], VInterfaces := [⟨"vif-1"⟩],
    Pods := [⟨"pod-1"⟩] }

/-- The same snapshot with a zero timestamp. -/
def validSnapshotNoSyncAt : SubDomainResource :=
  { validSnapshot with SyncAt := ⟨0, 0⟩ }

/-- The same snapshot, not verified. -/
def unverifiedSnapshot : SubDomainResource :=
  { validSnapshot with Verified := false }

/-- A verified snapshot without networks. -/
def noNetworkSnapshot : SubDomainResource :=
  { validSnapshot with Networks := [] }

/-- State Idle: the gate token is present; the store holds the record of `sub-1`. -/
def idleState : State :=
  { cache := { Sequence := 7, RefreshSignal := true }
    db := { subDomains := [{ Lcuuid := "sub-0" }, { Lcuuid := "sub-1", State := 1 }] }
    trace := [] }

/-- State Running: the gate token is withdrawn. -/
def runningState : State :=
  { idleState with cache := { Sequence := 7, RefreshSignal := false } }

/-- State Idle over a store whose first operation succeeds and whose second fails. -/
def saveFailsState : State :=
  { idleState with db := { idleState.db with faults := [false, true] } }

/-- A platform-data change detector that reports no change. -/
def noChange : List ResourceUpdater → List Event → Bool := fun _ _ => false

/-- The metadata of the parent domain `domain-1`. -/
def exampleMetadata : Metadata :=
  { ORGID := 1, Domain := "domain-1", SubDomain := { Lcuuid := "" } }

/-- A registry that knows the sub-domain `sub-0` only. -/
def exampleRegistry : subDomains :=
  { metadata := exampleMetadata
    refreshers :=
      [("sub-0", newSubDomain (exampleMetadata.SetSubDomain { Lcuuid := "sub-0" })
        .ofDomain "sub-0")] }

/-- A world with the cache of `sub-0` and the records of `sub-0` and `sub-1`. -/
def exampleWorld : World :=
  { caches := [("sub-0", { Sequence := 3, RefreshSignal := true })]
    db := { subDomains := [{ Lcuuid := "sub-0" }, { Lcuuid := "sub-1", State := 1 }] }
    trace := [] }

/-- A snapshot map that reports `sub-1` and no longer reports `sub-0`. -/
def exampleCloudData : List (String × SubDomainResource) :=
  [("sub-1", validSnapshot)]

/-- The calls to the persisted sub-domain store among the events. -/
def Event.isStoreCall : Event → Bool
  | .DBFirst _ => true
  | .DBSave _ => true
  | _ => false

/-- The trace of a pass that runs, at the end of its delete sweep: the log level call, the
VTap refresh, the adds of the pipeline and the delete calls `dels`. -/
def sweptTrace (s : subDomain) (cloudData : SubDomainResource) (st : State)
    (dels : List ResourceUpdater) : List Event :=
  st.trace
    ++ [Event.SetLogLevel s.cache .INFO .RefreshSignalCallerSubDomain, Event.RefreshVTaps s.cache]
    ++ (getUpdatersInOrder s cloudData).map Event.HandleAddAndUpdate
    ++ dels.map Event.HandleDelete

/-- The snapshot of the valid example with two pods and a process. -/
def richSnapshot : SubDomainResource :=
  { validSnapshot with Pods := [⟨"pod-1"⟩, ⟨"pod-2"⟩], Processes := [⟨"proc-1"⟩] }

/-- A platform-data change detector that always reports a change. -/
def allChange : List ResourceUpdater → List Event → Bool := fun _ _ => true

/-- A snapshot map whose second entry, `sub-9`, has no record in the store of the example
world. -/
def failingCloudData : List (String × SubDomainResource) :=
  [("sub-1", validSnapshot), ("sub-9", validSnapshot), ("sub-0", validSnapshot)]

/-- The events written by the methods of a refresher (`tryRefresh`, `clear`): every event that
is neither a call marker nor a cache creation. -/
def Event.isInner : Event → Bool
  | .tryRefresh _ _ => false
  | .clear _ => false
  | .CreateSubDomainCacheIfNotExists _ => false
  | _ => true

/-- The lcuuids of the cache get-or-create calls of a trace, in order. -/
def creations (tr : List Event) : List String :=
  tr.filterMap fun e =>
    match e with
    | .CreateSubDomainCacheIfNotExists k => some k
    | _ => none

/-- The trace `tr'` extends `tr` by events of the refresher methods only. -/
def Inner (tr tr' : List Event) : Prop :=
  ∃ ev, tr' = tr ++ ev ∧ ∀ e ∈ ev, e.isInner = true

/-- The snapshot map that reports `sub-0` only. -/
def secondCloudData : List (String × SubDomainResource) :=
  [("sub-0", validSnapshot)]

end recorder

namespace log_data

/-! ## Application-layer flow log (`server/ingester/flow_log/log_data/l7_flow_log.go`) -/

/-- The fields of `config.TraceIdWithIndex` read by `ParseTraceIdIndex`. -/
structure TraceIdWithIndex where
  Disabled : Bool := false
  TypeIsIncrementalId : Bool := false
  FormatIsHex : Bool := false
  IncrementalIdLocationStart : Int := 0
  IncrementalIdLocationLength : Int := 0
deriving DecidableEq, Repr

/-- A `float64`, by its bit pattern; this file only copies such values. -/
structure Float64 where
  bits : Nat
deriving DecidableEq, Repr

/-- The request part `l.Req` of `pb.AppProtoLogsData`. -/
structure L7Request where
  Domain : String := ""
  Resource : String := ""
  ReqType : String := ""
  Endpoint : String := ""
deriving DecidableEq, Repr

/-- The response part `l.Resp` of `pb.AppProtoLogsData`; `Code` is an `int32`. -/
structure L7Response where
  Status : Nat := 0
  Result : String := ""
  Code : Int := 0
  Exception : String := ""
deriving DecidableEq, Repr

/-- The part `l.ExtInfo` of `pb.AppProtoLogsData`; `RequestId` is a `uint32`. -/
structure ExtendedInfo where
  RequestId : Nat := 0
  ServiceName : String := ""
  XRequestId_0 : String := ""
  XRequestId_1 : String := ""
  ClientIp : String := ""
  HttpUserAgent : String := ""
  HttpReferer : String := ""
  RpcService : String := ""
  AttributeNames : List String := []
  AttributeValues : List String := []
  MetricsNames : List String := []
  MetricsValues : List Float64 := []
deriving DecidableEq, Repr

/-- The part `l.TraceInfo` of `pb.AppProtoLogsData`. -/
structure TraceInfo where
  SpanId : String := ""
  TraceId : String := ""
  ParentSpanId : String := ""
deriving DecidableEq, Repr

/-- The fields of `pb.AppProtoLogsData` read by `fillL7FlowLog`.  `ReqLen` and `RespLen` are
`int32`, `RowEffect`, `DirectionScore` and the captured byte counts are `uint32`; the four
parts are pointers, `none` for nil. -/
structure AppProtoLogsData where
  Version : String := ""
  ReqLen : Int := 0
  RespLen : Int := 0
  RowEffect : Nat := 0
  DirectionScore : Nat := 0
  CapturedRequestByte : Nat := 0
  CapturedResponseByte : Nat := 0
  Req : Option L7Request := none
  Resp : Option L7Response := none
  ExtInfo : Option ExtendedInfo := none
  TraceInfo : Option TraceInfo := none
deriving DecidableEq, Repr

/-- A pointer field of `L7FlowLog`: nil, or the address of the lower-case field of the same
record that holds its value (`RequestId = &h.requestId`). -/
inductive FieldPtr where
  | nil
  | addr
deriving DecidableEq, Repr

/-- Go `struct L7FlowLog`: the fields read or written by `fillL7FlowLog`, `fillExceptionDesc`
and `GenerateNewFlowTags`, those of the embedded `L7Base` and `KnowledgeGraph` included.  The
default values are the zero value `L7FlowLog{}`.  `MsgType` is the Go field `Type` (a keyword
here), which `Fill` sets from `l.Base.Head.MsgType`. -/
structure L7FlowLog where
  OrgId : Nat := 0
  TeamID : Nat := 0
  L3EpcID0 : Int := 0
  L3EpcID1 : Int := 0
  PodNSID0 : Nat := 0
  PodNSID1 : Nat := 0
  EndTime : Int := 0
  L7Protocol : Nat := 0
  Version : String := ""
  MsgType : Nat := 0
  RequestType : String := ""
  RequestDomain : String := ""
  RequestResource : String := ""
  Endpoint : String := ""
  RequestId : FieldPtr := .nil
  requestId : Nat := 0
  ResponseStatus : Nat := 0
  ResponseCode : FieldPtr := .nil
  responseCode : Int := 0
  ResponseException : String := ""
  ResponseResult : String := ""
  HttpProxyClient : String := ""
  XRequestId0 : String := ""
  XRequestId1 : String := ""
  TraceId : String := ""
  TraceIdIndex : Nat := 0
  SpanId : String := ""
  ParentSpanId : String := ""
  AppService : String := ""
  AppInstance : String := ""
  RequestLength : FieldPtr := .nil
  requestLength : Int := 0
  ResponseLength : FieldPtr := .nil
  responseLength : Int := 0
  SqlAffectedRows : FieldPtr := .nil
  sqlAffectedRows : Nat := 0
  DirectionScore : Nat := 0
  CapturedRequestByte : Nat := 0
  CapturedResponseByte : Nat := 0
  AttributeNames : List String := []
  AttributeValues : List String := []
  MetricsNames : List String := []
  MetricsValues : List Float64 := []
deriving DecidableEq, Repr

/-- Reads a pointer field: nothing for nil, the field it points to otherwise. -/
def FieldPtr.read {α : Type} (p : FieldPtr) (field : α) : Option α :=
  match p with
  | .nil => none
  | .addr => some field

/-- The value behind `h.RequestId`. -/
def L7FlowLog.RequestIdValue (h : L7FlowLog) : Option Nat := h.RequestId.read h.requestId

/-- The value behind `h.ResponseCode`. -/
def L7FlowLog.ResponseCodeValue (h : L7FlowLog) : Option Int := h.ResponseCode.read h.responseCode

/-- The value behind `h.RequestLength`. -/
def L7FlowLog.RequestLengthValue (h : L7FlowLog) : Option Int :=
  h.RequestLength.read h.requestLength

/-- The value behind `h.ResponseLength`. -/
def L7FlowLog.ResponseLengthValue (h : L7FlowLog) : Option Int :=
  h.ResponseLength.read h.responseLength

/-- The Kafka commands named in `IsKafkaSupportedCommand`. -/
inductive KafkaCommand where
  | Fetch | Produce | JoinGroup | LeaveGroup | SyncGroup
deriving DecidableEq, Repr

/-- What the file takes from outside the source files: constants of package `datatype`, the
table `datatype.KafkaCommandString`, the exception tables of package `log_data`,
`utils.GetTraceIdIndex` (a `uint64` or an error) and the divisor `US_TO_S_DEVISOR`.  Go rejects
a `switch` with two equal constant cases, so the protocol constants are pairwise distinct. -/
structure Env where
  MSG_T_REQUEST : Nat
  MSG_T_RESPONSE : Nat
  L7_PROTOCOL_HTTP_1 : Nat
  L7_PROTOCOL_HTTP_2 : Nat
  L7_PROTOCOL_DNS : Nat
  L7_PROTOCOL_DUBBO : Nat
  L7_PROTOCOL_KAFKA : Nat
  L7_PROTOCOL_MQTT : Nat
  L7_PROTOCOL_MYSQL : Nat
  L7_PROTOCOL_REDIS : Nat
  L7_PROTOCOL_SOFARPC : Nat
  STATUS_TIMEOUT : Nat
  STATUS_SERVER_ERROR : Nat
  STATUS_CLIENT_ERROR : Nat
  KafkaCommandString : KafkaCommand → String
  GetHTTPExceptionDesc : Nat → String
  GetDNSExceptionDesc : Nat → String
  GetDubboExceptionDesc : Nat → String
  GetKafkaExceptionDesc : Int → String
  GetMQTTV3ExceptionDesc : Nat → String
  GetMQTTV5ExceptionDesc : Nat → String
  GetTraceIdIndex : String → Bool → Bool → Int → Int → Except String (Fin (2 ^ 64))
  US_TO_S_DEVISOR : Int
  L7_FLOW_ID_String : String

/-- The constant `datatype.L7PROTOCOL_LOG_RESP_CODE_NONE`; the comment above `fillL7FlowLog`
gives its value: a response code of -32768 counts as no value. -/
def L7PROTOCOL_LOG_RESP_CODE_NONE : Int := -32768

/-- Go conversion `uint16(code)` of an `int32`. -/
def toUint16 (code : Int) : Nat := (code % 65536).toNat

/-- Go conversion `int16(code)` of an `int32`. -/
def toInt16 (code : Int) : Int := (code + 32768) % 65536 - 32768

/-- Go `ParseTraceIdIndex`.  The global `lastTraceIdIndex` (a `uint64`) is passed in and
returned as the second component; the first is the result. -/
def ParseTraceIdIndex (env : Env) (traceId : String) (traceIdIndexCfg : TraceIdWithIndex)
    (lastTraceIdIndex : Nat) : Nat × Nat :=
  if traceIdIndexCfg.Disabled then (0, lastTraceIdIndex)
  else if traceId.utf8ByteSize == 0 then ((lastTraceIdIndex + 1) % 2 ^ 64, lastTraceIdIndex)
  else
    match env.GetTraceIdIndex traceId traceIdIndexCfg.TypeIsIncrementalId
        traceIdIndexCfg.FormatIsHex traceIdIndexCfg.IncrementalIdLocationStart
        traceIdIndexCfg.IncrementalIdLocationLength with
    | .error _ => ((lastTraceIdIndex + 1) % 2 ^ 64, lastTraceIdIndex)
    | .ok index => (index.val, index.val)

/-- Go `IsKafkaSupportedCommand`. -/
def IsKafkaSupportedCommand (env : Env) (cmd : String) : Bool :=
  [KafkaCommand.Fetch, .Produce, .JoinGroup, .LeaveGroup, .SyncGroup].any
    fun supportedCmd => cmd == env.KafkaCommandString supportedCmd

/-- Go `L7FlowLog.fillExceptionDesc`; `resp` is `l.Resp`, not nil where the function is
called. -/
def fillExceptionDesc (env : Env) (h : L7FlowLog) (l : AppProtoLogsData) (resp : L7Response) :
    L7FlowLog :=
  if h.ResponseStatus != env.STATUS_SERVER_ERROR && h.ResponseStatus != env.STATUS_CLIENT_ERROR
  then h
  else
    let code := resp.Code
    if h.L7Protocol == env.L7_PROTOCOL_HTTP_1 || h.L7Protocol == env.L7_PROTOCOL_HTTP_2 then
      { h with ResponseException := env.GetHTTPExceptionDesc (toUint16 code) }
    else if h.L7Protocol == env.L7_PROTOCOL_DNS then
      { h with ResponseException := env.GetDNSExceptionDesc (toUint16 code) }
    else if h.L7Protocol == env.L7_PROTOCOL_DUBBO then
      { h with ResponseException := env.GetDubboExceptionDesc (toUint16 code) }
    else if h.L7Protocol == env.L7_PROTOCOL_KAFKA then
      { h with ResponseException := env.GetKafkaExceptionDesc (toInt16 code) }
    else if h.L7Protocol == env.L7_PROTOCOL_MQTT then
      if l.Version != "5" then
        { h with ResponseException := env.GetMQTTV3ExceptionDesc (toUint16 code) }
      else
        { h with ResponseException := env.GetMQTTV5ExceptionDesc (toUint16 code) }
    else
      { h with ResponseException := resp.Exception }

/-- Lines 320-329 of `fillL7FlowLog`: version, lengths, affected rows, direction score and
captured bytes.  `int64(l.ReqLen)`, `int64(l.RespLen)` and `uint64(l.RowEffect)` widen and keep
the value; `uint8(l.DirectionScore)` truncates. -/
def fillL7FlowLog.head (h : L7FlowLog) (l : AppProtoLogsData) : L7FlowLog :=
  let h := { h with Version := l.Version }
  let h := { h with requestLength := l.ReqLen }
  let h := { h with responseLength := l.RespLen }
  let h := { h with sqlAffectedRows := l.RowEffect }
  let h := if h.sqlAffectedRows != 0 then { h with SqlAffectedRows := .addr } else h
  let h := { h with DirectionScore := l.DirectionScore % 256 }
  let h := { h with CapturedRequestByte := l.CapturedRequestByte }
  { h with CapturedResponseByte := l.CapturedResponseByte }

/-- The block `if l.Req != nil { ... }` of `fillL7FlowLog`. -/
def fillL7FlowLog.request (env : Env) (h : L7FlowLog) (l : AppProtoLogsData) : L7FlowLog :=
  match l.Req with
  | none => h
  | some req =>
    let h := { h with RequestDomain := req.Domain }
    let h := { h with RequestResource := req.Resource }
    let h := { h with RequestType := req.ReqType }
    let h :=
      if h.requestLength != -1 && h.MsgType != env.MSG_T_RESPONSE % 256 then
        { h with RequestLength := .addr }
      else h
    { h with Endpoint := req.Endpoint }

/-- The block `if l.Resp != nil { ... }` of `fillL7FlowLog`. -/
def fillL7FlowLog.response (env : Env) (h : L7FlowLog) (l : AppProtoLogsData) : L7FlowLog :=
  match l.Resp with
  | none => h
  | some resp =>
    let h := { h with ResponseStatus := resp.Status % 256 }
    if h.MsgType != env.MSG_T_REQUEST % 256 then
      let h := { h with ResponseResult := resp.Result }
      let h := { h with responseCode := resp.Code }
      let h := { h with ResponseException := resp.Exception }
      let h := if h.ResponseException == "" then fillExceptionDesc env h l resp else h
      let h :=
        if h.responseCode != L7PROTOCOL_LOG_RESP_CODE_NONE then { h with ResponseCode := .addr }
        else h
      if h.responseLength != -1 then { h with ResponseLength := .addr } else h
    else h

/-- The block `if l.ExtInfo != nil { ... }` of `fillL7FlowLog`. -/
def fillL7FlowLog.extInfo (h : L7FlowLog) (l : AppProtoLogsData) : L7FlowLog :=
  match l.ExtInfo with
  | none => h
  | some ext =>
    let h := { h with requestId := ext.RequestId }
    let h := if h.requestId != 0 then { h with RequestId := .addr } else h
    let h := { h with AppService := ext.ServiceName }
    let h := { h with XRequestId0 := ext.XRequestId_0 }
    let h := { h with XRequestId1 := ext.XRequestId_1 }
    let h := { h with HttpProxyClient := ext.ClientIp }
    let h :=
      if ext.HttpUserAgent != "" then
        { h with AttributeNames := h.AttributeNames ++ ["http_user_agent"],
                 AttributeValues := h.AttributeValues ++ [ext.HttpUserAgent] }
      else h
    let h :=
      if ext.HttpReferer != "" then
        { h with AttributeNames := h.AttributeNames ++ ["http_referer"],
                 AttributeValues := h.AttributeValues ++ [ext.HttpReferer] }
      else h
    let h :=
      if ext.RpcService != "" then
        { h with AttributeNames := h.AttributeNames ++ ["rpc_service"],
                 AttributeValues := h.AttributeValues ++ [ext.RpcService] }
      else h
    let h := { h with AttributeNames := h.AttributeNames ++ ext.AttributeNames }
    let h := { h with AttributeValues := h.AttributeValues ++ ext.AttributeValues }
    let h := { h with MetricsNames := h.MetricsNames ++ ext.MetricsNames }
    { h with MetricsValues := h.MetricsValues ++ ext.MetricsValues }

/-- The block `if l.TraceInfo != nil { ... }` of `fillL7FlowLog`. -/
def fillL7FlowLog.traceInfo (h : L7FlowLog) (l : AppProtoLogsData) : L7FlowLog :=
  match l.TraceInfo with
  | none => h
  | some t =>
    let h := { h with SpanId := t.SpanId }
    let h := { h with TraceId := t.TraceId }
    { h with ParentSpanId := t.ParentSpanId }

/-- The `switch datatype.L7Protocol(h.L7Protocol)` that ends `fillL7FlowLog`. -/
def fillL7FlowLog.special (env : Env) (h : L7FlowLog) (l : AppProtoLogsData) : L7FlowLog :=
  if h.L7Protocol == env.L7_PROTOCOL_KAFKA then
    match l.Req with
    | none => h
    | some req =>
      let h :=
        if h.responseCode == 0 && !IsKafkaSupportedCommand env req.ReqType then
          { h with ResponseStatus := env.STATUS_TIMEOUT % 256, ResponseCode := .nil }
        else h
      { h with RequestId := .addr }
  else if h.L7Protocol == env.L7_PROTOCOL_SOFARPC then
    { h with RequestId := .addr }
  else h

/-- Go `L7FlowLog.fillL7FlowLog`.  `cfg` is `cfg.Base.TraceIdWithIndex`; the global
`lastTraceIdIndex` is passed in and returned. -/
def fillL7FlowLog (env : Env) (h : L7FlowLog) (l : AppProtoLogsData) (cfg : TraceIdWithIndex)
    (lastTraceIdIndex : Nat) : L7FlowLog × Nat :=
  let h := fillL7FlowLog.head h l
  let h := fillL7FlowLog.request env h l
  let h := fillL7FlowLog.response env h l
  let h := fillL7FlowLog.extInfo h l
  let h := fillL7FlowLog.traceInfo h l
  let r := ParseTraceIdIndex env h.TraceId cfg lastTraceIdIndex
  let h := { h with TraceIdIndex := r.1 }
  (fillL7FlowLog.special env h l, r.2)

/-! ### Flow tags -/

/-- The field types of package `flow_tag`; `FieldTag` is the zero value. -/
inductive FieldType where
  | FieldTag
  | FieldMetrics
deriving DecidableEq, Repr

/-- The tag types passed to `flow_tag.AcquireFlowTag`. -/
inductive TagType where
  | TagField
  | TagFieldValue
deriving DecidableEq, Repr

/-- Go `flow_tag.FlowTagInfo`; the default values are its zero value. -/
structure FlowTagInfo where
  Table : String := ""
  VpcId : Int := 0
  PodNsId : Nat := 0
  OrgId : Nat := 0
  TeamID : Nat := 0
  FieldType : FieldType := .FieldTag
  FieldName : String := ""
  FieldValue : String := ""
deriving DecidableEq, Repr

/-- Go `flow_tag.FlowTag`, as `AcquireFlowTag` returns it and the loop fills it. -/
structure FlowTag where
  TagType : TagType
  Timestamp : Nat
  FlowTagInfo : FlowTagInfo
deriving DecidableEq, Repr

/-- The two operations of the caches `FieldCache` and `FieldValueCache` used by
`GenerateNewFlowTags`, over a cache state `σ`; they are outside the source files.  `AddOrGet`
returns the old timestamp and whether the key was present. -/
structure LRUOps (σ : Type) where
  AddOrGet : σ → FlowTagInfo → Nat → (Nat × Bool) × σ
  Add : σ → FlowTagInfo → Nat → σ

/-- The fields of `flow_tag.FlowTagCache` used by `GenerateNewFlowTags`. -/
structure FlowTagCache (σ : Type) where
  FieldCache : σ
  FieldValueCache : σ
  CacheFlushTimeout : Nat
  FlowTagInfoBuffer : FlowTagInfo
  Fields : List FlowTag
  FieldValues : List FlowTag

/-- Go `extraFieldNamesNeedWriteFlowTag`. -/
def extraFieldNamesNeedWriteFlowTag : List String := ["app_service", "endpoint", "app_instance"]

/-- The computation of `minNamesLen` in `GenerateNewFlowTags`. -/
def minNamesLen (namesLen valuesLen : Nat) : Nat :=
  if namesLen != valuesLen then
    if namesLen > valuesLen then valuesLen else namesLen
  else namesLen

/-- The slice `attributeNames` of `GenerateNewFlowTags`. -/
def attributeNames (h : L7FlowLog) : List String :=
  h.AttributeNames ++ extraFieldNamesNeedWriteFlowTag

/-- The slice `attributeValues` of `GenerateNewFlowTags`. -/
def attributeValues (h : L7FlowLog) : List String :=
  h.AttributeValues ++ [h.AppService, h.Endpoint, h.AppInstance]

/-- The names the attribute loop ranges over: `attributeNames[:minNamesLen]`. -/
def loopNames (h : L7FlowLog) : List String :=
  (attributeNames h).take (minNamesLen (attributeNames h).length (attributeValues h).length)

/-- The loop `for i, name := range attributeNames[:minNamesLen]`, from index `i` on; the
names still to visit are the list argument.  `attributeValues[i]` out of range is a panic. -/
def attributeLoop {σ : Type} (ops : LRUOps σ) (h : L7FlowLog) (time : Nat) :
    Nat → List String → FlowTagCache σ → Except recorder.Panic (FlowTagCache σ)
  | _, [], cache => .ok cache
  | i, name :: rest, cache =>
    match (attributeValues h)[i]? with
    | none => .error (.indexOutOfRange i (attributeValues h).length)
    | some value =>
      if value == "" then attributeLoop ops h time (i + 1) rest cache
      else
        let cache := { cache with
          FlowTagInfoBuffer := { cache.FlowTagInfoBuffer with FieldName := name } }
        let cache := { cache with
          FlowTagInfoBuffer := { cache.FlowTagInfoBuffer with FieldValue := value } }
        let r := ops.AddOrGet cache.FieldValueCache cache.FlowTagInfoBuffer time
        let cache := { cache with FieldValueCache := r.2 }
        if r.1.2 && (r.1.1 + cache.CacheFlushTimeout) % 2 ^ 32 >= time then
          attributeLoop ops h time (i + 1) rest cache
        else
          let cache :=
            if r.1.2 then
              { cache with
                FieldValueCache := ops.Add cache.FieldValueCache cache.FlowTagInfoBuffer time }
            else cache
          let tagFieldValue : FlowTag :=
            { TagType := .TagFieldValue, Timestamp := time,
              FlowTagInfo := cache.FlowTagInfoBuffer }
          let cache := { cache with FieldValues := cache.FieldValues ++ [tagFieldValue] }
          if i >= h.AttributeNames.length then attributeLoop ops h time (i + 1) rest cache
          else
            let cache := { cache with
              FlowTagInfoBuffer := { cache.FlowTagInfoBuffer with FieldValue := "" } }
            let r := ops.AddOrGet cache.FieldCache cache.FlowTagInfoBuffer time
            let cache := { cache with FieldCache := r.2 }
            if r.1.2 && (r.1.1 + cache.CacheFlushTimeout) % 2 ^ 32 >= time then
              attributeLoop ops h time (i + 1) rest cache
            else
              let cache :=
                if r.1.2 then
                  { cache with
                    FieldCache := ops.Add cache.FieldCache cache.FlowTagInfoBuffer time }
                else cache
              let tagField : FlowTag :=
                { TagType := .TagField, Timestamp := time,
                  FlowTagInfo := cache.FlowTagInfoBuffer }
              let cache := { cache with Fields := cache.Fields ++ [tagField] }
              attributeLoop ops h time (i + 1) rest cache

/-- The loop `for _, name := range h.MetricsNames`. -/
def metricsLoop {σ : Type} (ops : LRUOps σ) (time : Nat) :
    List String → FlowTagCache σ → FlowTagCache σ
  | [], cache => cache
  | name :: rest, cache =>
    let cache := { cache with
      FlowTagInfoBuffer := { cache.FlowTagInfoBuffer with FieldName := name } }
    let r := ops.AddOrGet cache.FieldCache cache.FlowTagInfoBuffer time
    let cache := { cache with FieldCache := r.2 }
    if r.1.2 && (r.1.1 + cache.CacheFlushTimeout) % 2 ^ 32 >= time then
      metricsLoop ops time rest cache
    else
      let cache :=
        if r.1.2 then
          { cache with FieldCache := ops.Add cache.FieldCache cache.FlowTagInfoBuffer time }
        else cache
      let tagField : FlowTag :=
        { TagType := .TagField, Timestamp := time, FlowTagInfo := cache.FlowTagInfoBuffer }
      metricsLoop ops time rest { cache with Fields := cache.Fields ++ [tagField] }

/-- The body of the loop `for idx := 0; idx < l; idx++`. -/
def flowTagsBody {σ : Type} (env : Env) (ops : LRUOps σ) (h : L7FlowLog) (time : Nat)
    (idx : Nat) (cache : FlowTagCache σ) : Except recorder.Panic (FlowTagCache σ) :=
  match [h.L3EpcID0, h.L3EpcID1][idx]?, [h.PodNSID0, h.PodNSID1][idx]? with
  | some vpcId, some podNsId =>
    let cache := { cache with
      FlowTagInfoBuffer :=
        { Table := env.L7_FLOW_ID_String, VpcId := vpcId, PodNsId := podNsId,
          OrgId := h.OrgId, TeamID := h.TeamID } }
    match attributeLoop ops h time 0 (loopNames h) cache with
    | .error p => .error p
    | .ok cache =>
      let cache := { cache with
        FlowTagInfoBuffer := { cache.FlowTagInfoBuffer with FieldType := .FieldMetrics } }
      let cache := { cache with
        FlowTagInfoBuffer := { cache.FlowTagInfoBuffer with FieldValue := "" } }
      .ok (metricsLoop ops time h.MetricsNames cache)
  | _, _ => .error (.indexOutOfRange idx 2)

/-- The loop `for idx := 0; idx < l; idx++`; the first argument is `l - idx`. -/
def flowTagsLoop {σ : Type} (env : Env) (ops : LRUOps σ) (h : L7FlowLog) (time : Nat) :
    Nat → Nat → FlowTagCache σ → Except recorder.Panic (FlowTagCache σ)
  | 0, _, cache => .ok cache
  | n + 1, idx, cache =>
    match flowTagsBody env ops h time idx cache with
    | .error p => .error p
    | .ok cache => flowTagsLoop env ops h time n (idx + 1) cache

/-- Go `L7FlowLog.GenerateNewFlowTags`.  `time` is `uint32(h.L7Base.EndTime /
US_TO_S_DEVISOR)`, a truncating division of `int64` values. -/
def GenerateNewFlowTags {σ : Type} (env : Env) (ops : LRUOps σ) (h : L7FlowLog)
    (cache : FlowTagCache σ) : Except recorder.Panic (FlowTagCache σ) :=
  let l := if h.L3EpcID0 == h.L3EpcID1 && h.PodNSID0 == h.PodNSID1 then 1 else 2
  let time := ((h.EndTime.tdiv env.US_TO_S_DEVISOR) % 2 ^ 32).toNat
  let cache := { cache with Fields := [] }
  let cache := { cache with FieldValues := [] }
  flowTagsLoop env ops h time l 0 cache

/-! ### Example inputs -/

/-- An environment with the protocol, message-type and status codes listed in the column
comments of `L7FlowLogColumns`, empty exception tables and a trace-id parser that accepts
the trace id `77` only. -/
def exampleEnv : Env :=
  { MSG_T_REQUEST := 0
    MSG_T_RESPONSE := 1
    L7_PROTOCOL_HTTP_1 := 20
    L7_PROTOCOL_HTTP_2 := 21
    L7_PROTOCOL_DNS := 120
    L7_PROTOCOL_DUBBO := 40
    L7_PROTOCOL_KAFKA := 100
    L7_PROTOCOL_MQTT := 101
    L7_PROTOCOL_MYSQL := 60
    L7_PROTOCOL_REDIS := 80
    L7_PROTOCOL_SOFARPC := 43
    STATUS_TIMEOUT := 2
    STATUS_SERVER_ERROR := 3
    STATUS_CLIENT_ERROR := 4
    KafkaCommandString := fun c =>
      match c with
      | .Fetch => "Fetch"
      | .Produce => "Produce"
      | .JoinGroup => "JoinGroup"
      | .LeaveGroup => "LeaveGroup"
      | .SyncGroup => "SyncGroup"
    GetHTTPExceptionDesc := fun _ => ""
    GetDNSExceptionDesc := fun _ => ""
    GetDubboExceptionDesc := fun _ => ""
    GetKafkaExceptionDesc := fun _ => ""
    GetMQTTV3ExceptionDesc := fun _ => ""
    GetMQTTV5ExceptionDesc := fun _ => ""
    GetTraceIdIndex := fun traceId _ _ _ _ =>
      if traceId = "77" then .ok 77 else .error "not an index"
    US_TO_S_DEVISOR := 1000000
    L7_FLOW_ID_String := "l7_flow_log" }

/-- A configuration with the trace-id index disabled. -/
def disabledCfg : TraceIdWithIndex := { Disabled := true }

/-- A configuration with the trace-id index enabled. -/
def enabledCfg : TraceIdWithIndex := { Disabled := false }

/-- A session log of protocol Kafka as `Fill` hands it to `fillL7FlowLog`: the zero value
with the message type and the protocol set. -/
def kafkaLog : L7FlowLog := { MsgType := 2, L7Protocol := 100 }

/-- A session log of protocol SofaRPC. -/
def sofaLog : L7FlowLog := { MsgType := 2, L7Protocol := 43 }

/-- An input with a request, a response with code 0 and no extended info. -/
def plainInput : AppProtoLogsData :=
  { ReqLen := 10, RespLen := -1,
    Req := some { ReqType := "Fetch" },
    Resp := some { Code := 0 } }

/-- An input whose lengths and response code are the "no value" markers. -/
def noValueInput : AppProtoLogsData :=
  { ReqLen := -1, RespLen := -1,
    Req := some {},
    Resp := some { Code := -32768 } }

/-- A log with two attribute names and one attribute value. -/
def unevenLog : L7FlowLog :=
  { L3EpcID0 := 1, L3EpcID1 := 2, EndTime := 5000000,
    AttributeNames := ["endpoint", "k2"], AttributeValues := ["v1"],
    AppService := "svc", Endpoint := "ep", AppInstance := "inst",
    MetricsNames := ["m1"] }

/-- Caches that remember nothing: `AddOrGet` always reports a new key. -/
def forgetful : LRUOps Unit :=
  { AddOrGet := fun _ _ _ => ((0, false), ()), Add := fun _ _ _ => () }

/-- An empty flow-tag cache over `forgetful`. -/
def emptyCache : FlowTagCache Unit :=
  { FieldCache := (), FieldValueCache := (), CacheFlushTimeout := 60,
    FlowTagInfoBuffer := {}, Fields := [], FieldValues := [] }

/-- The fields of an `L7FlowLog` that decide its nullable request id, response code and
lengths. -/
structure Core where
  MsgType : Nat
  L7Protocol : Nat
  RequestLength : FieldPtr
  requestLength : Int
  ResponseLength : FieldPtr
  responseLength : Int
  ResponseCode : FieldPtr
  responseCode : Int
  RequestId : FieldPtr
  requestId : Nat
deriving DecidableEq, Repr

/-- The projection of a log onto `Core`. -/
def L7FlowLog.core (h : L7FlowLog) : Core :=
  { MsgType := h.MsgType
    L7Protocol := h.L7Protocol
    RequestLength := h.RequestLength
    requestLength := h.requestLength
    ResponseLength := h.ResponseLength
    responseLength := h.responseLength
    ResponseCode := h.ResponseCode
    responseCode := h.responseCode
    RequestId := h.RequestId
    requestId := h.requestId }

/-- A log as `AcquireL7FlowLog` and `Fill` hand it to `fillL7FlowLog`: reset by
`ReleaseL7FlowLog` to the zero value, so that the nullable fields are nil and the fields
behind them zero; the fields set by `Fill` (message type, protocol, `L7Base`) are free. -/
def FreshlyReset (h : L7FlowLog) : Prop :=
  h.RequestId = .nil ∧ h.requestId = 0 ∧ h.ResponseCode = .nil ∧ h.responseCode = 0 ∧
  h.RequestLength = .nil ∧ h.requestLength = 0 ∧ h.ResponseLength = .nil ∧
  h.responseLength = 0 ∧ h.SqlAffectedRows = .nil ∧ h.sqlAffectedRows = 0

instance (h : L7FlowLog) : Decidable (FreshlyReset h) := by
  unfold FreshlyReset
  exact inferInstance

/-- The effect of lines 320-329 of `fillL7FlowLog` on the core fields. -/
def Core.head (c : Core) (l : AppProtoLogsData) : Core :=
  { c with requestLength := l.ReqLen, responseLength := l.RespLen }

/-- The effect of the block `if l.Req != nil` on the core fields. -/
def Core.request (env : Env) (c : Core) (l : AppProtoLogsData) : Core :=
  match l.Req with
  | none => c
  | some _ =>
    if c.requestLength != -1 && c.MsgType != env.MSG_T_RESPONSE % 256 then
      { c with RequestLength := .addr }
    else c

/-- The effect of the block `if l.Resp != nil` on the core fields. -/
def Core.response (env : Env) (c : Core) (l : AppProtoLogsData) : Core :=
  match l.Resp with
  | none => c
  | some resp =>
    if c.MsgType != env.MSG_T_REQUEST % 256 then
      if c.responseLength != -1 then
        if resp.Code != L7PROTOCOL_LOG_RESP_CODE_NONE then
          { c with responseCode := resp.Code, ResponseCode := .addr, ResponseLength := .addr }
        else { c with responseCode := resp.Code, ResponseLength := .addr }
      else
        if resp.Code != L7PROTOCOL_LOG_RESP_CODE_NONE then
          { c with responseCode := resp.Code, ResponseCode := .addr }
        else { c with responseCode := resp.Code }
    else c

/-- The effect of the block `if l.ExtInfo != nil` on the core fields. -/
def Core.extInfo (c : Core) (l : AppProtoLogsData) : Core :=
  match l.ExtInfo with
  | none => c
  | some ext =>
    if ext.RequestId != 0 then { c with requestId := ext.RequestId, RequestId := .addr }
    else { c with requestId := ext.RequestId }

/-- The effect of the final `switch` on the core fields. -/
def Core.special (env : Env) (c : Core) (l : AppProtoLogsData) : Core :=
  if c.L7Protocol == env.L7_PROTOCOL_KAFKA then
    match l.Req with
    | none => c
    | some req =>
      if c.responseCode == 0 && !IsKafkaSupportedCommand env req.ReqType then
        { c with ResponseCode := .nil, RequestId := .addr }
      else { c with RequestId := .addr }
  else if c.L7Protocol == env.L7_PROTOCOL_SOFARPC then
    { c with RequestId := .addr }
  else c

/-- What holds of the core fields from the first block on, for a log whose nullable fields
were nil: the lengths are the input's, a length pointer is set only for a length other than
-1, and the response code pointer only for a response with a code other than the "none" code,
which the field behind it then holds. -/
def LengthsInv (l : AppProtoLogsData) (c : Core) : Prop :=
  c.requestLength = l.ReqLen ∧ c.responseLength = l.RespLen ∧
  (c.RequestLength = .addr → l.ReqLen ≠ -1) ∧
  (c.ResponseLength = .addr → l.RespLen ≠ -1) ∧
  (c.ResponseCode = .addr → ∃ resp, l.Resp = some resp ∧
    resp.Code ≠ L7PROTOCOL_LOG_RESP_CODE_NONE ∧ c.responseCode = resp.Code)

/-! ### The attribute loop, pair by pair -/

/-- The timestamp `time` of `GenerateNewFlowTags`: `uint32(h.L7Base.EndTime /
US_TO_S_DEVISOR)`. -/
def flowTagTime (env : Env) (h : L7FlowLog) : Nat :=
  ((h.EndTime.tdiv env.US_TO_S_DEVISOR) % 2 ^ 32).toNat

/-- The name/value pairs at the indices that `attributeNames` and `attributeValues` have in
common, each with its index: entry `i` is `(i, attributeNames[i], attributeValues[i])`. -/
def visitedPairs (h : L7FlowLog) : List (Nat × String × String) :=
  (List.zip (attributeNames h) (attributeValues h)).enum

/-- One pass through the body of the loop `for i, name := range attributeNames[:minNamesLen]`
at the index `p.1`, with `name = p.2.1` and `attributeValues[i] = p.2.2`; every `continue`
ends the pass with the cache as it then is. -/
def attributeStep {σ : Type} (ops : LRUOps σ) (h : L7FlowLog) (time : Nat)
    (cache : FlowTagCache σ) (p : Nat × String × String) : FlowTagCache σ :=
  if p.2.2 == "" then cache
  else
    let cache := { cache with
      FlowTagInfoBuffer := { cache.FlowTagInfoBuffer with FieldName := p.2.1 } }
    let cache := { cache with
      FlowTagInfoBuffer := { cache.FlowTagInfoBuffer with FieldValue := p.2.2 } }
    let r := ops.AddOrGet cache.FieldValueCache cache.FlowTagInfoBuffer time
    let cache := { cache with FieldValueCache := r.2 }
    if r.1.2 && (r.1.1 + cache.CacheFlushTimeout) % 2 ^ 32 >= time then cache
    else
      let cache :=
        if r.1.2 then
          { cache with
            FieldValueCache := ops.Add cache.FieldValueCache cache.FlowTagInfoBuffer time }
        else cache
      let tagFieldValue : FlowTag :=
        { TagType := .TagFieldValue, Timestamp := time,
          FlowTagInfo := cache.FlowTagInfoBuffer }
      let cache := { cache with FieldValues := cache.FieldValues ++ [tagFieldValue] }
      if p.1 >= h.AttributeNames.length then cache
      else
        let cache := { cache with
          FlowTagInfoBuffer := { cache.FlowTagInfoBuffer with FieldValue := "" } }
        let r := ops.AddOrGet cache.FieldCache cache.FlowTagInfoBuffer time
        let cache := { cache with FieldCache := r.2 }
        if r.1.2 && (r.1.1 + cache.CacheFlushTimeout) % 2 ^ 32 >= time then cache
        else
          let cache :=
            if r.1.2 then
              { cache with
                FieldCache := ops.Add cache.FieldCache cache.FlowTagInfoBuffer time }
            else cache
          let tagField : FlowTag :=
            { TagType := .TagField, Timestamp := time,
              FlowTagInfo := cache.FlowTagInfoBuffer }
          { cache with Fields := cache.Fields ++ [tagField] }

/-- The value `*flowTagInfo` is reset to at the start of a round of the outer loop. -/
def roundInfo (env : Env) (h : L7FlowLog) (vpcId : Int) (podNsId : Nat) : FlowTagInfo :=
  { Table := env.L7_FLOW_ID_String, VpcId := vpcId, PodNsId := podNsId,
    OrgId := h.OrgId, TeamID := h.TeamID }

/-- One round of the outer loop of `GenerateNewFlowTags` for the VPC `vpcId` and the pod
namespace `podNsId`, with the attribute loop as `attributeStep` over `visitedPairs`. -/
def flowTagsRound {σ : Type} (env : Env) (ops : LRUOps σ) (h : L7FlowLog) (time : Nat)
    (vpcId : Int) (podNsId : Nat) (cache : FlowTagCache σ) : FlowTagCache σ :=
  let cache := { cache with FlowTagInfoBuffer := roundInfo env h vpcId podNsId }
  let cache := (visitedPairs h).foldl (attributeStep ops h time) cache
  let cache := { cache with
    FlowTagInfoBuffer := { cache.FlowTagInfoBuffer with FieldType := .FieldMetrics } }
  let cache := { cache with
    FlowTagInfoBuffer := { cache.FlowTagInfoBuffer with FieldValue := "" } }
  metricsLoop ops time h.MetricsNames cache

/-- The `TagFieldValue` entry a visited pair gives when the value cache does not hold its
key: none for an empty value. -/
def fieldValueEntry (time : Nat) (b : FlowTagInfo) (p : Nat × String × String) :
    Option FlowTag :=
  if p.2.2 = "" then none
  else some { TagType := .TagFieldValue, Timestamp := time,
              FlowTagInfo := { b with FieldName := p.2.1, FieldValue := p.2.2 } }

/-- The name-only `TagField` entry a visited pair gives when the caches hold none of the
keys: none for an empty value and none at an index from `len(h.AttributeNames)` on, where the
three extra names sit. -/
def fieldEntry (h : L7FlowLog) (time : Nat) (b : FlowTagInfo) (p : Nat × String × String) :
    Option FlowTag :=
  if p.2.2 = "" ∨ h.AttributeNames.length ≤ p.1 then none
  else some { TagType := .TagField, Timestamp := time,
              FlowTagInfo := { b with FieldName := p.2.1, FieldValue := "" } }

/-- The name-only `TagField` entry of a metrics name. -/
def metricsEntry (time : Nat) (b : FlowTagInfo) (name : String) : FlowTag :=
  { TagType := .TagField, Timestamp := time,
    FlowTagInfo := { b with FieldType := .FieldMetrics, FieldName := name, FieldValue := "" } }

/-- The entries one round appends to `cache.FieldValues` when the caches hold none of the
keys. -/
def newFieldValues (h : L7FlowLog) (time : Nat) (b : FlowTagInfo) : List FlowTag :=
  (visitedPairs h).filterMap (fieldValueEntry time b)

/-- The entries one round appends to `cache.Fields` when the caches hold none of the keys. -/
def newFields (h : L7FlowLog) (time : Nat) (b : FlowTagInfo) : List FlowTag :=
  (visitedPairs h).filterMap (fieldEntry h time b) ++ h.MetricsNames.map (metricsEntry time b)

end log_data

/-! # Verification -/

namespace recorder

/-! ## The two sweeps of `executeUpdaters` -/

theorem index_ofNat (xs : List ResourceUpdater) (i : Nat) (h : i < xs.length) :
    index xs (i : Int) = .ok (xs.get ⟨i, h⟩) := by
  unfold index
  have h0 : ¬ ((i : Int) < 0) := by omega
  simp [h0, List.getElem?_eq_getElem h]

theorem addAndUpdateSweep_eq (us : List ResourceUpdater) (tr : List Event) :
    addAndUpdateSweep us tr = tr ++ us.map Event.HandleAddAndUpdate := by
  induction us generalizing tr with
  | nil => simp [addAndUpdateSweep]
  | cons u us ih => simp [addAndUpdateSweep, ih]

theorem deleteSweep_eq (us : List ResourceUpdater) (k : Nat) (tr : List Event)
    (hk : k ≤ us.length) :
    deleteSweep us k tr = .ok (tr ++ ((us.take k).reverse.map Event.HandleDelete)) := by
  induction k generalizing tr with
  | zero => simp [deleteSweep]
  | succ k ih =>
    have hlt : k < us.length := by omega
    rw [deleteSweep, index_ofNat us k hlt]
    simp only []
    rw [ih _ (by omega)]
    have ht : us.take (k + 1) = us.take k ++ [us.get ⟨k, hlt⟩] := by
      rw [List.take_succ, List.getElem?_eq_getElem hlt]; rfl
    rw [ht, List.reverse_append, List.append_assoc]
    rfl

/-- The whole trace of `executeUpdaters` on a slice that ends in `v, p`: the adds in slice
order, the deletes of the front in reverse, then the delete of `p` and the delete of `v`. -/
theorem executeUpdaters_append (front : List ResourceUpdater) (v p : ResourceUpdater)
    (tr : List Event) :
    executeUpdaters (front ++ [v, p]) tr =
      .ok (tr ++ (front ++ [v, p]).map Event.HandleAddAndUpdate
        ++ front.reverse.map Event.HandleDelete
        ++ [Event.HandleDelete p, Event.HandleDelete v]) := by
  have hlen : (front ++ [v, p]).length = front.length + 2 := by simp
  have h1 : (((front ++ [v, p]).length : Nat) : Int) - 1 = ((front.length + 1 : Nat) : Int) := by
    rw [hlen]; push_cast; ring
  have h2 : (((front ++ [v, p]).length : Nat) : Int) - 2 = ((front.length : Nat) : Int) := by
    rw [hlen]; push_cast; ring
  have h3 : ((((front ++ [v, p]).length : Nat) : Int) - 3 + 1).toNat = front.length := by
    rw [hlen]; push_cast; omega
  unfold executeUpdaters
  simp only [h1, h2, h3]
  rw [index_ofNat _ _ (by rw [hlen]; omega), index_ofNat _ _ (by rw [hlen]; omega),
    deleteSweep_eq _ _ _ (by rw [hlen]; omega), addAndUpdateSweep_eq]
  simp [List.getElem_append_right]

/-- A slice of length at least two is its front followed by its last two elements. -/
theorem split_last_two (us : List ResourceUpdater) (h : 2 ≤ us.length) :
    ∃ v p, us[us.length - 2]? = some v ∧ us[us.length - 1]? = some p ∧
      us = us.take (us.length - 2) ++ [v, p] := by
  have hsplit := (List.take_append_drop (us.length - 2) us).symm
  have hlen : (us.drop (us.length - 2)).length = 2 := by simp; omega
  obtain ⟨v, p, hvp⟩ := List.length_eq_two.mp hlen
  rw [hvp] at hsplit
  have htake : (us.take (us.length - 2)).length = us.length - 2 := by simp
  refine ⟨v, p, ?_, ?_, hsplit⟩
  · have hrw : us[us.length - 2]? = (us.take (us.length - 2) ++ [v, p])[us.length - 2]? := by
      rw [← hsplit]
    rw [hrw, List.getElem?_append_right (by omega), htake]
    simp
  · have hrw : us[us.length - 1]? = (us.take (us.length - 2) ++ [v, p])[us.length - 1]? := by
      rw [← hsplit]
    rw [hrw, List.getElem?_append_right (by omega), htake]
    have : us.length - 1 - (us.length - 2) = 1 := by omega
    simp [this]

/-- C1, as the code has it: for a pipeline of `N ≥ 4` updaters, `executeUpdaters` calls
`HandleDelete` on the updaters at positions `N-3` down to `0`, then on the updater at position
`N-1` (process), then on the updater at position `N-2` (VM-to-pod-node connection): the
VM-to-pod-node-connection delete is the last call and the process delete the second-to-last. -/
theorem executeUpdaters_delete_order (us : List ResourceUpdater) (tr : List Event)
    (hN : 4 ≤ us.length) :
    ∃ v p, us[us.length - 2]? = some v ∧ us[us.length - 1]? = some p ∧
      executeUpdaters us tr =
        .ok (tr ++ us.map Event.HandleAddAndUpdate
          ++ (((us.take (us.length - 2)).reverse ++ [p, v]).map Event.HandleDelete)) := by
  obtain ⟨v, p, hv, hp, hus⟩ := split_last_two us (by omega)
  refine ⟨v, p, hv, hp, ?_⟩
  have h := executeUpdaters_append (us.take (us.length - 2)) v p tr
  rw [← hus] at h
  rw [h]
  simp

/-- Witness of `executeUpdaters_delete_order` on the four-updater pipeline. -/
theorem executeUpdaters_delete_order_witness :
    ∃ v p, pipeline4[pipeline4.length - 2]? = some v ∧
      pipeline4[pipeline4.length - 1]? = some p ∧
      executeUpdaters pipeline4 [] =
        .ok ([] ++ pipeline4.map Event.HandleAddAndUpdate
          ++ (((pipeline4.take (pipeline4.length - 2)).reverse ++ [p, v]).map
            Event.HandleDelete)) :=
  executeUpdaters_delete_order pipeline4 [] (by decide)

/-- C1, as stated, fails on the four-updater pipeline: the delete calls are IP, interface,
process, VM-to-pod-node connection, and not IP, interface, VM-to-pod-node connection,
process. -/
theorem executeUpdaters_delete_order_counterexample :
    (executeUpdaters pipeline4 []).map deleteCalls =
        .ok [updater.New .IP "c" [], updater.New .VInterface "c" [],
             updater.New .Process "c" [], updater.New .VMPodNodeConnection "c" []] ∧
    (executeUpdaters pipeline4 []).map deleteCalls ≠
        .ok [updater.New .IP "c" [], updater.New .VInterface "c" [],
             updater.New .VMPodNodeConnection "c" [], updater.New .Process "c" []] := by
  decide

/-- C8: for a list of at least two updaters, `executeUpdaters` appends to the trace one
`HandleAddAndUpdate` call per updater, in creation order, and after them only `HandleDelete`
calls: no add/update call comes after a delete call. -/
theorem executeUpdaters_adds_before_deletes (us : List ResourceUpdater) (tr : List Event)
    (hN : 2 ≤ us.length) :
    ∃ dels : List ResourceUpdater,
      executeUpdaters us tr =
        .ok (tr ++ us.map Event.HandleAddAndUpdate ++ dels.map Event.HandleDelete) := by
  obtain ⟨v, p, _, _, hus⟩ := split_last_two us hN
  have h := executeUpdaters_append (us.take (us.length - 2)) v p tr
  rw [← hus] at h
  exact ⟨(us.take (us.length - 2)).reverse ++ [p, v], by rw [h]; simp⟩

/-- Witness of `executeUpdaters_adds_before_deletes` on the four-updater pipeline. -/
theorem executeUpdaters_adds_before_deletes_witness :
    ∃ dels : List ResourceUpdater,
      executeUpdaters pipeline4 [] =
        .ok ([] ++ pipeline4.map Event.HandleAddAndUpdate ++ dels.map Event.HandleDelete) :=
  executeUpdaters_adds_before_deletes pipeline4 [] (by decide)

/-- C21: on a list of `N ≥ 2` updaters `executeUpdaters` indexes within range at `N-1` and
`N-2` and ends normally, having appended to the trace one `HandleAddAndUpdate` call per
updater, in list order, followed by `HandleDelete` calls on a permutation of the list: every
updater is deleted exactly once, none is skipped or deleted twice.  On a list of length 0 the
access at `N-1 = -1` is out of range; on a list of length 1 the access at `N-1 = 0` succeeds
and the access at `N-2 = -1` is out of range; in both cases the run ends in that panic. -/
theorem executeUpdaters_each_once (us : List ResourceUpdater) (tr : List Event) :
    (2 ≤ us.length →
      (∃ p v, index us ((us.length : Int) - 1) = .ok p ∧
        index us ((us.length : Int) - 2) = .ok v) ∧
      ∃ dels : List ResourceUpdater,
        executeUpdaters us tr =
          .ok (tr ++ us.map Event.HandleAddAndUpdate ++ dels.map Event.HandleDelete) ∧
        dels.Perm us ∧ dels.length = us.length ∧ ∀ u, dels.count u = us.count u) ∧
    (us.length = 0 →
      index us ((us.length : Int) - 1) = .error (.indexOutOfRange (-1) 0) ∧
      executeUpdaters us tr = .error (.indexOutOfRange (-1) 0)) ∧
    (us.length = 1 →
      (∃ p, index us ((us.length : Int) - 1) = .ok p) ∧
      index us ((us.length : Int) - 2) = .error (.indexOutOfRange (-1) 1) ∧
      executeUpdaters us tr = .error (.indexOutOfRange (-1) 1)) := by
  refine ⟨fun hN => ?_, fun h0 => ?_, fun h1 => ?_⟩
  · obtain ⟨v, p, _, _, hus⟩ := split_last_two us hN
    have hrun := executeUpdaters_append (us.take (us.length - 2)) v p tr
    rw [← hus] at hrun
    have hperm : ((us.take (us.length - 2)).reverse ++ [p, v]).Perm us := by
      have h1 : ((us.take (us.length - 2)).reverse ++ [p, v]).Perm
          (us.take (us.length - 2) ++ [v, p]) :=
        List.Perm.append (List.reverse_perm _) (List.Perm.swap v p [])
      rw [← hus] at h1
      exact h1
    have e1 : ((us.length : Int) - 1) = ((us.length - 1 : Nat) : Int) := by omega
    have e2 : ((us.length : Int) - 2) = ((us.length - 2 : Nat) : Int) := by omega
    have hl1 : us.length - 1 < us.length := by omega
    have hl2 : us.length - 2 < us.length := by omega
    refine ⟨⟨us.get ⟨us.length - 1, hl1⟩, us.get ⟨us.length - 2, hl2⟩, ?_, ?_⟩,
      (us.take (us.length - 2)).reverse ++ [p, v], ?_, hperm,
      hperm.length_eq, fun u => hperm.count_eq u⟩
    · rw [e1]
      exact index_ofNat us (us.length - 1) hl1
    · rw [e2]
      exact index_ofNat us (us.length - 2) hl2
    · rw [hrun]
      simp
  · have hnil : us = [] := List.length_eq_zero.mp h0
    subst hnil
    exact ⟨rfl, rfl⟩
  · obtain ⟨u, hu⟩ := List.length_eq_one.mp h1
    subst hu
    exact ⟨⟨u, rfl⟩, rfl, rfl⟩

/-- Witness of `executeUpdaters_each_once`: the four-updater pipeline runs to the end, the
empty list and a one-updater list end in the out-of-range panic. -/
theorem executeUpdaters_each_once_witness :
    (∃ dels : List ResourceUpdater,
      executeUpdaters pipeline4 [] =
        .ok ([] ++ pipeline4.map Event.HandleAddAndUpdate ++ dels.map Event.HandleDelete) ∧
      dels.Perm pipeline4 ∧ dels.length = pipeline4.length ∧
      ∀ u, dels.count u = pipeline4.count u) ∧
    executeUpdaters [] [] = .error (.indexOutOfRange (-1) 0) ∧
    executeUpdaters [updater.New .Process "c" []] [] = .error (.indexOutOfRange (-1) 1) :=
  ⟨((executeUpdaters_each_once pipeline4 []).1 (by decide)).2,
   ((executeUpdaters_each_once [] []).2.1 rfl).2,
   ((executeUpdaters_each_once [updater.New .Process "c" []] []).2.2 rfl).2.2⟩

/-! ## The pipeline built by `getUpdatersInOrder` -/

/-- C9: for every snapshot (and refresher), `getUpdatersInOrder` returns exactly 20 updaters,
of the resource types pod cluster, pod node, pod namespace, pod ingress, pod ingress rule, pod
service, pod ingress rule backend, pod service port, pod group, pod group port, pod replica
set, pod, config map, pod-group/config-map connection, network, subnet, interface, IP,
VM-to-pod-node connection, process, in this order, each bound to the snapshot's collection of
its own type (and to the refresher's cache). -/
theorem getUpdatersInOrder_types (s : subDomain) (cloudData : SubDomainResource) :
    (getUpdatersInOrder s cloudData).map (fun u => (u.resourceType, u.cloudData, u.cache)) =
      [ (.PodCluster, cloudData.PodClusters, s.cache),
        (.PodNode, cloudData.PodNodes, s.cache),
        (.PodNamespace, cloudData.PodNamespaces, s.cache),
        (.PodIngress, cloudData.PodIngresses, s.cache),
        (.PodIngressRule, cloudData.PodIngressRules, s.cache),
        (.PodService, cloudData.PodServices, s.cache),
        (.PodIngressRuleBackend, cloudData.PodIngressRuleBackends, s.cache),
        (.PodServicePort, cloudData.PodServicePorts, s.cache),
        (.PodGroup, cloudData.PodGroups, s.cache),
        (.PodGroupPort, cloudData.PodGroupPorts, s.cache),
        (.PodReplicaSet, cloudData.PodReplicaSets, s.cache),
        (.Pod, cloudData.Pods, s.cache),
        (.ConfigMap, cloudData.ConfigMaps, s.cache),
        (.PodGroupConfigMapConnection, cloudData.PodGroupConfigMapConnections, s.cache),
        (.Network, cloudData.Networks, s.cache),
        (.Subnet, cloudData.Subnets, s.cache),
        (.VInterface, cloudData.VInterfaces, s.cache),
        (.IP, cloudData.IPs, s.cache),
        (.VMPodNodeConnection, cloudData.VMPodNodeConnections, s.cache),
        (.Process, cloudData.Processes, s.cache) ] ∧
    (getUpdatersInOrder s cloudData).length = 20 ∧
    ((getUpdatersInOrder s cloudData)[18]?).map (·.resourceType) = some .VMPodNodeConnection ∧
    ((getUpdatersInOrder s cloudData)[19]?).map (·.resourceType) = some .Process :=
  ⟨rfl, rfl, rfl, rfl⟩

theorem getUpdatersInOrder_length (s : subDomain) (cloudData : SubDomainResource) :
    (getUpdatersInOrder s cloudData).length = 20 := rfl

/-- On the pipeline of a pass `executeUpdaters` does not panic; it appends the adds and then
delete calls only. -/
theorem executeUpdaters_pipeline (s : subDomain) (cloudData : SubDomainResource)
    (tr : List Event) :
    ∃ dels : List ResourceUpdater,
      executeUpdaters (getUpdatersInOrder s cloudData) tr =
        .ok (tr ++ (getUpdatersInOrder s cloudData).map Event.HandleAddAndUpdate
          ++ dels.map Event.HandleDelete) := by
  have hN : 2 ≤ (getUpdatersInOrder s cloudData).length := by
    rw [getUpdatersInOrder_length]; decide
  obtain ⟨v, p, _, _, hus⟩ := split_last_two _ hN
  have h := executeUpdaters_append
    ((getUpdatersInOrder s cloudData).take ((getUpdatersInOrder s cloudData).length - 2)) v p tr
  rw [← hus] at h
  exact ⟨((getUpdatersInOrder s cloudData).take
    ((getUpdatersInOrder s cloudData).length - 2)).reverse ++ [p, v], by rw [h]; simp⟩

/-! ## The refresher -/

theorem notifyOnResourceChanged_cache
    (changed : List ResourceUpdater → List Event → Bool) (s : subDomain)
    (us : List ResourceUpdater) (st : State) :
    (notifyOnResourceChanged changed s us st).cache = st.cache ∧
    (notifyOnResourceChanged changed s us st).db = st.db := by
  unfold notifyOnResourceChanged
  simp only []
  split <;> simp

theorem updateSyncedAt_cache (s : subDomain) (lcuuid : String) (syncAt : Time) (st : State) :
    (updateSyncedAt s lcuuid syncAt st).cache = st.cache := by
  unfold updateSyncedAt
  split
  · rfl
  · simp only []
    split <;> rfl

/-- The store after `updateSyncedAt` depends on the store before it only. -/
theorem updateSyncedAt_db (s : subDomain) (lcuuid : String) (syncAt : Time) (st st' : State)
    (h : st.db = st'.db) :
    (updateSyncedAt s lcuuid syncAt st).db = (updateSyncedAt s lcuuid syncAt st').db := by
  unfold updateSyncedAt
  split
  · exact h
  · simp only [h]
    split <;> rfl

/-- The body of a pass never panics; it leaves the cache fields alone and changes the store
through `updateSyncedAt` only. -/
theorem refresh_spec (changed : List ResourceUpdater → List Event → Bool) (s : subDomain)
    (cloudData : SubDomainResource) (st : State) :
    (refresh changed s cloudData st).1 = none ∧
    (refresh changed s cloudData st).2.cache = st.cache ∧
    (refresh changed s cloudData st).2.db =
      (updateSyncedAt s s.metadata.SubDomain.Lcuuid cloudData.SyncAt st).db := by
  obtain ⟨dels, hex⟩ := executeUpdaters_pipeline s cloudData
    (st.trace ++ [Event.RefreshVTaps s.cache])
  unfold refresh
  simp only [hex]
  refine ⟨trivial, ?_, ?_⟩
  · rw [updateSyncedAt_cache]
    exact (notifyOnResourceChanged_cache _ _ _ _).1
  · apply updateSyncedAt_db
    exact (notifyOnResourceChanged_cache _ _ _ _).2

/-- What a pass that runs returns and leaves behind. -/
theorem tryRefresh_run (changed : List ResourceUpdater → List Event → Bool) (s : subDomain)
    (cloudData : SubDomainResource) (st : State)
    (hpre : shouldRefresh s s.metadata.SubDomain.Lcuuid cloudData = none)
    (hidle : st.cache.RefreshSignal = true) :
    (tryRefresh changed s cloudData st).1 = .ok none ∧
    (tryRefresh changed s cloudData st).2.cache =
      { Sequence := st.cache.Sequence + 1, RefreshSignal := true } ∧
    (tryRefresh changed s cloudData st).2.db =
      (updateSyncedAt s s.metadata.SubDomain.Lcuuid cloudData.SyncAt st).db := by
  unfold tryRefresh
  simp only [hpre, hidle, if_true]
  generalize hst : ({ st with
      cache := Cache.IncrementSequence { st.cache with RefreshSignal := false },
      trace := st.trace ++ [Event.SetLogLevel s.cache .INFO .RefreshSignalCallerSubDomain] }
        : State) = st1
  have hr := refresh_spec changed s cloudData st1
  rcases hrf : refresh changed s cloudData st1 with ⟨p, st2⟩
  rw [hrf] at hr
  obtain ⟨hp, hc, hd⟩ := hr
  simp only at hp hc hd
  subst hp
  simp only []
  refine ⟨trivial, ?_, ?_⟩
  · simp [Cache.ResetRefreshSignal, hc, ← hst, Cache.IncrementSequence]
  · simp only [hd]
    apply updateSyncedAt_db
    rw [← hst]

/-- C2: a snapshot with `Verified = false` makes `tryRefresh` return `DataNotVerifiedError`
and leave the whole state as it was, whether the gate token is present or not: sequence
counter, gate token, store and trace (no updater call, no publish, no save) are unchanged. -/
theorem tryRefresh_not_verified (changed : List ResourceUpdater → List Event → Bool)
    (s : subDomain) (cloudData : SubDomainResource) (st : State)
    (h : cloudData.Verified = false) :
    tryRefresh changed s cloudData st = (.ok (some .DataNotVerifiedError), st) := by
  simp [tryRefresh, shouldRefresh, h]

/-- Witness of `tryRefresh_not_verified`, in state Running. -/
theorem tryRefresh_not_verified_witness :
    tryRefresh noChange exampleRefresher unverifiedSnapshot runningState =
      (.ok (some .DataNotVerifiedError), runningState) :=
  tryRefresh_not_verified noChange exampleRefresher unverifiedSnapshot runningState rfl

/-- C3: for a verified snapshot, if one of networks, interfaces, pods is empty then
`tryRefresh` returns `DataMissingError` and leaves the whole state as it was, whether the gate
token is present or not; and if none of the three is empty then `shouldRefresh` returns no
error. -/
theorem tryRefresh_data_missing (changed : List ResourceUpdater → List Event → Bool)
    (s : subDomain) (cloudData : SubDomainResource) (st : State)
    (hv : cloudData.Verified = true) :
    ((cloudData.Networks = [] ∨ cloudData.VInterfaces = [] ∨ cloudData.Pods = []) →
      tryRefresh changed s cloudData st = (.ok (some .DataMissingError), st)) ∧
    ((cloudData.Networks ≠ [] ∧ cloudData.VInterfaces ≠ [] ∧ cloudData.Pods ≠ []) →
      shouldRefresh s s.metadata.SubDomain.Lcuuid cloudData = none) := by
  constructor
  · intro h
    have : shouldRefresh s s.metadata.SubDomain.Lcuuid cloudData = some .DataMissingError := by
      rcases h with h | h | h <;> simp [shouldRefresh, hv, h]
    simp [tryRefresh, this]
  · rintro ⟨hn, hi, hp⟩
    simp [shouldRefresh, hv, hn, hi, hp]

/-- Witness of `tryRefresh_data_missing`: no networks in state Running, and the valid
snapshot. -/
theorem tryRefresh_data_missing_witness :
    tryRefresh noChange exampleRefresher noNetworkSnapshot runningState =
      (.ok (some .DataMissingError), runningState) ∧
    shouldRefresh exampleRefresher exampleRefresher.metadata.SubDomain.Lcuuid validSnapshot =
      none :=
  ⟨(tryRefresh_data_missing noChange exampleRefresher noNetworkSnapshot runningState rfl).1
      (Or.inl rfl),
   (tryRefresh_data_missing noChange exampleRefresher validSnapshot runningState rfl).2
      (by decide)⟩

/-- C4: when the snapshot passes the precondition check and the gate token is absent,
`tryRefresh` returns `RefreshConflictError` and leaves the whole state as it was. -/
theorem tryRefresh_conflict (changed : List ResourceUpdater → List Event → Bool)
    (s : subDomain) (cloudData : SubDomainResource) (st : State)
    (hpre : shouldRefresh s s.metadata.SubDomain.Lcuuid cloudData = none)
    (hbusy : st.cache.RefreshSignal = false) :
    tryRefresh changed s cloudData st = (.ok (some .RefreshConflictError), st) := by
  simp [tryRefresh, hpre, hbusy]

/-- Witness of `tryRefresh_conflict`. -/
theorem tryRefresh_conflict_witness :
    tryRefresh noChange exampleRefresher validSnapshot runningState =
      (.ok (some .RefreshConflictError), runningState) :=
  tryRefresh_conflict noChange exampleRefresher validSnapshot runningState rfl rfl

/-- The precondition check returns no error or one of its two errors. -/
theorem shouldRefresh_cases (s : subDomain) (lcuuid : String) (cloudData : SubDomainResource) :
    shouldRefresh s lcuuid cloudData = none ∨
    shouldRefresh s lcuuid cloudData = some .DataNotVerifiedError ∨
    shouldRefresh s lcuuid cloudData = some .DataMissingError := by
  unfold shouldRefresh
  split
  · split <;> simp
  · simp

/-- C5: `tryRefresh` increases the sequence counter by exactly one when the pass runs (the
precondition check passes and the gate token is present; the result is then success), and in
every other case it returns `DataNotVerifiedError`, `DataMissingError` or
`RefreshConflictError` and leaves the counter unchanged. -/
theorem tryRefresh_sequence (changed : List ResourceUpdater → List Event → Bool)
    (s : subDomain) (cloudData : SubDomainResource) (st : State) :
    ((shouldRefresh s s.metadata.SubDomain.Lcuuid cloudData = none ∧
        st.cache.RefreshSignal = true) →
      (tryRefresh changed s cloudData st).1 = .ok none ∧
      (tryRefresh changed s cloudData st).2.cache.Sequence = st.cache.Sequence + 1) ∧
    (¬ (shouldRefresh s s.metadata.SubDomain.Lcuuid cloudData = none ∧
        st.cache.RefreshSignal = true) →
      ((tryRefresh changed s cloudData st).1 = .ok (some .DataNotVerifiedError) ∨
        (tryRefresh changed s cloudData st).1 = .ok (some .DataMissingError) ∨
        (tryRefresh changed s cloudData st).1 = .ok (some .RefreshConflictError)) ∧
      (tryRefresh changed s cloudData st).2.cache.Sequence = st.cache.Sequence) := by
  constructor
  · rintro ⟨hpre, hidle⟩
    obtain ⟨h1, h2, _⟩ := tryRefresh_run changed s cloudData st hpre hidle
    exact ⟨h1, by rw [h2]⟩
  · intro hnot
    rcases shouldRefresh_cases s s.metadata.SubDomain.Lcuuid cloudData with h | h | h
    · have hbusy : st.cache.RefreshSignal = false := by
        cases hsig : st.cache.RefreshSignal
        · rfl
        · exact absurd ⟨h, hsig⟩ hnot
      simp [tryRefresh, h, hbusy]
    · simp [tryRefresh, h]
    · simp [tryRefresh, h]

/-- Witness of `tryRefresh_sequence`: a pass that runs, and a conflict. -/
theorem tryRefresh_sequence_witness :
    ((tryRefresh noChange exampleRefresher validSnapshot idleState).1 = .ok none ∧
      (tryRefresh noChange exampleRefresher validSnapshot idleState).2.cache.Sequence =
        idleState.cache.Sequence + 1) ∧
    (((tryRefresh noChange exampleRefresher validSnapshot runningState).1 =
          .ok (some .DataNotVerifiedError) ∨
        (tryRefresh noChange exampleRefresher validSnapshot runningState).1 =
          .ok (some .DataMissingError) ∨
        (tryRefresh noChange exampleRefresher validSnapshot runningState).1 =
          .ok (some .RefreshConflictError)) ∧
      (tryRefresh noChange exampleRefresher validSnapshot runningState).2.cache.Sequence =
        runningState.cache.Sequence) :=
  ⟨(tryRefresh_sequence noChange exampleRefresher validSnapshot idleState).1 ⟨rfl, rfl⟩,
   (tryRefresh_sequence noChange exampleRefresher validSnapshot runningState).2 (by decide)⟩

/-- C6: a `tryRefresh` call started in state Idle (gate token present) ends in state Idle,
for every snapshot, every change detector and every store (failing or not); and when the
snapshot passes the precondition check the call returns success. -/
theorem tryRefresh_idle_to_idle (changed : List ResourceUpdater → List Event → Bool)
    (s : subDomain) (cloudData : SubDomainResource) (st : State)
    (hidle : st.cache.RefreshSignal = true) :
    (tryRefresh changed s cloudData st).2.cache.RefreshSignal = true ∧
    (shouldRefresh s s.metadata.SubDomain.Lcuuid cloudData = none →
      (tryRefresh changed s cloudData st).1 = .ok none) := by
  rcases shouldRefresh_cases s s.metadata.SubDomain.Lcuuid cloudData with h | h | h
  · obtain ⟨h1, h2, _⟩ := tryRefresh_run changed s cloudData st h hidle
    exact ⟨by rw [h2], fun _ => h1⟩
  · simp [tryRefresh, h, hidle]
  · simp [tryRefresh, h, hidle]

/-- Witness of `tryRefresh_idle_to_idle`, over a store whose save fails. -/
theorem tryRefresh_idle_to_idle_witness :
    (tryRefresh noChange exampleRefresher validSnapshot saveFailsState).2.cache.RefreshSignal
      = true ∧
    (tryRefresh noChange exampleRefresher validSnapshot saveFailsState).1 = .ok none :=
  ⟨(tryRefresh_idle_to_idle noChange exampleRefresher validSnapshot saveFailsState rfl).1,
   (tryRefresh_idle_to_idle noChange exampleRefresher validSnapshot saveFailsState rfl).2 rfl⟩

/-! ## Synced-at bookkeeping -/

/-- After an upsert the first row with the lcuuid of the written row is the written row. -/
theorem find?_upsert (r : SubDomainRecord) (xs : List SubDomainRecord) :
    (upsert r xs).find? (fun x => x.Lcuuid == r.Lcuuid) = some r := by
  induction xs with
  | nil => simp [upsert]
  | cons x xs ih =>
    unfold upsert
    by_cases hx : (x.Lcuuid == r.Lcuuid) = true
    · simp [hx]
    · simp only [hx, Bool.false_eq_true, if_false]
      rw [List.find?_cons]
      simp only [hx]
      exact ih

/-- A lookup that succeeds returns a row with the lcuuid asked for and leaves the table as it
was. -/
theorem First_ok (db db1 : DB) (lcuuid : String) (r : SubDomainRecord)
    (h : db.First lcuuid = (.ok r, db1)) :
    r.Lcuuid = lcuuid ∧ db1.subDomains = db.subDomains := by
  unfold DB.First at h
  rcases hf : db.nextFault with ⟨fault, db'⟩
  have hsub : db'.subDomains = db.subDomains := by
    unfold DB.nextFault at hf
    split at hf
    · simp only [Prod.mk.injEq] at hf; rw [← hf.2]
    · simp only [Prod.mk.injEq] at hf; rw [← hf.2]
  rw [hf] at h
  simp only at h
  split at h
  · simp at h
  · split at h
    · simp at h
    · rename_i r' hfind
      simp only [Prod.mk.injEq, Except.ok.injEq] at h
      obtain ⟨hr, hdb⟩ := h
      subst hr hdb
      refine ⟨?_, hsub⟩
      have := List.find?_some hfind
      simpa using this

/-- A save that succeeds upserts the row. -/
theorem Save_ok (db : DB) (r : SubDomainRecord) (h : (db.Save r).1 = none) :
    (db.Save r).2.subDomains = upsert r db.subDomains := by
  unfold DB.Save at h ⊢
  rcases hf : db.nextFault with ⟨fault, db'⟩
  have hsub : db'.subDomains = db.subDomains := by
    unfold DB.nextFault at hf
    split at hf
    · simp only [Prod.mk.injEq] at hf; rw [← hf.2]
    · simp only [Prod.mk.injEq] at hf; rw [← hf.2]
  rw [hf] at h
  simp only at h ⊢
  split
  · rename_i hfault
    simp [hfault] at h
  · simp [hsub]

/-- C7, with the save's success made explicit: in a pass that runs (the precondition check
passes, the gate token is present), if the snapshot's `SyncAt` is not the zero timestamp, the
record lookup succeeds with the record `r` and the save succeeds, then after `tryRefresh` the
record stored under the sub-domain's lcuuid is `r` with `SyncedAt` set to `SyncAt`, the other
fields as they were; and if `SyncAt` is the zero timestamp, the synced-at step is the identity
and `tryRefresh` leaves the store as it was. -/
theorem tryRefresh_syncedAt (changed : List ResourceUpdater → List Event → Bool)
    (s : subDomain) (cloudData : SubDomainResource) (st : State)
    (hpre : shouldRefresh s s.metadata.SubDomain.Lcuuid cloudData = none)
    (hidle : st.cache.RefreshSignal = true) :
    (cloudData.SyncAt.IsZero = false →
      ∀ r db1, st.db.First s.metadata.SubDomain.Lcuuid = (.ok r, db1) →
        (db1.Save { r with SyncedAt := some cloudData.SyncAt }).1 = none →
        (tryRefresh changed s cloudData st).2.db.subDomains.find?
            (fun x => x.Lcuuid == s.metadata.SubDomain.Lcuuid) =
          some { r with SyncedAt := some cloudData.SyncAt }) ∧
    (cloudData.SyncAt.IsZero = true →
      (tryRefresh changed s cloudData st).2.db = st.db ∧
      ∀ st' : State,
        updateSyncedAt s s.metadata.SubDomain.Lcuuid cloudData.SyncAt st' = st') := by
  obtain ⟨_, _, hdb⟩ := tryRefresh_run changed s cloudData st hpre hidle
  constructor
  · intro hz r db1 hfirst hsave
    rw [hdb]
    unfold updateSyncedAt
    simp only [hz, Bool.false_eq_true, if_false, hfirst]
    rw [Save_ok _ _ hsave]
    obtain ⟨hl, _⟩ := First_ok _ _ _ _ hfirst
    have := find?_upsert { r with SyncedAt := some cloudData.SyncAt } db1.subDomains
    simpa [hl] using this
  · intro hz
    refine ⟨?_, ?_⟩
    · rw [hdb]
      simp [updateSyncedAt, hz]
    · intro st'
      simp [updateSyncedAt, hz]

/-- Witness of `tryRefresh_syncedAt`: the valid snapshot synced at second 5, and the same
snapshot with a zero timestamp, in state Idle. -/
theorem tryRefresh_syncedAt_witness :
    (tryRefresh noChange exampleRefresher validSnapshot idleState).2.db.subDomains.find?
        (fun x => x.Lcuuid == exampleRefresher.metadata.SubDomain.Lcuuid) =
      some { Lcuuid := "sub-1", State := 1, SyncedAt := some validSnapshot.SyncAt } ∧
    ((tryRefresh noChange exampleRefresher validSnapshotNoSyncAt idleState).2.db = idleState.db ∧
      ∀ st' : State,
        updateSyncedAt exampleRefresher exampleRefresher.metadata.SubDomain.Lcuuid
          validSnapshotNoSyncAt.SyncAt st' = st') :=
  ⟨(tryRefresh_syncedAt noChange exampleRefresher validSnapshot idleState rfl rfl).1 rfl
      { Lcuuid := "sub-1", State := 1 } idleState.db (by decide) (by decide),
   (tryRefresh_syncedAt noChange exampleRefresher validSnapshotNoSyncAt idleState rfl rfl).2
      rfl⟩

/-- C7, as stated, fails when the save fails: the pass runs, `SyncAt` is not zero and the
record lookup succeeds, but the stored record keeps its old `SyncedAt`. -/
theorem tryRefresh_syncedAt_counterexample :
    shouldRefresh exampleRefresher exampleRefresher.metadata.SubDomain.Lcuuid validSnapshot
      = none ∧
    saveFailsState.cache.RefreshSignal = true ∧
    validSnapshot.SyncAt.IsZero = false ∧
    (saveFailsState.db.First exampleRefresher.metadata.SubDomain.Lcuuid).1 =
      .ok { Lcuuid := "sub-1", State := 1 } ∧
    (tryRefresh noChange exampleRefresher validSnapshot saveFailsState).1 = .ok none ∧
    (tryRefresh noChange exampleRefresher validSnapshot saveFailsState).2.db.subDomains.find?
        (fun x => x.Lcuuid == exampleRefresher.metadata.SubDomain.Lcuuid) =
      some { Lcuuid := "sub-1", State := 1, SyncedAt := none } ∧
    (tryRefresh noChange exampleRefresher validSnapshot saveFailsState).2.db.subDomains.find?
        (fun x => x.Lcuuid == exampleRefresher.metadata.SubDomain.Lcuuid) ≠
      some { Lcuuid := "sub-1", State := 1, SyncedAt := some validSnapshot.SyncAt } := by
  decide

/-! ## Traces of the refresher methods carry no call marker -/

theorem Quiet.refl (tr : List Event) : Quiet tr tr :=
  ⟨[], by simp, rfl⟩

theorem Quiet.trans {a b c : List Event} (h1 : Quiet a b) (h2 : Quiet b c) : Quiet a c := by
  obtain ⟨e1, rfl, m1⟩ := h1
  obtain ⟨e2, rfl, m2⟩ := h2
  exact ⟨e1 ++ e2, by simp, by simp [markers] at m1 m2 ⊢; exact ⟨m1, m2⟩⟩

theorem Quiet.snoc (tr : List Event) (e : Event) (he : e.isMarker = false) :
    Quiet tr (tr ++ [e]) :=
  ⟨[e], rfl, by simp [markers, he]⟩

theorem markers_adds (us : List ResourceUpdater) :
    markers (us.map Event.HandleAddAndUpdate) = [] := by
  simp [markers, Event.isMarker]

theorem markers_dels (us : List ResourceUpdater) :
    markers (us.map Event.HandleDelete) = [] := by
  simp [markers, Event.isMarker]

theorem executeUpdaters_pipeline_quiet (s : subDomain) (cloudData : SubDomainResource)
    (tr : List Event) :
    ∃ tr', executeUpdaters (getUpdatersInOrder s cloudData) tr = .ok tr' ∧ Quiet tr tr' := by
  obtain ⟨dels, h⟩ := executeUpdaters_pipeline s cloudData tr
  refine ⟨_, h, (getUpdatersInOrder s cloudData).map Event.HandleAddAndUpdate
    ++ dels.map Event.HandleDelete, by simp, ?_⟩
  have h1 := markers_adds (getUpdatersInOrder s cloudData)
  have h2 := markers_dels dels
  simp only [markers, List.filter_append] at h1 h2 ⊢
  rw [h1, h2]; rfl

theorem notifyOnResourceChanged_quiet
    (changed : List ResourceUpdater → List Event → Bool) (s : subDomain)
    (us : List ResourceUpdater) (st : State) :
    Quiet st.trace (notifyOnResourceChanged changed s us st).trace := by
  unfold notifyOnResourceChanged
  simp only []
  split
  · exact Quiet.snoc _ _ rfl
  · exact Quiet.refl _

theorem updateSyncedAt_quiet (s : subDomain) (lcuuid : String) (syncAt : Time) (st : State) :
    Quiet st.trace (updateSyncedAt s lcuuid syncAt st).trace := by
  unfold updateSyncedAt
  split
  · exact Quiet.refl _
  · simp only []
    split
    · exact Quiet.snoc _ _ rfl
    · exact (Quiet.snoc st.trace (Event.DBFirst lcuuid) rfl).trans (Quiet.snoc _ _ rfl)

theorem refresh_quiet (changed : List ResourceUpdater → List Event → Bool) (s : subDomain)
    (cloudData : SubDomainResource) (st : State) :
    Quiet st.trace (refresh changed s cloudData st).2.trace := by
  obtain ⟨tr', hex, hq⟩ := executeUpdaters_pipeline_quiet s cloudData
    (st.trace ++ [Event.RefreshVTaps s.cache])
  unfold refresh
  simp only [hex]
  refine (Quiet.snoc st.trace (Event.RefreshVTaps s.cache) rfl).trans (hq.trans ?_)
  refine Quiet.trans ?_ (updateSyncedAt_quiet _ _ _ _)
  refine Quiet.trans ?_ (Quiet.snoc _ _ rfl)
  exact notifyOnResourceChanged_quiet changed s _ { st with trace := tr' }

theorem tryRefresh_quiet (changed : List ResourceUpdater → List Event → Bool) (s : subDomain)
    (cloudData : SubDomainResource) (st : State) :
    Quiet st.trace (tryRefresh changed s cloudData st).2.trace := by
  unfold tryRefresh
  split
  · exact Quiet.refl _
  · split
    · simp only []
      generalize hst : ({ st with
        cache := Cache.IncrementSequence { st.cache with RefreshSignal := false },
        trace := st.trace ++ [Event.SetLogLevel s.cache .INFO .RefreshSignalCallerSubDomain] }
          : State) = st1
      have hq := refresh_quiet changed s cloudData st1
      have hq0 : Quiet st.trace st1.trace := by
        rw [← hst]; exact Quiet.snoc _ _ rfl
      rcases hrf : refresh changed s cloudData st1 with ⟨p, st2⟩
      rw [hrf] at hq
      cases p <;> exact hq0.trans hq
    · exact Quiet.refl _

/-- A tear-down never panics and writes no call marker. -/
theorem clear_spec (s : subDomain) (st : State) :
    (clear s st).1 = none ∧ (clear s st).2.cache = st.cache ∧ (clear s st).2.db = st.db ∧
    Quiet st.trace (clear s st).2.trace := by
  obtain ⟨tr', hex, hq⟩ := executeUpdaters_pipeline_quiet s {} st.trace
  unfold clear
  simp only [hex]
  exact ⟨trivial, trivial, trivial, hq⟩

/-! ## The registry: calls through cache pointers -/

theorem setCache_keys (k : String) (c : Cache) (l : List (String × Cache)) :
    (setCache k c l).map Prod.fst = l.map Prod.fst := by
  induction l with
  | nil => rfl
  | cons x xs ih =>
    obtain ⟨k', c'⟩ := x
    unfold setCache
    by_cases h : (k' == k) = true
    · have hk : k' = k := by simpa using h
      simp [h, hk]
    · simp [h, ih]

theorem lookup_isSome_of_mem_keys {α : Type} (k : String) (l : List (String × α))
    (h : k ∈ l.map Prod.fst) : ∃ a, l.lookup k = some a := by
  have : (l.lookup k).isSome = true := by
    rw [List.lookup_isSome_iff]
    obtain ⟨p, hp, hk⟩ := List.mem_map.mp h
    exact ⟨p, hp, by simp [hk]⟩
  exact Option.isSome_iff_exists.mp this

theorem mem_keys_of_lookup {α : Type} (k : String) (l : List (String × α)) (a : α)
    (h : l.lookup k = some a) : (k, a) ∈ l := by
  obtain ⟨l₁, l₂, rfl, _⟩ := List.lookup_eq_some_iff.mp h
  simp

/-- A method run through a valid cache pointer does not panic; the cache manager keeps its
keys. -/
theorem onCache_spec {α : Type} (cache : String) (f : State → α × State) (w : World)
    (h : cache ∈ w.cacheKeys) :
    ∃ c, w.caches.lookup cache = some c ∧
      (onCache cache f w).1 = .ok (f { cache := c, db := w.db, trace := w.trace }).1 ∧
      (onCache cache f w).2.cacheKeys = w.cacheKeys ∧
      (onCache cache f w).2.trace = (f { cache := c, db := w.db, trace := w.trace }).2.trace := by
  obtain ⟨c, hc⟩ := lookup_isSome_of_mem_keys cache w.caches h
  refine ⟨c, hc, ?_⟩
  unfold onCache
  simp only [hc]
  simp [World.cacheKeys, setCache_keys]

/-- A pass never panics. -/
theorem tryRefresh_no_panic (changed : List ResourceUpdater → List Event → Bool)
    (s : subDomain) (cloudData : SubDomainResource) (st : State) :
    ∃ r, (tryRefresh changed s cloudData st).1 = .ok r := by
  rcases shouldRefresh_cases s s.metadata.SubDomain.Lcuuid cloudData with h | h | h
  · cases hsig : st.cache.RefreshSignal
    · exact ⟨some .RefreshConflictError, by simp [tryRefresh, h, hsig]⟩
    · exact ⟨_, (tryRefresh_run changed s cloudData st h hsig).1⟩
  · exact ⟨some .DataNotVerifiedError, by simp [tryRefresh, h]⟩
  · exact ⟨some .DataMissingError, by simp [tryRefresh, h]⟩

/-- The call `sd.tryRefresh(resource)` through a valid cache pointer: no panic, one call
marker, then events that are not markers. -/
theorem callTryRefresh_spec (changed : List ResourceUpdater → List Event → Bool)
    (sd : subDomain) (resource : SubDomainResource) (w : World) (h : sd.cache ∈ w.cacheKeys) :
    (∃ r, (callTryRefresh changed sd resource w).1 = .ok r) ∧
    (callTryRefresh changed sd resource w).2.cacheKeys = w.cacheKeys ∧
    Quiet (w.trace ++ [Event.tryRefresh sd resource])
      (callTryRefresh changed sd resource w).2.trace := by
  have hw : sd.cache ∈
      ({ w with trace := w.trace ++ [Event.tryRefresh sd resource] } : World).cacheKeys := h
  obtain ⟨c, _, h1, h2, h3⟩ := onCache_spec sd.cache (tryRefresh changed sd resource) _ hw
  unfold callTryRefresh
  simp only []
  rcases hoc : onCache sd.cache (tryRefresh changed sd resource)
    { w with trace := w.trace ++ [Event.tryRefresh sd resource] } with ⟨r, w'⟩
  rw [hoc] at h1 h2 h3
  simp only at h1 h2 h3
  subst h1
  simp only []
  obtain ⟨r, hr⟩ := tryRefresh_no_panic changed sd resource
    { cache := c, db := w.db, trace := w.trace ++ [Event.tryRefresh sd resource] }
  simp only [hr]
  refine ⟨⟨_, rfl⟩, h2, ?_⟩
  rw [h3]
  exact tryRefresh_quiet changed sd resource _

/-- The call `sd.clear()` through a valid cache pointer: no panic, one call marker, then
events that are not markers. -/
theorem callClear_spec (sd : subDomain) (w : World) (h : sd.cache ∈ w.cacheKeys) :
    (callClear sd w).1 = none ∧
    (callClear sd w).2.cacheKeys = w.cacheKeys ∧
    Quiet (w.trace ++ [Event.clear sd]) (callClear sd w).2.trace := by
  have hw : sd.cache ∈ ({ w with trace := w.trace ++ [Event.clear sd] } : World).cacheKeys := h
  obtain ⟨c, _, h1, h2, h3⟩ := onCache_spec sd.cache (clear sd) _ hw
  obtain ⟨hc1, _, _, hc4⟩ := clear_spec sd
    { cache := c, db := w.db, trace := w.trace ++ [Event.clear sd] }
  unfold callClear
  simp only []
  rcases hoc : onCache sd.cache (clear sd)
    { w with trace := w.trace ++ [Event.clear sd] } with ⟨r, w'⟩
  rw [hoc] at h1 h2 h3
  simp only at h1 h2 h3
  subst h1
  simp only [hc1]
  refine ⟨trivial, h2, ?_⟩
  rw [h3]
  exact hc4

/-- A refresher created by `newRefresher` is the refresher of the lcuuid asked for and points
to a cache of the cache manager; the cache manager loses no key and no call marker is
written. -/
theorem newRefresher_spec (s : subDomains) (lcuuid : String) (w : World) :
    (∀ k ∈ w.cacheKeys, k ∈ (newRefresher s lcuuid w).2.cacheKeys) ∧
    Quiet w.trace (newRefresher s lcuuid w).2.trace ∧
    ∀ sd, (newRefresher s lcuuid w).1 = .ok sd →
      sd.metadata.SubDomain.Lcuuid = lcuuid ∧ sd.cache ∈ (newRefresher s lcuuid w).2.cacheKeys := by
  unfold newRefresher
  simp only []
  rcases hf : w.db.First lcuuid with ⟨r, db1⟩
  cases r with
  | error err =>
    simp only []
    refine ⟨fun k hk => hk, Quiet.snoc _ _ rfl, ?_⟩
    intro sd h
    cases h
  | ok rec =>
    obtain ⟨hl, _⟩ := First_ok _ _ _ _ hf
    simp only [CreateSubDomainCacheIfNotExists, Metadata.SetSubDomain]
    cases hlk : w.caches.lookup rec.Lcuuid with
    | some c =>
      simp only []
      refine ⟨fun k hk => hk,
        (Quiet.snoc w.trace (Event.DBFirst lcuuid) rfl).trans (Quiet.snoc _ _ rfl), ?_⟩
      intro sd h
      simp only [Except.ok.injEq] at h
      subst h
      refine ⟨hl, ?_⟩
      have := mem_keys_of_lookup _ _ _ hlk
      exact List.mem_map.mpr ⟨_, this, rfl⟩
    | none =>
      simp only []
      refine ⟨fun k hk => by simp [World.cacheKeys] at hk ⊢; exact Or.inl hk,
        (Quiet.snoc w.trace (Event.DBFirst lcuuid) rfl).trans (Quiet.snoc _ _ rfl), ?_⟩
      intro sd h
      simp only [Except.ok.injEq] at h
      subst h
      refine ⟨hl, ?_⟩
      simp [World.cacheKeys, newSubDomain]

theorem markers_quiet_cons {tr tr' : List Event} (e : Event)
    (h : Quiet (tr ++ [e]) tr') : ∃ ev, tr' = tr ++ e :: ev ∧ markers ev = [] := by
  obtain ⟨ev, rfl, hm⟩ := h
  exact ⟨ev, by simp, hm⟩

/-- The lookup-or-create block keeps the registry well formed and only ever appends to it. -/
theorem resolve_spec (s : subDomains) (lcuuid : String) (w : World) (hwf : WellFormed s w) :
    Quiet w.trace (resolve s lcuuid w).2.2.trace ∧
    ∀ sd, (resolve s lcuuid w).1 = .ok sd →
      WellFormed (resolve s lcuuid w).2.1 (resolve s lcuuid w).2.2 ∧
      (∃ added, (resolve s lcuuid w).2.1.refreshers = s.refreshers ++ added) ∧
      (resolve s lcuuid w).2.1.refreshers.lookup lcuuid = some sd ∧
      sd.cache ∈ (resolve s lcuuid w).2.2.cacheKeys := by
  unfold resolve
  cases hlk : s.refreshers.lookup lcuuid with
  | some sd0 =>
    simp only []
    refine ⟨Quiet.refl _, ?_⟩
    intro sd h
    simp only [Except.ok.injEq] at h
    subst h
    have hmem := mem_keys_of_lookup _ _ _ hlk
    exact ⟨hwf, ⟨[], by simp⟩, hlk, (hwf.2 _ hmem).2⟩
  | none =>
    simp only []
    obtain ⟨hmono, hq, hsd⟩ := newRefresher_spec s lcuuid w
    rcases hnr : newRefresher s lcuuid w with ⟨r, w1⟩
    rw [hnr] at hmono hq hsd
    simp only at hmono hq hsd
    cases r with
    | error err =>
      simp only []
      exact ⟨hq, fun sd h => by cases h⟩
    | ok sd0 =>
      simp only []
      refine ⟨hq, ?_⟩
      intro sd h
      simp only [Except.ok.injEq] at h
      subst h
      obtain ⟨hl, hc⟩ := hsd _ rfl
      refine ⟨⟨?_, ?_⟩, ⟨[(lcuuid, sd0)], rfl⟩, ?_, hc⟩
      · rw [List.map_append, List.nodup_append]
        refine ⟨hwf.1, by simp, ?_⟩
        intro a ha hb
        simp only [List.map_cons, List.map_nil, List.mem_singleton] at hb
        subst hb
        obtain ⟨p, hp, hpa⟩ := List.mem_map.mp ha
        have := List.lookup_eq_none_iff.mp hlk p hp
        simp [hpa] at this
      · intro p hp
        rcases List.mem_append.mp hp with hp | hp
        · exact ⟨(hwf.2 p hp).1, hmono _ (hwf.2 p hp).2⟩
        · simp only [List.mem_singleton] at hp
          subst hp
          exact ⟨hl, hc⟩
      · rw [List.lookup_append, hlk]
        simp

/-- The first loop of `RefreshAll`: unless a lookup error ends it, it does not panic, keeps
the registry well formed, only appends refreshers, leaves every processed key with a
refresher, and writes exactly one `tryRefresh` marker per entry, on the refresher stored under
the entry's key, with the entry's snapshot. -/
theorem refreshLoop_spec (changed : List ResourceUpdater → List Event → Bool)
    (cd : List (String × SubDomainResource)) :
    ∀ (s : subDomains) (w : World), WellFormed s w →
      (∃ err, (RefreshAll.refreshLoop changed cd s w).1 = .ok (some err)) ∨
      ((RefreshAll.refreshLoop changed cd s w).1 = .ok none ∧
        WellFormed (RefreshAll.refreshLoop changed cd s w).2.1
          (RefreshAll.refreshLoop changed cd s w).2.2 ∧
        (∃ added, (RefreshAll.refreshLoop changed cd s w).2.1.refreshers
          = s.refreshers ++ added) ∧
        (∀ kr ∈ cd, ∃ sd,
          (RefreshAll.refreshLoop changed cd s w).2.1.refreshers.lookup kr.1 = some sd) ∧
        ∃ new, (RefreshAll.refreshLoop changed cd s w).2.2.trace = w.trace ++ new ∧
          markers new = cd.filterMap (fun kr =>
            ((RefreshAll.refreshLoop changed cd s w).2.1.refreshers.lookup kr.1).map
              (fun sd => Event.tryRefresh sd kr.2))) := by
  induction cd with
  | nil =>
    intro s w hwf
    right
    simp only [RefreshAll.refreshLoop]
    exact ⟨trivial, hwf, ⟨[], by simp⟩, by simp, [], by simp, rfl⟩
  | cons kr rest ih =>
    intro s w hwf
    obtain ⟨k, res⟩ := kr
    obtain ⟨hq0, hres⟩ := resolve_spec s k w hwf
    unfold RefreshAll.refreshLoop
    rcases hrs : resolve s k w with ⟨r, s1, w1⟩
    rw [hrs] at hq0 hres
    simp only at hq0 hres
    cases r with
    | error err =>
      left
      exact ⟨err, rfl⟩
    | ok sd =>
      simp only []
      obtain ⟨hwf1, ⟨added1, hadd1⟩, hlk1, hc1⟩ := hres sd rfl
      obtain ⟨⟨r2, hr2⟩, hk2, hq2⟩ := callTryRefresh_spec changed sd res w1 hc1
      rcases hct : callTryRefresh changed sd res w1 with ⟨r2', w2⟩
      rw [hct] at hr2 hk2 hq2
      simp only at hr2 hk2 hq2
      subst hr2
      simp only []
      have hwf2 : WellFormed s1 w2 :=
        ⟨hwf1.1, fun p hp => ⟨(hwf1.2 p hp).1, by rw [hk2]; exact (hwf1.2 p hp).2⟩⟩
      rcases ih s1 w2 hwf2 with ⟨err, herr⟩ | ⟨hok, hwf3, ⟨added3, hadd3⟩, hall3, new3, htr3, hm3⟩
      · left
        exact ⟨err, herr⟩
      · right
        have hlkf : (RefreshAll.refreshLoop changed rest s1 w2).2.1.refreshers.lookup k
            = some sd := by
          rw [hadd3, List.lookup_append, hlk1]; rfl
        refine ⟨hok, hwf3, ⟨added1 ++ added3, by rw [hadd3, hadd1, List.append_assoc]⟩, ?_, ?_⟩
        · intro kr hkr
          rcases List.mem_cons.mp hkr with h | h
          · subst h
            exact ⟨sd, hlkf⟩
          · exact hall3 kr h
        · obtain ⟨ev0, hev0, hm0⟩ := hq0
          obtain ⟨ev2, hev2, hm2⟩ := markers_quiet_cons (Event.tryRefresh sd res) hq2
          refine ⟨ev0 ++ Event.tryRefresh sd res :: ev2 ++ new3, ?_, ?_⟩
          · rw [htr3, hev2, hev0]; simp
          · rw [List.filterMap_cons, hlkf]
            simp only [Option.map_some']
            rw [← hm3]
            simp only [markers, List.filter_append, List.filter_cons] at hm0 hm2 ⊢
            rw [hm0, hm2]
            simp [Event.isMarker]

/-- The second loop of `RefreshAll` over refreshers with valid cache pointers: no panic, and
exactly one `clear` marker for each refresher whose lcuuid is not a key of `cloudData`. -/
theorem clearLoop_spec (cd : List (String × SubDomainResource)) :
    ∀ (rs : List (String × subDomain)) (w : World), (∀ p ∈ rs, p.2.cache ∈ w.cacheKeys) →
      (RefreshAll.clearLoop cd rs w).1 = none ∧
      (RefreshAll.clearLoop cd rs w).2.cacheKeys = w.cacheKeys ∧
      ∃ new, (RefreshAll.clearLoop cd rs w).2.trace = w.trace ++ new ∧
        markers new =
          (rs.filter (fun p => (cd.lookup p.2.metadata.SubDomain.Lcuuid).isNone)).map
            (fun p => Event.clear p.2) := by
  intro rs
  induction rs with
  | nil =>
    intro w _
    simp only [RefreshAll.clearLoop]
    exact ⟨trivial, trivial, [], by simp, rfl⟩
  | cons p rest ih =>
    intro w hptr
    obtain ⟨k, sd⟩ := p
    unfold RefreshAll.clearLoop
    have hrest : ∀ p ∈ rest, p.2.cache ∈ w.cacheKeys :=
      fun p hp => hptr p (List.mem_cons_of_mem _ hp)
    cases hlk : cd.lookup sd.metadata.SubDomain.Lcuuid with
    | some res =>
      simp only []
      obtain ⟨h1, h2, new, h3, h4⟩ := ih w hrest
      refine ⟨h1, h2, new, h3, ?_⟩
      rw [h4, List.filter_cons]
      simp [hlk]
    | none =>
      simp only []
      obtain ⟨hc1, hc2, hc3⟩ := callClear_spec sd w (hptr (k, sd) (List.mem_cons_self _ _))
      rcases hcc : callClear sd w with ⟨r, w1⟩
      rw [hcc] at hc1 hc2 hc3
      simp only at hc1 hc2 hc3
      subst hc1
      simp only []
      obtain ⟨h1, h2, new, h3, h4⟩ := ih w1 (fun p hp => by rw [hc2]; exact hrest p hp)
      obtain ⟨ev, hev, hm⟩ := markers_quiet_cons (Event.clear sd) hc3
      refine ⟨h1, by rw [h2, hc2], Event.clear sd :: ev ++ new, ?_, ?_⟩
      · rw [h3, hev]; simp
      · rw [List.filter_cons]
        simp only [hlk, Option.isNone_none, if_true, List.map_cons]
        rw [← h4]
        simp only [markers, List.filter_append, List.filter_cons] at hm ⊢
        rw [hm]
        simp [Event.isMarker]

/-- The empty registry built by `newSubDomains` is well formed. -/
theorem newSubDomains_wellFormed (md : Metadata) (w : World) :
    WellFormed (newSubDomains md) w :=
  ⟨List.nodup_nil, fun _ hp => by cases hp⟩

theorem mem_keys_unique {α : Type} (l : List (String × α)) (h : (l.map Prod.fst).Nodup)
    (k : String) (a b : α) (ha : (k, a) ∈ l) (hb : (k, b) ∈ l) : a = b := by
  induction l with
  | nil => cases ha
  | cons x xs ih =>
    simp only [List.map_cons, List.nodup_cons] at h
    rcases List.mem_cons.mp ha with ha | ha <;> rcases List.mem_cons.mp hb with hb | hb
    · rw [← ha] at hb
      exact (Prod.mk.inj hb).2.symm
    · exact absurd (List.mem_map.mpr ⟨(k, b), hb, by rw [← ha]⟩) h.1
    · exact absurd (List.mem_map.mpr ⟨(k, a), ha, by rw [← hb]⟩) h.1
    · exact ih h.2 ha hb

/-- Both loops of `RefreshAll` on a well-formed registry: unless a lookup error ends the call,
it returns nil without a panic, keeps the registry well formed, only appends refreshers, and
the call markers it writes are one `tryRefresh` per entry of the map followed by one `clear`
per refresher whose lcuuid is not a key of the map. -/
theorem RefreshAll_spec (changed : List ResourceUpdater → List Event → Bool)
    (s : subDomains) (cloudData : List (String × SubDomainResource)) (w : World)
    (hwf : WellFormed s w) :
    (∃ err, (RefreshAll changed s cloudData w).1 = .ok (some err)) ∨
    ((RefreshAll changed s cloudData w).1 = .ok none ∧
      WellFormed (RefreshAll changed s cloudData w).2.1 (RefreshAll changed s cloudData w).2.2 ∧
      (∃ added, (RefreshAll changed s cloudData w).2.1.refreshers = s.refreshers ++ added) ∧
      (∀ kr ∈ cloudData, ∃ sd,
        (RefreshAll changed s cloudData w).2.1.refreshers.lookup kr.1 = some sd) ∧
      ∃ new, (RefreshAll changed s cloudData w).2.2.trace = w.trace ++ new ∧
        markers new =
          cloudData.filterMap (fun kr =>
            ((RefreshAll changed s cloudData w).2.1.refreshers.lookup kr.1).map
              (fun sd => Event.tryRefresh sd kr.2))
          ++ ((RefreshAll changed s cloudData w).2.1.refreshers.filter
              (fun p => (cloudData.lookup p.2.metadata.SubDomain.Lcuuid).isNone)).map
                (fun p => Event.clear p.2)) := by
  have hloop := refreshLoop_spec changed cloudData s w hwf
  unfold RefreshAll
  rcases hrl : RefreshAll.refreshLoop changed cloudData s w with ⟨r, s1, w1⟩
  rw [hrl] at hloop
  simp only at hloop
  rcases hloop with ⟨err, herr⟩ | ⟨hok, hwf1, ⟨added, hadd⟩, hall, new1, htr1, hm1⟩
  · subst herr
    left
    exact ⟨err, rfl⟩
  subst hok
  simp only []
  obtain ⟨hc1, hk2, new2, htr2, hm2⟩ :=
    clearLoop_spec cloudData s1.refreshers w1 (fun p hp => (hwf1.2 p hp).2)
  rcases hcl : RefreshAll.clearLoop cloudData s1.refreshers w1 with ⟨r2, w2⟩
  rw [hcl] at hc1 hk2 htr2
  simp only at hc1 hk2 htr2
  subst hc1
  simp only []
  right
  refine ⟨trivial, ⟨hwf1.1, fun p hp => ⟨(hwf1.2 p hp).1, by rw [hk2]; exact (hwf1.2 p hp).2⟩⟩,
    ⟨added, hadd⟩, hall, new1 ++ new2, by rw [htr2, htr1, List.append_assoc], ?_⟩
  rw [← hm1, ← hm2]
  simp [markers]

/-- The call counts of `RefreshAll`, from the list of its call markers: one `clear` per known
refresher whose lcuuid is not a key of the map, none on the others, one `tryRefresh` per entry
of the map. -/
theorem RefreshAll_counts (changed : List ResourceUpdater → List Event → Bool)
    (s : subDomains) (cloudData : List (String × SubDomainResource)) (w : World)
    (hkeys : (cloudData.map Prod.fst).Nodup)
    (hwf : WellFormed s w)
    (hlookup : ∀ err, (RefreshAll changed s cloudData w).1 ≠ .ok (some err)) :
    (RefreshAll changed s cloudData w).1 = .ok none ∧
    ∃ new added,
      (RefreshAll changed s cloudData w).2.2.trace = w.trace ++ new ∧
      (RefreshAll changed s cloudData w).2.1.refreshers = s.refreshers ++ added ∧
      (∀ p ∈ (RefreshAll changed s cloudData w).2.1.refreshers,
        p.2.metadata.SubDomain.Lcuuid ∉ cloudData.map Prod.fst →
          new.count (Event.clear p.2) = 1) ∧
      (∀ sd : subDomain, sd.metadata.SubDomain.Lcuuid ∈ cloudData.map Prod.fst →
        Event.clear sd ∉ new) ∧
      (∀ kr ∈ cloudData, ∃ sd,
        (RefreshAll changed s cloudData w).2.1.refreshers.lookup kr.1 = some sd ∧
        new.count (Event.tryRefresh sd kr.2) = 1 ∧
        ∀ res, Event.tryRefresh sd res ∈ new → res = kr.2) := by
  rcases RefreshAll_spec changed s cloudData w hwf with ⟨err, herr⟩ |
    ⟨hok, hwf1, ⟨added, hadd⟩, hall, new, htr, hmark⟩
  · exact absurd herr (hlookup err)
  generalize RefreshAll changed s cloudData w = R at hok hwf1 hadd hall htr hmark ⊢
  obtain ⟨r, s1, w1⟩ := R
  simp only at hok hwf1 hadd hall htr hmark ⊢
  have hcount : ∀ e : Event, e.isMarker = true →
      new.count e = (markers new).count e := by
    intro e he
    unfold markers
    rw [List.count_filter he]
  have hmem : ∀ e : Event, e.isMarker = true → e ∈ new →
      e ∈ markers new := by
    intro e he hin
    exact List.mem_filter.mpr ⟨hin, he⟩
  have hlcuuid : ∀ k sd, s1.refreshers.lookup k = some sd → sd.metadata.SubDomain.Lcuuid = k :=
    fun k sd h => (hwf1.2 _ (mem_keys_of_lookup _ _ _ h)).1
  have hnodup1 : (cloudData.filterMap (fun kr =>
      (s1.refreshers.lookup kr.1).map (fun sd => Event.tryRefresh sd kr.2))).Nodup := by
    apply List.Nodup.filterMap _ (List.Nodup.of_map _ hkeys)
    intro a a' b hb hb'
    simp only [Option.mem_def, Option.map_eq_some'] at hb hb'
    obtain ⟨sd, hsd, rfl⟩ := hb
    obtain ⟨sd', hsd', heq⟩ := hb'
    simp only [Event.tryRefresh.injEq] at heq
    obtain ⟨h1, h2⟩ := heq
    subst h1
    have ha := hlcuuid _ _ hsd
    have ha' := hlcuuid _ _ hsd'
    exact Prod.ext (by rw [← ha, ← ha']) h2.symm
  have hnodup2 : ((s1.refreshers.filter
      (fun p => (cloudData.lookup p.2.metadata.SubDomain.Lcuuid).isNone)).map
        (fun p => Event.clear p.2)).Nodup := by
    apply List.Nodup.map_on _ ((List.Nodup.of_map _ hwf1.1).filter _)
    intro x hx y hy hxy
    simp only [Event.clear.injEq] at hxy
    have hx' := (hwf1.2 x (List.mem_filter.mp hx).1).1
    have hy' := (hwf1.2 y (List.mem_filter.mp hy).1).1
    exact Prod.ext (by rw [← hx', ← hy', hxy]) hxy
  refine ⟨hok, new, added, htr, hadd, ?_, ?_, ?_⟩
  · intro p hp hnot
    rw [hcount (Event.clear p.2) rfl, hmark, List.count_append]
    have hz : List.count (Event.clear p.2) (cloudData.filterMap (fun kr =>
        (s1.refreshers.lookup kr.1).map (fun sd => Event.tryRefresh sd kr.2))) = 0 := by
      apply List.count_eq_zero_of_not_mem
      intro hin
      obtain ⟨kr, _, hkr⟩ := List.mem_filterMap.mp hin
      simp only [Option.map_eq_some'] at hkr
      obtain ⟨sd, _, h⟩ := hkr
      cases h
    rw [hz, Nat.zero_add]
    apply List.count_eq_one_of_mem hnodup2
    refine List.mem_map.mpr ⟨p, List.mem_filter.mpr ⟨hp, ?_⟩, rfl⟩
    simp only [Option.isNone_iff_eq_none, List.lookup_eq_none_iff]
    intro q hq
    simp only [bne_iff_ne, ne_eq]
    intro h
    exact hnot (List.mem_map.mpr ⟨q, hq, h.symm⟩)
  · intro sd hsd hin
    have := hmem (Event.clear sd) rfl hin
    rw [hmark] at this
    rcases List.mem_append.mp this with h | h
    · obtain ⟨kr, _, hkr⟩ := List.mem_filterMap.mp h
      simp only [Option.map_eq_some'] at hkr
      obtain ⟨sd', _, h⟩ := hkr
      cases h
    · obtain ⟨p, hp, hpe⟩ := List.mem_map.mp h
      simp only [Event.clear.injEq] at hpe
      have hnone := (List.mem_filter.mp hp).2
      rw [hpe] at hnone
      simp only [Option.isNone_iff_eq_none, List.lookup_eq_none_iff] at hnone
      obtain ⟨q, hq, hqk⟩ := List.mem_map.mp hsd
      have := hnone q hq
      simp [hqk] at this
  · intro kr hkr
    obtain ⟨sd, hsd⟩ := hall kr hkr
    refine ⟨sd, hsd, ?_, ?_⟩
    · rw [hcount (Event.tryRefresh sd kr.2) rfl, hmark, List.count_append]
      have hz : List.count (Event.tryRefresh sd kr.2) ((s1.refreshers.filter
          (fun p => (cloudData.lookup p.2.metadata.SubDomain.Lcuuid).isNone)).map
            (fun p => Event.clear p.2)) = 0 := by
        apply List.count_eq_zero_of_not_mem
        intro hin
        obtain ⟨p, _, h⟩ := List.mem_map.mp hin
        cases h
      rw [hz, Nat.add_zero]
      apply List.count_eq_one_of_mem hnodup1
      exact List.mem_filterMap.mpr ⟨kr, hkr, by simp [hsd]⟩
    · intro res hin
      have := hmem (Event.tryRefresh sd res) rfl hin
      rw [hmark] at this
      rcases List.mem_append.mp this with h | h
      · obtain ⟨kr', hkr', h'⟩ := List.mem_filterMap.mp h
        simp only [Option.map_eq_some'] at h'
        obtain ⟨sd', hsd', heq⟩ := h'
        simp only [Event.tryRefresh.injEq] at heq
        obtain ⟨h1, h2⟩ := heq
        subst h1
        have hk : kr'.1 = kr.1 := by rw [← hlcuuid _ _ hsd', ← hlcuuid _ _ hsd]
        have hkr2 : (kr.1, kr'.2) ∈ cloudData := by rw [← hk]; exact hkr'
        rw [← h2]
        exact mem_keys_unique cloudData hkeys kr.1 _ _ hkr2 hkr
      · obtain ⟨p, _, h'⟩ := List.mem_map.mp h
        cases h'

/-- C10: for a well-formed registry and a snapshot map (distinct keys) on which `RefreshAll`
returns no lookup error, `RefreshAll` returns nil without a panic, only appends refreshers to
the registry, and among the events `new` it adds to the trace: `clear` is called exactly once
on every known refresher whose lcuuid is not a key of the map, never on a refresher whose
lcuuid is a key of the map, and `tryRefresh` is called exactly once on the refresher of every
key of the map, with the snapshot stored under that key. -/
theorem RefreshAll_calls (changed : List ResourceUpdater → List Event → Bool)
    (s : subDomains) (cloudData : List (String × SubDomainResource)) (w : World)
    (hkeys : (cloudData.map Prod.fst).Nodup)
    (hwf : WellFormed s w)
    (hlookup : ∀ err, (RefreshAll changed s cloudData w).1 ≠ .ok (some err)) :
    (RefreshAll changed s cloudData w).1 = .ok none ∧
    ∃ new added,
      (RefreshAll changed s cloudData w).2.2.trace = w.trace ++ new ∧
      (RefreshAll changed s cloudData w).2.1.refreshers = s.refreshers ++ added ∧
      (∀ p ∈ (RefreshAll changed s cloudData w).2.1.refreshers,
        p.2.metadata.SubDomain.Lcuuid ∉ cloudData.map Prod.fst →
          new.count (Event.clear p.2) = 1) ∧
      (∀ sd : subDomain, sd.metadata.SubDomain.Lcuuid ∈ cloudData.map Prod.fst →
        Event.clear sd ∉ new) ∧
      (∀ kr ∈ cloudData, ∃ sd,
        (RefreshAll changed s cloudData w).2.1.refreshers.lookup kr.1 = some sd ∧
        new.count (Event.tryRefresh sd kr.2) = 1 ∧
        ∀ res, Event.tryRefresh sd res ∈ new → res = kr.2) :=
  RefreshAll_counts changed s cloudData w hkeys hwf hlookup

/-- Witness of `RefreshAll_calls`: the registry knows `sub-0`, the map reports `sub-1`. -/
theorem RefreshAll_calls_witness :
    (RefreshAll noChange exampleRegistry exampleCloudData exampleWorld).1 = .ok none ∧
    ∃ new added,
      (RefreshAll noChange exampleRegistry exampleCloudData exampleWorld).2.2.trace
        = exampleWorld.trace ++ new ∧
      (RefreshAll noChange exampleRegistry exampleCloudData exampleWorld).2.1.refreshers
        = exampleRegistry.refreshers ++ added ∧
      (∀ p ∈ (RefreshAll noChange exampleRegistry exampleCloudData exampleWorld).2.1.refreshers,
        p.2.metadata.SubDomain.Lcuuid ∉ exampleCloudData.map Prod.fst →
          new.count (Event.clear p.2) = 1) ∧
      (∀ sd : subDomain, sd.metadata.SubDomain.Lcuuid ∈ exampleCloudData.map Prod.fst →
        Event.clear sd ∉ new) ∧
      (∀ kr ∈ exampleCloudData, ∃ sd,
        (RefreshAll noChange exampleRegistry exampleCloudData
          exampleWorld).2.1.refreshers.lookup kr.1 = some sd ∧
        new.count (Event.tryRefresh sd kr.2) = 1 ∧
        ∀ res, Event.tryRefresh sd res ∈ new → res = kr.2) :=
  RefreshAll_calls noChange exampleRegistry exampleCloudData exampleWorld (by decide) (by decide)
    (fun err h => by
      have h0 : (RefreshAll noChange exampleRegistry exampleCloudData exampleWorld).1
          = .ok none := by decide
      rw [h0] at h
      cases h)

/-! ## Tear-down and notification -/

/-- C13: `clear` builds the pipeline of a normal pass with every incoming collection empty
(the same updaters in the same order, each bound to the empty collection), runs
`executeUpdaters` on it without a panic, so that the trace grows by the adds of the pipeline
followed by delete calls only (no publish, no platform-data refresh, no store call), and
leaves the cache fields (gate token, sequence counter) and the store (hence `syncedAt`) as they
were. -/
theorem clear_pipeline (s : subDomain) (st : State) :
    (∀ cloudData : SubDomainResource,
      getUpdatersInOrder s {} =
        (getUpdatersInOrder s cloudData).map (fun u => { u with cloudData := [] })) ∧
    (∀ u ∈ getUpdatersInOrder s {}, u.cloudData = []) ∧
    (clear s st).1 = none ∧
    executeUpdaters (getUpdatersInOrder s {}) st.trace = .ok (clear s st).2.trace ∧
    (∃ dels : List ResourceUpdater,
      (clear s st).2.trace =
        st.trace ++ (getUpdatersInOrder s {}).map Event.HandleAddAndUpdate
          ++ dels.map Event.HandleDelete) ∧
    (clear s st).2.cache = st.cache ∧
    (clear s st).2.db = st.db := by
  obtain ⟨dels, hex⟩ := executeUpdaters_pipeline s {} st.trace
  refine ⟨fun _ => rfl, ?_, ?_, ?_, ⟨dels, ?_⟩, ?_, ?_⟩
  · intro u hu
    simp only [getUpdatersInOrder, List.mem_cons, List.mem_singleton, List.not_mem_nil,
      or_false] at hu
    rcases hu with h | h | h | h | h | h | h | h | h | h | h | h | h | h | h | h | h | h | h | h
      <;> subst h <;> rfl
  all_goals
    unfold clear
    simp only [hex]

theorem updateSyncedAt_trace (s : subDomain) (lcuuid : String) (syncAt : Time) (st : State) :
    ∃ sync, (updateSyncedAt s lcuuid syncAt st).trace = st.trace ++ sync ∧
      ∀ e ∈ sync, e.isStoreCall = true := by
  unfold updateSyncedAt
  split
  · exact ⟨[], by simp, by simp⟩
  · simp only []
    split
    · exact ⟨[Event.DBFirst lcuuid], rfl, by simp [Event.isStoreCall]⟩
    · rename_i r db hfirst
      exact ⟨[Event.DBFirst lcuuid, Event.DBSave { r with SyncedAt := some syncAt }],
        by simp, by simp [Event.isStoreCall]⟩

/-- The trace of the body of a pass: VTap refresh, adds, deletes, the platform-data refresh
when a change is reported, the publish, and the store calls of the synced-at step. -/
theorem refresh_trace (changed : List ResourceUpdater → List Event → Bool) (s : subDomain)
    (cloudData : SubDomainResource) (st : State) :
    ∃ (dels : List ResourceUpdater) (sync : List Event),
      (refresh changed s cloudData st).2.trace =
        (st.trace ++ [Event.RefreshVTaps s.cache]
          ++ (getUpdatersInOrder s cloudData).map Event.HandleAddAndUpdate
          ++ dels.map Event.HandleDelete)
        ++ (if changed (getUpdatersInOrder s cloudData)
              (st.trace ++ [Event.RefreshVTaps s.cache]
                ++ (getUpdatersInOrder s cloudData).map Event.HandleAddAndUpdate
                ++ dels.map Event.HandleDelete) = true
            then [Event.RefreshCache s.metadata.ORGID [DataChanged.DATA_CHANGED_PLATFORM_DATA]]
            else [])
        ++ [Event.PublishChange s.msgMetadata] ++ sync ∧
      ∀ e ∈ sync, e.isStoreCall = true := by
  obtain ⟨dels, hex⟩ := executeUpdaters_pipeline s cloudData
    (st.trace ++ [Event.RefreshVTaps s.cache])
  unfold refresh
  simp only [hex]
  generalize htr : st.trace ++ [Event.RefreshVTaps s.cache]
    ++ (getUpdatersInOrder s cloudData).map Event.HandleAddAndUpdate
    ++ dels.map Event.HandleDelete = swept
  generalize hst2 : ({ (notifyOnResourceChanged changed s (getUpdatersInOrder s cloudData)
      { st with trace := swept }) with
      trace := (notifyOnResourceChanged changed s (getUpdatersInOrder s cloudData)
        { st with trace := swept }).trace ++ [Event.PublishChange s.msgMetadata] } : State) = st2
  obtain ⟨sync, hsync, hall⟩ :=
    updateSyncedAt_trace s s.metadata.SubDomain.Lcuuid cloudData.SyncAt st2
  refine ⟨dels, sync, ?_, hall⟩
  rw [htr]
  rw [hsync, ← hst2]
  simp only [notifyOnResourceChanged]
  split <;> simp

/-- C14: in a pass that runs, the events after the delete sweep are: the platform-data
refresh call, present if and only if `isPlatformDataChanged` reports a change for the pass's
updaters, with the single discriminator `DATA_CHANGED_PLATFORM_DATA`; then the publish of the
whole-sub-domain message; then the store calls of the synced-at step.  So the publish happens
exactly once, after the delete sweep and after the notification step, whether or not anything
changed, and the platform-data refresh at most once. -/
theorem tryRefresh_notification (changed : List ResourceUpdater → List Event → Bool)
    (s : subDomain) (cloudData : SubDomainResource) (st : State)
    (hpre : shouldRefresh s s.metadata.SubDomain.Lcuuid cloudData = none)
    (hidle : st.cache.RefreshSignal = true) :
    ∃ (dels : List ResourceUpdater) (sync : List Event),
      (tryRefresh changed s cloudData st).2.trace =
        sweptTrace s cloudData st dels
        ++ (if changed (getUpdatersInOrder s cloudData) (sweptTrace s cloudData st dels) = true
            then [Event.RefreshCache s.metadata.ORGID [DataChanged.DATA_CHANGED_PLATFORM_DATA]]
            else [])
        ++ [Event.PublishChange s.msgMetadata] ++ sync ∧
      (∀ e ∈ sync, e.isStoreCall = true) ∧
      ((tryRefresh changed s cloudData st).2.trace.drop (sweptTrace s cloudData st dels).length
        ).count (Event.PublishChange s.msgMetadata) = 1 := by
  unfold tryRefresh
  simp only [hpre, hidle, if_true]
  generalize hst : ({ st with
      cache := Cache.IncrementSequence { st.cache with RefreshSignal := false },
      trace := st.trace ++ [Event.SetLogLevel s.cache .INFO .RefreshSignalCallerSubDomain] }
        : State) = st1
  have hp := (refresh_spec changed s cloudData st1).1
  obtain ⟨dels, sync, htr, hall⟩ := refresh_trace changed s cloudData st1
  rcases hrf : refresh changed s cloudData st1 with ⟨p, st2⟩
  rw [hrf] at hp htr
  simp only at hp htr
  subst hp
  simp only []
  have hswept : st1.trace ++ [Event.RefreshVTaps s.cache]
      ++ (getUpdatersInOrder s cloudData).map Event.HandleAddAndUpdate
      ++ dels.map Event.HandleDelete = sweptTrace s cloudData st dels := by
    rw [← hst]; simp [sweptTrace]
  rw [hswept] at htr
  refine ⟨dels, sync, htr, hall, ?_⟩
  rw [htr]
  simp only [List.append_assoc, List.drop_left]
  have hsync : sync.count (Event.PublishChange s.msgMetadata) = 0 := by
    apply List.count_eq_zero_of_not_mem
    intro hin
    have := hall _ hin
    simp [Event.isStoreCall] at this
  split <;> simp [List.count_cons, hsync]

/-- Witness of `tryRefresh_notification`: a pass in which a change is reported. -/
theorem tryRefresh_notification_witness :
    ∃ (dels : List ResourceUpdater) (sync : List Event),
      (tryRefresh allChange exampleRefresher richSnapshot idleState).2.trace =
        sweptTrace exampleRefresher richSnapshot idleState dels
        ++ (if allChange (getUpdatersInOrder exampleRefresher richSnapshot)
              (sweptTrace exampleRefresher richSnapshot idleState dels) = true
            then [Event.RefreshCache exampleRefresher.metadata.ORGID
              [DataChanged.DATA_CHANGED_PLATFORM_DATA]]
            else [])
        ++ [Event.PublishChange exampleRefresher.msgMetadata] ++ sync ∧
      (∀ e ∈ sync, e.isStoreCall = true) ∧
      ((tryRefresh allChange exampleRefresher richSnapshot idleState).2.trace.drop
        (sweptTrace exampleRefresher richSnapshot idleState dels).length
        ).count (Event.PublishChange exampleRefresher.msgMetadata) = 1 :=
  tryRefresh_notification allChange exampleRefresher richSnapshot idleState rfl rfl

/-! ## The registry: lookup errors -/

/-- The lookup-or-create block fails exactly when the key is unknown and the record lookup
fails; it then returns that error and has only made the lookup. -/
theorem resolve_error_iff (s : subDomains) (lcuuid : String) (w : World) (err : Error)
    (s' : subDomains) (w' : World) :
    resolve s lcuuid w = (.error err, s', w') ↔
      s.refreshers.lookup lcuuid = none ∧ (w.db.First lcuuid).1 = .error err ∧ s' = s ∧
        w' = { w with db := (w.db.First lcuuid).2, trace := w.trace ++ [Event.DBFirst lcuuid] } := by
  unfold resolve
  cases hlk : s.refreshers.lookup lcuuid with
  | some sd => simp
  | none =>
    simp only [newRefresher, true_and]
    rcases hf : w.db.First lcuuid with ⟨r, db1⟩
    cases r with
    | error e =>
      simp only [Prod.mk.injEq, Except.error.injEq]
      constructor
      · rintro ⟨h1, h2, h3⟩
        exact ⟨h1, h2.symm, h3.symm⟩
      · rintro ⟨h1, h2, h3⟩
        exact ⟨h1, h2.symm, h3.symm⟩
    | ok rec =>
      simp [CreateSubDomainCacheIfNotExists]

/-- The first loop of `RefreshAll` returns an error exactly when, after the entries before
some entry have been processed, the key of that entry is unknown and its record lookup fails;
the loop then stops right after that lookup. -/
theorem refreshLoop_error_iff (changed : List ResourceUpdater → List Event → Bool)
    (cd : List (String × SubDomainResource)) :
    ∀ (s : subDomains) (w : World) (err : Error) (s' : subDomains) (w' : World),
      RefreshAll.refreshLoop changed cd s w = (.ok (some err), s', w') ↔
        ∃ pre k res post s1 w1, cd = pre ++ (k, res) :: post ∧
          RefreshAll.refreshLoop changed pre s w = (.ok none, s1, w1) ∧
          s1.refreshers.lookup k = none ∧ (w1.db.First k).1 = .error err ∧ s' = s1 ∧
          w' = { w1 with db := (w1.db.First k).2, trace := w1.trace ++ [Event.DBFirst k] } := by
  induction cd with
  | nil =>
    intro s w err s' w'
    simp [RefreshAll.refreshLoop]
  | cons kr rest ih =>
    intro s w err s' w'
    obtain ⟨k0, res0⟩ := kr
    rcases hrs : resolve s k0 w with ⟨r, sa, wa⟩
    cases r with
    | error e =>
      have hres := (resolve_error_iff s k0 w e sa wa).mp hrs
      have hloop : RefreshAll.refreshLoop changed ((k0, res0) :: rest) s w
          = (.ok (some e), sa, wa) := by
        rw [RefreshAll.refreshLoop, hrs]
      rw [hloop]
      constructor
      · intro h
        simp only [Prod.mk.injEq, Except.ok.injEq, Option.some.injEq] at h
        obtain ⟨he, hs, hw⟩ := h
        subst he hs hw
        obtain ⟨h1, h2, h3, h4⟩ := hres
        exact ⟨[], k0, res0, rest, s, w, rfl, rfl, h1, h2, h3, h4⟩
      · rintro ⟨pre, k, res, post, s1, w1, hcd, hpre, hlk, hf, hs', hw'⟩
        cases pre with
        | nil =>
          simp only [List.nil_append, List.cons.injEq, Prod.mk.injEq] at hcd
          obtain ⟨⟨hk, _⟩, _⟩ := hcd
          subst hk
          simp only [RefreshAll.refreshLoop, Prod.mk.injEq, true_and] at hpre
          obtain ⟨hs1, hw1⟩ := hpre
          subst hs1 hw1
          obtain ⟨_, h2, h3, h4⟩ := hres
          rw [h2] at hf
          simp only [Except.error.injEq] at hf
          subst hf
          rw [hs', hw', h3, h4]
        | cons x pre' =>
          simp only [List.cons_append, List.cons.injEq] at hcd
          obtain ⟨hx, _⟩ := hcd
          subst hx
          rw [RefreshAll.refreshLoop, hrs] at hpre
          simp at hpre
    | ok sd =>
      rcases hct : callTryRefresh changed sd res0 wa with ⟨r2, wb⟩
      cases r2 with
      | error p =>
        have hloop : ∀ l, RefreshAll.refreshLoop changed ((k0, res0) :: l) s w
            = (.error p, sa, wb) := by
          intro l
          rw [RefreshAll.refreshLoop, hrs]
          simp only [hct]
        rw [hloop]
        constructor
        · intro h
          simp at h
        · rintro ⟨pre, k, res, post, s1, w1, hcd, hpre, _⟩
          cases pre with
          | nil =>
            simp only [List.nil_append, List.cons.injEq, Prod.mk.injEq] at hcd
            obtain ⟨⟨hk, _⟩, _⟩ := hcd
            subst hk
            simp only [RefreshAll.refreshLoop, Prod.mk.injEq, true_and] at hpre
            obtain ⟨hs1, hw1⟩ := hpre
            subst hs1 hw1
            rename_i hrest
            obtain ⟨hlk, hf, _⟩ := hrest
            have := (resolve_error_iff s k0 _ _ s
              { w with db := (w.db.First k0).2, trace := w.trace ++ [Event.DBFirst k0] }).mpr
              ⟨hlk, hf, rfl, rfl⟩
            rw [hrs] at this
            simp at this
          | cons x pre' =>
            simp only [List.cons_append, List.cons.injEq] at hcd
            obtain ⟨hx, _⟩ := hcd
            subst hx
            rw [hloop] at hpre
            simp at hpre
      | ok r3 =>
        have hloop : ∀ l, RefreshAll.refreshLoop changed ((k0, res0) :: l) s w
            = RefreshAll.refreshLoop changed l sa wb := by
          intro l
          rw [RefreshAll.refreshLoop, hrs]
          simp only [hct]
        rw [hloop, ih sa wb err s' w']
        constructor
        · rintro ⟨pre, k, res, post, s1, w1, hcd, hpre, hrest⟩
          exact ⟨(k0, res0) :: pre, k, res, post, s1, w1, by rw [hcd]; rfl,
            by rw [hloop]; exact hpre, hrest⟩
        · rintro ⟨pre, k, res, post, s1, w1, hcd, hpre, hrest⟩
          cases pre with
          | nil =>
            simp only [List.nil_append, List.cons.injEq, Prod.mk.injEq] at hcd
            obtain ⟨⟨hk, _⟩, _⟩ := hcd
            subst hk
            simp only [RefreshAll.refreshLoop, Prod.mk.injEq, true_and] at hpre
            obtain ⟨hs1, hw1⟩ := hpre
            subst hs1 hw1
            obtain ⟨hlk, hf, _⟩ := hrest
            have := (resolve_error_iff s k0 _ _ s
              { w with db := (w.db.First k0).2, trace := w.trace ++ [Event.DBFirst k0] }).mpr
              ⟨hlk, hf, rfl, rfl⟩
            rw [hrs] at this
            simp at this
          | cons x pre' =>
            simp only [List.cons_append, List.cons.injEq] at hcd
            obtain ⟨hx, hrest'⟩ := hcd
            subst hx
            rw [hloop] at hpre
            exact ⟨pre', k, res, post, s1, w1, hrest', hpre, hrest⟩

/-- `RefreshAll` returns an error exactly when its first loop does, with the same state. -/
theorem RefreshAll_error_eq (changed : List ResourceUpdater → List Event → Bool)
    (s : subDomains) (cloudData : List (String × SubDomainResource)) (w : World)
    (err : Error) (s' : subDomains) (w' : World) :
    RefreshAll changed s cloudData w = (.ok (some err), s', w') ↔
      RefreshAll.refreshLoop changed cloudData s w = (.ok (some err), s', w') := by
  unfold RefreshAll
  rcases hrl : RefreshAll.refreshLoop changed cloudData s w with ⟨r, s1, w1⟩
  cases r with
  | error p => simp
  | ok o =>
    cases o with
    | some e => simp
    | none =>
      simp only []
      rcases hcl : RefreshAll.clearLoop cloudData s1.refreshers w1 with ⟨r2, w2⟩
      cases r2 <;> simp

/-- C11: on a well-formed registry `RefreshAll` returns nil or an error and never panics;
it returns the error `err` exactly when, after the entries before some entry have been
processed without an error, the key of that entry is unknown and its record lookup fails with
`err`, and it then returns in the state right after that lookup: the later entries are not
processed, no refresher is registered for the failing key, and the only call markers written
are the `tryRefresh` calls of the entries before it (no `clear`).  The results of the
`tryRefresh` calls play no part: with no failing lookup the result is nil. -/
theorem RefreshAll_error_iff (changed : List ResourceUpdater → List Event → Bool)
    (s : subDomains) (cloudData : List (String × SubDomainResource)) (w : World)
    (hwf : WellFormed s w) :
    ((RefreshAll changed s cloudData w).1 = .ok none ∨
      ∃ err, (RefreshAll changed s cloudData w).1 = .ok (some err)) ∧
    (∀ err s' w', RefreshAll changed s cloudData w = (.ok (some err), s', w') ↔
      ∃ pre k res post s1 w1, cloudData = pre ++ (k, res) :: post ∧
        RefreshAll.refreshLoop changed pre s w = (.ok none, s1, w1) ∧
        s1.refreshers.lookup k = none ∧ (w1.db.First k).1 = .error err ∧ s' = s1 ∧
        w' = { w1 with db := (w1.db.First k).2, trace := w1.trace ++ [Event.DBFirst k] }) ∧
    (∀ err s' w', RefreshAll changed s cloudData w = (.ok (some err), s', w') →
      ∃ pre k res post new, cloudData = pre ++ (k, res) :: post ∧
        s'.refreshers.lookup k = none ∧ w'.trace = w.trace ++ new ∧
        markers new = pre.filterMap (fun kr =>
          (s'.refreshers.lookup kr.1).map (fun sd => Event.tryRefresh sd kr.2))) := by
  have hiff : ∀ err s' w', RefreshAll changed s cloudData w = (.ok (some err), s', w') ↔
      ∃ pre k res post s1 w1, cloudData = pre ++ (k, res) :: post ∧
        RefreshAll.refreshLoop changed pre s w = (.ok none, s1, w1) ∧
        s1.refreshers.lookup k = none ∧ (w1.db.First k).1 = .error err ∧ s' = s1 ∧
        w' = { w1 with db := (w1.db.First k).2, trace := w1.trace ++ [Event.DBFirst k] } := by
    intro err s' w'
    rw [RefreshAll_error_eq]
    exact refreshLoop_error_iff changed cloudData s w err s' w'
  refine ⟨?_, hiff, ?_⟩
  · rcases RefreshAll_spec changed s cloudData w hwf with h | h
    · exact Or.inr h
    · exact Or.inl h.1
  · intro err s' w' h
    obtain ⟨pre, k, res, post, s1, w1, hcd, hpre, hlk, _, hs', hw'⟩ := (hiff err s' w').mp h
    subst hs' hw'
    have hspec := refreshLoop_spec changed pre s w hwf
    rw [hpre] at hspec
    simp only at hspec
    rcases hspec with ⟨e, he⟩ | ⟨_, _, _, _, new, htr, hm⟩
    · simp at he
    · refine ⟨pre, k, res, post, new ++ [Event.DBFirst k], hcd, hlk, ?_, ?_⟩
      · simp [htr]
      · rw [← hm]
        simp [markers, Event.isMarker]

/-- Witness of `RefreshAll_error_iff`: the record of the second key is missing. -/
theorem RefreshAll_error_iff_witness :
    ((RefreshAll noChange exampleRegistry failingCloudData exampleWorld).1 = .ok none ∨
      ∃ err, (RefreshAll noChange exampleRegistry failingCloudData exampleWorld).1
        = .ok (some err)) ∧
    (∀ err s' w',
      RefreshAll noChange exampleRegistry failingCloudData exampleWorld
        = (.ok (some err), s', w') ↔
      ∃ pre k res post s1 w1, failingCloudData = pre ++ (k, res) :: post ∧
        RefreshAll.refreshLoop noChange pre exampleRegistry exampleWorld = (.ok none, s1, w1) ∧
        s1.refreshers.lookup k = none ∧ (w1.db.First k).1 = .error err ∧ s' = s1 ∧
        w' = { w1 with db := (w1.db.First k).2, trace := w1.trace ++ [Event.DBFirst k] }) ∧
    (∀ err s' w',
      RefreshAll noChange exampleRegistry failingCloudData exampleWorld
        = (.ok (some err), s', w') →
      ∃ pre k res post new, failingCloudData = pre ++ (k, res) :: post ∧
        s'.refreshers.lookup k = none ∧ w'.trace = exampleWorld.trace ++ new ∧
        markers new = pre.filterMap (fun kr =>
          (s'.refreshers.lookup kr.1).map (fun sd => Event.tryRefresh sd kr.2))) :=
  RefreshAll_error_iff noChange exampleRegistry failingCloudData exampleWorld (by decide)

/-! ## The registry: `RefreshOne` -/

theorem RefreshOne_cons (changed : List ResourceUpdater → List Event → Bool)
    (s : subDomains) (w : World) (k : String) (res : SubDomainResource)
    (rest : List (String × SubDomainResource)) :
    RefreshOne changed s ((k, res) :: rest) w =
      match resolve s k w with
      | (.error err, s, w) => (.ok (some err), s, w)
      | (.ok sd, s, w) =>
        ((callTryRefresh changed sd res w).1, s, (callTryRefresh changed sd res w).2) := by
  simp only [RefreshOne]

/-- C12: `RefreshOne` on the empty map returns nil and changes nothing.  On a non-empty map
over a well-formed registry it depends on the first entry only; when the lookup-or-create step
for that entry's key fails it returns the lookup error, with the registry as it was and no call
marker written; otherwise it returns exactly the result of `tryRefresh` on the resolved
refresher with the entry's snapshot, the registry is unchanged or grown by that one refresher,
and the only call marker written is that one `tryRefresh`.  In no case is `clear` called. -/
theorem RefreshOne_spec (changed : List ResourceUpdater → List Event → Bool)
    (s : subDomains) (w : World) (hwf : WellFormed s w) :
    RefreshOne changed s [] w = (.ok none, s, w) ∧
    ∀ (k : String) (res : SubDomainResource) (rest : List (String × SubDomainResource)),
      RefreshOne changed s ((k, res) :: rest) w = RefreshOne changed s [(k, res)] w ∧
      (∀ err, (resolve s k w).1 = .error err →
        (RefreshOne changed s ((k, res) :: rest) w).1 = .ok (some err) ∧
        (RefreshOne changed s ((k, res) :: rest) w).2.1 = s ∧
        ∃ new, (RefreshOne changed s ((k, res) :: rest) w).2.2.trace = w.trace ++ new ∧
          markers new = []) ∧
      (∀ sd, (resolve s k w).1 = .ok sd →
        (∃ c, (resolve s k w).2.2.caches.lookup sd.cache = some c ∧
          (RefreshOne changed s ((k, res) :: rest) w).1 =
            (tryRefresh changed sd res
              { cache := c, db := (resolve s k w).2.2.db,
                trace := (resolve s k w).2.2.trace ++ [Event.tryRefresh sd res] }).1) ∧
        ((RefreshOne changed s ((k, res) :: rest) w).2.1.refreshers = s.refreshers ∨
          (RefreshOne changed s ((k, res) :: rest) w).2.1.refreshers
            = s.refreshers ++ [(k, sd)]) ∧
        (RefreshOne changed s ((k, res) :: rest) w).2.1.refreshers.lookup k = some sd ∧
        ∃ new, (RefreshOne changed s ((k, res) :: rest) w).2.2.trace = w.trace ++ new ∧
          markers new = [Event.tryRefresh sd res]) ∧
      ∃ new, (RefreshOne changed s ((k, res) :: rest) w).2.2.trace = w.trace ++ new ∧
        ∀ sd, Event.clear sd ∉ new := by
  refine ⟨rfl, ?_⟩
  intro k res rest
  obtain ⟨hq0, hres⟩ := resolve_spec s k w hwf
  have hadd : ∀ sd, (resolve s k w).1 = .ok sd →
      (resolve s k w).2.1.refreshers = s.refreshers ∨
      (resolve s k w).2.1.refreshers = s.refreshers ++ [(k, sd)] := by
    intro sd h
    unfold resolve at h ⊢
    cases hlk : s.refreshers.lookup k with
    | some sd0 => simp
    | none =>
      rw [hlk] at h
      simp only at h ⊢
      rcases hnr : newRefresher s k w with ⟨r, w1⟩
      rw [hnr] at h
      cases r with
      | error e => simp at h
      | ok sd0 =>
        simp only [Except.ok.injEq] at h
        subst h
        simp
  have herrs : ∀ err, (resolve s k w).1 = .error err → (resolve s k w).2.1 = s := by
    intro err h
    have := (resolve_error_iff s k w err (resolve s k w).2.1 (resolve s k w).2.2).mp
      (by rw [← h])
    exact this.2.2.1
  rw [RefreshOne_cons, RefreshOne_cons]
  rcases hrs : resolve s k w with ⟨r, s1, w1⟩
  rw [hrs] at hq0 hres hadd herrs
  simp only at hq0 hres hadd herrs
  cases r with
  | error e =>
    simp only []
    obtain ⟨ev, hev, hm⟩ := hq0
    refine ⟨trivial, ?_, ?_, ⟨ev, hev, ?_⟩⟩
    · intro err h
      simp only [Except.error.injEq] at h
      subst h
      exact ⟨rfl, herrs _ rfl, ev, hev, hm⟩
    · intro sd h
      cases h
    · intro sd hin
      have : Event.clear sd ∈ markers ev := List.mem_filter.mpr ⟨hin, rfl⟩
      rw [hm] at this
      cases this
  | ok sd =>
    simp only []
    obtain ⟨_, _, hlk1, hc1⟩ := hres sd rfl
    have hw : sd.cache ∈
        ({ w1 with trace := w1.trace ++ [Event.tryRefresh sd res] } : World).cacheKeys := hc1
    obtain ⟨c, hc, h1, _, h3⟩ := onCache_spec sd.cache (tryRefresh changed sd res) _ hw
    obtain ⟨r0, hr0⟩ := tryRefresh_no_panic changed sd res
      { cache := c, db := w1.db, trace := w1.trace ++ [Event.tryRefresh sd res] }
    obtain ⟨_, _, hq2⟩ := callTryRefresh_spec changed sd res w1 hc1
    have hcall : (callTryRefresh changed sd res w1).1 = .ok r0 := by
      unfold callTryRefresh
      simp only []
      rcases hoc : onCache sd.cache (tryRefresh changed sd res)
        { w1 with trace := w1.trace ++ [Event.tryRefresh sd res] } with ⟨ro, wo⟩
      rw [hoc] at h1
      simp only at h1
      subst h1
      simp only [hr0]
    rcases hct : callTryRefresh changed sd res w1 with ⟨r2, w2⟩
    rw [hct] at hcall hq2
    simp only at hcall hq2
    subst hcall
    obtain ⟨ev0, hev0, hm0⟩ := hq0
    obtain ⟨ev2, hev2, hm2⟩ := markers_quiet_cons (Event.tryRefresh sd res) hq2
    have hmark : markers (ev0 ++ Event.tryRefresh sd res :: ev2) = [Event.tryRefresh sd res] := by
      simp only [markers, List.filter_append, List.filter_cons] at hm0 hm2 ⊢
      rw [hm0, hm2]
      simp [Event.isMarker]
    have htrace : w2.trace = w.trace ++ (ev0 ++ Event.tryRefresh sd res :: ev2) := by
      rw [hev2, hev0]; simp
    refine ⟨trivial, ?_, ?_, ⟨_, htrace, ?_⟩⟩
    · intro err h
      cases h
    · intro sd' h
      simp only [Except.ok.injEq] at h
      subst h
      exact ⟨⟨c, hc, hr0.symm⟩, hadd _ rfl, hlk1, _, htrace, hmark⟩
    · intro sd' hin
      have : Event.clear sd' ∈ markers (ev0 ++ Event.tryRefresh sd res :: ev2) :=
        List.mem_filter.mpr ⟨hin, rfl⟩
      rw [hmark] at this
      simp at this

/-- Witness of `RefreshOne_spec` on the example registry and world: the empty map, and a map
whose first entry is `sub-1`. -/
theorem RefreshOne_spec_witness :
    RefreshOne noChange exampleRegistry [] exampleWorld
      = (.ok none, exampleRegistry, exampleWorld) ∧
    RefreshOne noChange exampleRegistry (("sub-1", validSnapshot) :: failingCloudData)
        exampleWorld
      = RefreshOne noChange exampleRegistry [("sub-1", validSnapshot)] exampleWorld :=
  ⟨(RefreshOne_spec noChange exampleRegistry exampleWorld (by decide)).1,
   ((RefreshOne_spec noChange exampleRegistry exampleWorld (by decide)).2
      "sub-1" validSnapshot failingCloudData).1⟩

/-! ## The registry across calls: creations -/

theorem Inner_refl (tr : List Event) : Inner tr tr :=
  ⟨[], by simp, by simp⟩

theorem Inner_trans {a b c : List Event} (h1 : Inner a b) (h2 : Inner b c) : Inner a c := by
  obtain ⟨e1, rfl, m1⟩ := h1
  obtain ⟨e2, rfl, m2⟩ := h2
  refine ⟨e1 ++ e2, by simp, ?_⟩
  intro e he
  rcases List.mem_append.mp he with h | h
  · exact m1 e h
  · exact m2 e h

theorem Inner_snoc (tr : List Event) (e : Event) (he : e.isInner = true) :
    Inner tr (tr ++ [e]) :=
  ⟨[e], rfl, by simpa using he⟩

theorem creations_of_inner (ev : List Event) (h : ∀ e ∈ ev, e.isInner = true) :
    creations ev = [] := by
  induction ev with
  | nil => rfl
  | cons e ev ih =>
    have he := h e (List.mem_cons_self _ _)
    have ih' := ih (fun x hx => h x (List.mem_cons_of_mem _ hx))
    cases e <;> simp_all [creations, Event.isInner]

theorem creations_append (a b : List Event) :
    creations (a ++ b) = creations a ++ creations b := by
  simp [creations]

theorem count_create (k : String) (tr : List Event) :
    tr.count (Event.CreateSubDomainCacheIfNotExists k) = (creations tr).count k := by
  induction tr with
  | nil => rfl
  | cons e tr ih =>
    cases e <;> simp_all [creations, List.count_cons]

theorem executeUpdaters_pipeline_inner (s : subDomain) (cloudData : SubDomainResource)
    (tr : List Event) :
    ∃ tr', executeUpdaters (getUpdatersInOrder s cloudData) tr = .ok tr' ∧ Inner tr tr' := by
  obtain ⟨dels, h⟩ := executeUpdaters_pipeline s cloudData tr
  refine ⟨_, h, (getUpdatersInOrder s cloudData).map Event.HandleAddAndUpdate
    ++ dels.map Event.HandleDelete, by simp, ?_⟩
  intro e he
  rcases List.mem_append.mp he with h | h
  · obtain ⟨u, _, rfl⟩ := List.mem_map.mp h
    rfl
  · obtain ⟨u, _, rfl⟩ := List.mem_map.mp h
    rfl

theorem notifyOnResourceChanged_inner
    (changed : List ResourceUpdater → List Event → Bool) (s : subDomain)
    (us : List ResourceUpdater) (st : State) :
    Inner st.trace (notifyOnResourceChanged changed s us st).trace := by
  unfold notifyOnResourceChanged
  simp only []
  split
  · exact Inner_snoc _ _ rfl
  · exact Inner_refl _

theorem updateSyncedAt_inner (s : subDomain) (lcuuid : String) (syncAt : Time) (st : State) :
    Inner st.trace (updateSyncedAt s lcuuid syncAt st).trace := by
  unfold updateSyncedAt
  split
  · exact Inner_refl _
  · simp only []
    split
    · exact Inner_snoc _ _ rfl
    · exact Inner_trans (Inner_snoc st.trace (Event.DBFirst lcuuid) rfl) (Inner_snoc _ _ rfl)

theorem refresh_inner (changed : List ResourceUpdater → List Event → Bool) (s : subDomain)
    (cloudData : SubDomainResource) (st : State) :
    Inner st.trace (refresh changed s cloudData st).2.trace := by
  obtain ⟨tr', hex, hq⟩ := executeUpdaters_pipeline_inner s cloudData
    (st.trace ++ [Event.RefreshVTaps s.cache])
  unfold refresh
  simp only [hex]
  refine Inner_trans (Inner_snoc st.trace (Event.RefreshVTaps s.cache) rfl) (Inner_trans hq ?_)
  refine Inner_trans ?_ (updateSyncedAt_inner _ _ _ _)
  refine Inner_trans ?_ (Inner_snoc _ _ rfl)
  exact notifyOnResourceChanged_inner changed s _ { st with trace := tr' }

theorem tryRefresh_inner (changed : List ResourceUpdater → List Event → Bool) (s : subDomain)
    (cloudData : SubDomainResource) (st : State) :
    Inner st.trace (tryRefresh changed s cloudData st).2.trace := by
  unfold tryRefresh
  split
  · exact Inner_refl _
  · split
    · simp only []
      generalize hst : ({ st with
        cache := Cache.IncrementSequence { st.cache with RefreshSignal := false },
        trace := st.trace ++ [Event.SetLogLevel s.cache .INFO .RefreshSignalCallerSubDomain] }
          : State) = st1
      have hq0 : Inner st.trace st1.trace := by
        rw [← hst]
        exact Inner_snoc st.trace
          (Event.SetLogLevel s.cache .INFO .RefreshSignalCallerSubDomain) rfl
      have hq := refresh_inner changed s cloudData st1
      rcases hrf : refresh changed s cloudData st1 with ⟨p, st2⟩
      rw [hrf] at hq
      cases p <;> exact Inner_trans hq0 hq
    · exact Inner_refl _

theorem clear_inner (s : subDomain) (st : State) :
    Inner st.trace (clear s st).2.trace := by
  obtain ⟨tr', hex, hq⟩ := executeUpdaters_pipeline_inner s {} st.trace
  unfold clear
  simp only [hex]
  exact hq

theorem callTryRefresh_creations (changed : List ResourceUpdater → List Event → Bool)
    (sd : subDomain) (resource : SubDomainResource) (w : World) (h : sd.cache ∈ w.cacheKeys) :
    ∃ ev, (callTryRefresh changed sd resource w).2.trace = w.trace ++ ev ∧ creations ev = [] := by
  have hw : sd.cache ∈
      ({ w with trace := w.trace ++ [Event.tryRefresh sd resource] } : World).cacheKeys := h
  obtain ⟨c, _, _, _, h3⟩ := onCache_spec sd.cache (tryRefresh changed sd resource) _ hw
  obtain ⟨ev, hev, hin⟩ := tryRefresh_inner changed sd resource
    { cache := c, db := w.db, trace := w.trace ++ [Event.tryRefresh sd resource] }
  have htr : (callTryRefresh changed sd resource w).2.trace =
      (onCache sd.cache (tryRefresh changed sd resource)
        { w with trace := w.trace ++ [Event.tryRefresh sd resource] }).2.trace := by
    unfold callTryRefresh
    simp only []
    rcases onCache sd.cache (tryRefresh changed sd resource)
      { w with trace := w.trace ++ [Event.tryRefresh sd resource] } with ⟨r, w'⟩
    cases r <;> rfl
  refine ⟨Event.tryRefresh sd resource :: ev, ?_, ?_⟩
  · rw [htr, h3, hev]; simp
  · have := creations_of_inner ev hin
    simpa [creations] using this

theorem callClear_creations (sd : subDomain) (w : World) (h : sd.cache ∈ w.cacheKeys) :
    ∃ ev, (callClear sd w).2.trace = w.trace ++ ev ∧ creations ev = [] := by
  have hw : sd.cache ∈ ({ w with trace := w.trace ++ [Event.clear sd] } : World).cacheKeys := h
  obtain ⟨c, _, _, _, h3⟩ := onCache_spec sd.cache (clear sd) _ hw
  obtain ⟨ev, hev, hin⟩ := clear_inner sd
    { cache := c, db := w.db, trace := w.trace ++ [Event.clear sd] }
  have htr : (callClear sd w).2.trace =
      (onCache sd.cache (clear sd) { w with trace := w.trace ++ [Event.clear sd] }).2.trace := by
    unfold callClear
    simp only []
    rcases onCache sd.cache (clear sd) { w with trace := w.trace ++ [Event.clear sd] }
      with ⟨r, w'⟩
    cases r <;> rfl
  refine ⟨Event.clear sd :: ev, ?_, ?_⟩
  · rw [htr, h3, hev]; simp
  · have := creations_of_inner ev hin
    simpa [creations] using this

/-- A successful `newRefresher` makes exactly one record lookup and one cache get-or-create,
both for the lcuuid asked for; a failing one makes the lookup only. -/
theorem newRefresher_trace (s : subDomains) (lcuuid : String) (w : World) :
    (∀ sd, (newRefresher s lcuuid w).1 = .ok sd →
      (newRefresher s lcuuid w).2.trace =
        w.trace ++ [Event.DBFirst lcuuid, Event.CreateSubDomainCacheIfNotExists lcuuid]) ∧
    (∀ err, (newRefresher s lcuuid w).1 = .error err →
      (newRefresher s lcuuid w).2.trace = w.trace ++ [Event.DBFirst lcuuid]) := by
  unfold newRefresher
  simp only []
  rcases hf : w.db.First lcuuid with ⟨r, db1⟩
  cases r with
  | error err => simp
  | ok rec =>
    obtain ⟨hl, _⟩ := First_ok _ _ _ _ hf
    simp only [CreateSubDomainCacheIfNotExists, Metadata.SetSubDomain, hl]
    split <;> simp

theorem resolve_creations (s : subDomains) (lcuuid : String) (w : World) :
    ∃ ev added, (resolve s lcuuid w).2.2.trace = w.trace ++ ev ∧
      (resolve s lcuuid w).2.1.refreshers = s.refreshers ++ added ∧
      creations ev = added.map Prod.fst := by
  obtain ⟨hok, herr⟩ := newRefresher_trace s lcuuid w
  unfold resolve
  cases hlk : s.refreshers.lookup lcuuid with
  | some sd => exact ⟨[], [], by simp, by simp, rfl⟩
  | none =>
    simp only []
    rcases hnr : newRefresher s lcuuid w with ⟨r, w1⟩
    rw [hnr] at hok herr
    simp only at hok herr
    cases r with
    | error err =>
      exact ⟨[Event.DBFirst lcuuid], [], herr err rfl, by simp, rfl⟩
    | ok sd =>
      exact ⟨[Event.DBFirst lcuuid, Event.CreateSubDomainCacheIfNotExists lcuuid],
        [(lcuuid, sd)], hok sd rfl, rfl, rfl⟩

/-- The first loop of `RefreshAll` makes one cache get-or-create per refresher it appends to
the registry, for the key it is stored under, and no other. -/
theorem refreshLoop_creations (changed : List ResourceUpdater → List Event → Bool)
    (cd : List (String × SubDomainResource)) :
    ∀ (s : subDomains) (w : World), WellFormed s w →
      ∃ ev added, (RefreshAll.refreshLoop changed cd s w).2.2.trace = w.trace ++ ev ∧
        (RefreshAll.refreshLoop changed cd s w).2.1.refreshers = s.refreshers ++ added ∧
        creations ev = added.map Prod.fst := by
  induction cd with
  | nil =>
    intro s w _
    exact ⟨[], [], by simp [RefreshAll.refreshLoop], by simp [RefreshAll.refreshLoop], rfl⟩
  | cons kr rest ih =>
    intro s w hwf
    obtain ⟨k, res⟩ := kr
    obtain ⟨ev0, added0, htr0, hadd0, hcr0⟩ := resolve_creations s k w
    obtain ⟨_, hres⟩ := resolve_spec s k w hwf
    unfold RefreshAll.refreshLoop
    rcases hrs : resolve s k w with ⟨r, s1, w1⟩
    rw [hrs] at htr0 hadd0 hres
    simp only at htr0 hadd0 hres
    cases r with
    | error err => exact ⟨ev0, added0, htr0, hadd0, hcr0⟩
    | ok sd =>
      simp only []
      obtain ⟨hwf1, _, _, hc1⟩ := hres sd rfl
      obtain ⟨_, hk2, _⟩ := callTryRefresh_spec changed sd res w1 hc1
      obtain ⟨ev2, htr2, hcr2⟩ := callTryRefresh_creations changed sd res w1 hc1
      rcases hct : callTryRefresh changed sd res w1 with ⟨r2, w2⟩
      rw [hct] at hk2 htr2
      simp only at hk2 htr2
      cases r2 with
      | error p =>
        simp only []
        exact ⟨ev0 ++ ev2, added0, by rw [htr2, htr0, List.append_assoc], hadd0,
          by rw [creations_append, hcr0, hcr2, List.append_nil]⟩
      | ok r3 =>
        simp only []
        have hwf2 : WellFormed s1 w2 :=
          ⟨hwf1.1, fun p hp => ⟨(hwf1.2 p hp).1, by rw [hk2]; exact (hwf1.2 p hp).2⟩⟩
        obtain ⟨ev3, added3, htr3, hadd3, hcr3⟩ := ih s1 w2 hwf2
        exact ⟨ev0 ++ ev2 ++ ev3, added0 ++ added3,
          by rw [htr3, htr2, htr0]; simp,
          by rw [hadd3, hadd0, List.append_assoc],
          by rw [creations_append, creations_append, hcr0, hcr2, hcr3]; simp⟩

theorem clearLoop_creations (cd : List (String × SubDomainResource)) :
    ∀ (rs : List (String × subDomain)) (w : World), (∀ p ∈ rs, p.2.cache ∈ w.cacheKeys) →
      ∃ ev, (RefreshAll.clearLoop cd rs w).2.trace = w.trace ++ ev ∧ creations ev = [] := by
  intro rs
  induction rs with
  | nil =>
    intro w _
    exact ⟨[], by simp [RefreshAll.clearLoop], rfl⟩
  | cons p rest ih =>
    intro w hptr
    obtain ⟨k, sd⟩ := p
    unfold RefreshAll.clearLoop
    have hrest : ∀ p ∈ rest, p.2.cache ∈ w.cacheKeys :=
      fun p hp => hptr p (List.mem_cons_of_mem _ hp)
    cases hlk : cd.lookup sd.metadata.SubDomain.Lcuuid with
    | some res =>
      simp only []
      exact ih w hrest
    | none =>
      simp only []
      have hsd := hptr (k, sd) (List.mem_cons_self _ _)
      obtain ⟨_, hc2, _⟩ := callClear_spec sd w hsd
      obtain ⟨ev1, htr1, hcr1⟩ := callClear_creations sd w hsd
      rcases hcc : callClear sd w with ⟨r, w1⟩
      rw [hcc] at hc2 htr1
      simp only at hc2 htr1
      cases r with
      | some p => exact ⟨ev1, htr1, hcr1⟩
      | none =>
        simp only []
        obtain ⟨ev2, htr2, hcr2⟩ := ih w1 (fun p hp => by rw [hc2]; exact hrest p hp)
        exact ⟨ev1 ++ ev2, by rw [htr2, htr1, List.append_assoc],
          by rw [creations_append, hcr1, hcr2]; rfl⟩

/-- `RefreshAll` on a well-formed registry makes one cache get-or-create per refresher it
appends to the registry, for the key it is stored under, and no other. -/
theorem RefreshAll_creations (changed : List ResourceUpdater → List Event → Bool)
    (s : subDomains) (cloudData : List (String × SubDomainResource)) (w : World)
    (hwf : WellFormed s w) :
    ∃ ev added, (RefreshAll changed s cloudData w).2.2.trace = w.trace ++ ev ∧
      (RefreshAll changed s cloudData w).2.1.refreshers = s.refreshers ++ added ∧
      creations ev = added.map Prod.fst := by
  obtain ⟨ev1, added1, htr1, hadd1, hcr1⟩ := refreshLoop_creations changed cloudData s w hwf
  have hspec := refreshLoop_spec changed cloudData s w hwf
  unfold RefreshAll
  rcases hrl : RefreshAll.refreshLoop changed cloudData s w with ⟨r, s1, w1⟩
  rw [hrl] at htr1 hadd1 hspec
  simp only at htr1 hadd1 hspec
  cases r with
  | error p => exact ⟨ev1, added1, htr1, hadd1, hcr1⟩
  | ok o =>
    cases o with
    | some e => exact ⟨ev1, added1, htr1, hadd1, hcr1⟩
    | none =>
      simp only []
      rcases hspec with ⟨e, he⟩ | ⟨_, hwf1, _⟩
      · simp at he
      obtain ⟨ev2, htr2, hcr2⟩ :=
        clearLoop_creations cloudData s1.refreshers w1 (fun p hp => (hwf1.2 p hp).2)
      rcases hcl : RefreshAll.clearLoop cloudData s1.refreshers w1 with ⟨r2, w2⟩
      rw [hcl] at htr2
      simp only at htr2
      cases r2 with
      | some p =>
        exact ⟨ev1 ++ ev2, added1, by rw [htr2, htr1, List.append_assoc], hadd1,
          by rw [creations_append, hcr1, hcr2, List.append_nil]⟩
      | none =>
        exact ⟨ev1 ++ ev2, added1, by rw [htr2, htr1, List.append_assoc], hadd1,
          by rw [creations_append, hcr1, hcr2, List.append_nil]⟩

/-- What an append-only, well-formed growth of the registry means for one key: a refresher
that was known stays the same and no cache get-or-create is made for its key; a key that was
unknown and is known afterwards had exactly one. -/
theorem registry_growth (s s' : subDomains) (w' : World) (added : List (String × subDomain))
    (new : List Event) (hwf : WellFormed s' w')
    (hadd : s'.refreshers = s.refreshers ++ added)
    (hcr : creations new = added.map Prod.fst) :
    (∀ k sd, s.refreshers.lookup k = some sd →
      s'.refreshers.lookup k = some sd ∧ Event.CreateSubDomainCacheIfNotExists k ∉ new ∧
        sd.cache ∈ w'.cacheKeys) ∧
    (∀ k, s.refreshers.lookup k = none → (∃ sd, s'.refreshers.lookup k = some sd) →
      new.count (Event.CreateSubDomainCacheIfNotExists k) = 1) := by
  have hnodup : (s.refreshers.map Prod.fst ++ added.map Prod.fst).Nodup := by
    have := hwf.1
    rwa [hadd, List.map_append] at this
  obtain ⟨_, hnd2, hdisj⟩ := List.nodup_append.mp hnodup
  constructor
  · intro k sd hlk
    have hlk' : s'.refreshers.lookup k = some sd := by
      rw [hadd, List.lookup_append, hlk]; rfl
    refine ⟨hlk', ?_, (hwf.2 _ (mem_keys_of_lookup _ _ _ hlk')).2⟩
    intro hin
    have hc : 0 < new.count (Event.CreateSubDomainCacheIfNotExists k) :=
      List.count_pos_iff.mpr hin
    rw [count_create, hcr] at hc
    have hk2 : k ∈ added.map Prod.fst := List.count_pos_iff.mp hc
    have hk1 : k ∈ s.refreshers.map Prod.fst :=
      List.mem_map.mpr ⟨(k, sd), mem_keys_of_lookup _ _ _ hlk, rfl⟩
    exact hdisj hk1 hk2
  · rintro k hnone ⟨sd, hsd⟩
    rw [count_create, hcr]
    apply List.count_eq_one_of_mem hnd2
    have hmem := mem_keys_of_lookup _ _ _ hsd
    rw [hadd] at hmem
    rcases List.mem_append.mp hmem with h | h
    · have := List.lookup_eq_none_iff.mp hnone (k, sd) h
      simp at this
    · exact List.mem_map.mpr ⟨(k, sd), h, rfl⟩

/-- C15: for two consecutive `RefreshAll` calls that return nil, on maps `M1` then `M2`
(distinct keys) from a well-formed registry, with `new1` and `new2` the events of the two
calls: the refresher of every key of `M1` that is not a key of `M2` is the same in both
registries and has `clear` called on it exactly once in `new2` and not in `new1`; every key of
`M2` unknown before the second call has exactly one cache get-or-create in `new2` and a
refresher afterwards; a key known before a call keeps its refresher (the same value, hence the
same cache pointer, which stays valid) and gets no cache get-or-create in that call; and each
successful `newRefresher` makes exactly one record lookup and one cache get-or-create. -/
theorem RefreshAll_convergence (changed : List ResourceUpdater → List Event → Bool)
    (s s1 s2 : subDomains) (M1 M2 : List (String × SubDomainResource)) (w w1 w2 : World)
    (hk1 : (M1.map Prod.fst).Nodup) (hk2 : (M2.map Prod.fst).Nodup)
    (hwf : WellFormed s w)
    (h1 : RefreshAll changed s M1 w = (.ok none, s1, w1))
    (h2 : RefreshAll changed s1 M2 w1 = (.ok none, s2, w2)) :
    ∃ new1 new2, w1.trace = w.trace ++ new1 ∧ w2.trace = w1.trace ++ new2 ∧
      (∀ k ∈ M1.map Prod.fst, k ∉ M2.map Prod.fst →
        ∃ sd, s1.refreshers.lookup k = some sd ∧ s2.refreshers.lookup k = some sd ∧
          new2.count (Event.clear sd) = 1 ∧ Event.clear sd ∉ new1) ∧
      (∀ k ∈ M2.map Prod.fst, s1.refreshers.lookup k = none →
        new2.count (Event.CreateSubDomainCacheIfNotExists k) = 1 ∧
        ∃ sd, s2.refreshers.lookup k = some sd) ∧
      (∀ k sd, s1.refreshers.lookup k = some sd →
        s2.refreshers.lookup k = some sd ∧ Event.CreateSubDomainCacheIfNotExists k ∉ new2 ∧
          sd.cache ∈ w1.cacheKeys ∧ sd.cache ∈ w2.cacheKeys) ∧
      (∀ k sd, s.refreshers.lookup k = some sd →
        s1.refreshers.lookup k = some sd ∧ Event.CreateSubDomainCacheIfNotExists k ∉ new1) ∧
      (∀ (r : subDomains) (k : String) (v : World) (sd : subDomain),
        (newRefresher r k v).1 = .ok sd →
          (newRefresher r k v).2.trace =
            v.trace ++ [Event.DBFirst k, Event.CreateSubDomainCacheIfNotExists k]) := by
  -- the first call
  have hspec1 := RefreshAll_spec changed s M1 w hwf
  have hcnt1 := RefreshAll_counts changed s M1 w hk1 hwf (by intro err; rw [h1]; simp)
  have hcre1 := RefreshAll_creations changed s M1 w hwf
  rw [h1] at hspec1 hcnt1 hcre1
  simp only at hspec1 hcnt1 hcre1
  rcases hspec1 with ⟨e, he⟩ | ⟨_, hwf1, _, _, _⟩
  · simp at he
  obtain ⟨_, new1, _, htr1, _, _, hnoclear1, htry1⟩ := hcnt1
  obtain ⟨ev1, added1, hev1, hadd1, hcr1⟩ := hcre1
  have hnew1 : ev1 = new1 := List.append_cancel_left (hev1.symm.trans htr1)
  subst hnew1
  -- the second call
  have hspec2 := RefreshAll_spec changed s1 M2 w1 hwf1
  have hcnt2 := RefreshAll_counts changed s1 M2 w1 hk2 hwf1 (by intro err; rw [h2]; simp)
  have hcre2 := RefreshAll_creations changed s1 M2 w1 hwf1
  rw [h2] at hspec2 hcnt2 hcre2
  simp only at hspec2 hcnt2 hcre2
  rcases hspec2 with ⟨e, he⟩ | ⟨_, hwf2, _, hall2, _⟩
  · simp at he
  obtain ⟨_, new2, _, htr2, _, hclear2, _, _⟩ := hcnt2
  obtain ⟨ev2, added2, hev2, hadd2, hcr2⟩ := hcre2
  have hnew2 : ev2 = new2 := List.append_cancel_left (hev2.symm.trans htr2)
  subst hnew2
  obtain ⟨hkeep1, _⟩ := registry_growth s s1 w1 added1 ev1 hwf1 hadd1 hcr1
  obtain ⟨hkeep2, hnew2⟩ := registry_growth s1 s2 w2 added2 ev2 hwf2 hadd2 hcr2
  refine ⟨ev1, ev2, htr1, htr2, ?_, ?_, ?_, ?_, ?_⟩
  · intro k hkM1 hkM2
    obtain ⟨kr, hkr, hkrk⟩ := List.mem_map.mp hkM1
    obtain ⟨sd, hsd, _, _⟩ := htry1 kr hkr
    rw [hkrk] at hsd
    have hl : sd.metadata.SubDomain.Lcuuid = k := (hwf1.2 _ (mem_keys_of_lookup _ _ _ hsd)).1
    obtain ⟨hsd2, _, _⟩ := hkeep2 k sd hsd
    refine ⟨sd, hsd, hsd2, ?_, ?_⟩
    · exact hclear2 (k, sd) (mem_keys_of_lookup _ _ _ hsd2) (by simpa [hl] using hkM2)
    · exact hnoclear1 sd (by rw [hl]; exact hkM1)
  · intro k hkM2 hnone
    obtain ⟨kr, hkr, hkrk⟩ := List.mem_map.mp hkM2
    obtain ⟨sd, hsd⟩ := hall2 kr hkr
    rw [hkrk] at hsd
    exact ⟨hnew2 k hnone ⟨sd, hsd⟩, sd, hsd⟩
  · intro k sd hsd
    obtain ⟨h, hno, hc2⟩ := hkeep2 k sd hsd
    exact ⟨h, hno, (hwf1.2 _ (mem_keys_of_lookup _ _ _ hsd)).2, hc2⟩
  · intro k sd hsd
    obtain ⟨h, hno, _⟩ := hkeep1 k sd hsd
    exact ⟨h, hno⟩
  · intro r k v sd h
    exact (newRefresher_trace r k v).1 sd h

/-- Witness of `RefreshAll_convergence`: the registry knows `sub-0`; the first map reports
`sub-1` only, the second `sub-0` only. -/
theorem RefreshAll_convergence_witness :
    ∃ new1 new2,
      (RefreshAll noChange exampleRegistry exampleCloudData exampleWorld).2.2.trace
        = exampleWorld.trace ++ new1 ∧
      (RefreshAll noChange
        (RefreshAll noChange exampleRegistry exampleCloudData exampleWorld).2.1 secondCloudData
        (RefreshAll noChange exampleRegistry exampleCloudData exampleWorld).2.2).2.2.trace
        = (RefreshAll noChange exampleRegistry exampleCloudData exampleWorld).2.2.trace
          ++ new2 ∧
      (∀ k ∈ exampleCloudData.map Prod.fst, k ∉ secondCloudData.map Prod.fst →
        ∃ sd,
          (RefreshAll noChange exampleRegistry exampleCloudData
            exampleWorld).2.1.refreshers.lookup k = some sd ∧
          (RefreshAll noChange
            (RefreshAll noChange exampleRegistry exampleCloudData exampleWorld).2.1
            secondCloudData
            (RefreshAll noChange exampleRegistry exampleCloudData
              exampleWorld).2.2).2.1.refreshers.lookup k = some sd ∧
          new2.count (Event.clear sd) = 1 ∧ Event.clear sd ∉ new1) :=
  let ⟨new1, new2, h1, h2, h3, _⟩ :=
    RefreshAll_convergence noChange exampleRegistry
      (RefreshAll noChange exampleRegistry exampleCloudData exampleWorld).2.1
      (RefreshAll noChange
        (RefreshAll noChange exampleRegistry exampleCloudData exampleWorld).2.1 secondCloudData
        (RefreshAll noChange exampleRegistry exampleCloudData exampleWorld).2.2).2.1
      exampleCloudData secondCloudData exampleWorld
      (RefreshAll noChange exampleRegistry exampleCloudData exampleWorld).2.2
      (RefreshAll noChange
        (RefreshAll noChange exampleRegistry exampleCloudData exampleWorld).2.1 secondCloudData
        (RefreshAll noChange exampleRegistry exampleCloudData exampleWorld).2.2).2.2
      (by decide) (by decide) (by decide)
      (Prod.ext (by decide) rfl) (Prod.ext (by decide) rfl)
  ⟨new1, new2, h1, h2, h3⟩

end recorder

namespace log_data

/-! ## The trace-id index -/

/-- C17, as the code has it: with an enabled configuration `ParseTraceIdIndex` leaves
`lastTraceIdIndex` as it was both for the empty `traceId` and for a `traceId` that cannot be
parsed, and, the counter being below `2^64 - 1`, returns the previous trace-id index plus one,
which is not zero; when parsing succeeds it returns the parsed index and stores it in
`lastTraceIdIndex`, and `lastTraceIdIndex` changes in no other case.  With a disabled
configuration the result is `0` and `lastTraceIdIndex` is not touched, for every `traceId` and
every value of the counter. -/
theorem ParseTraceIdIndex_fallback (env : Env) (traceId : String) (cfg : TraceIdWithIndex)
    (last : Nat) :
    (cfg.Disabled = true → ParseTraceIdIndex env traceId cfg last = (0, last)) ∧
    (cfg.Disabled = false →
      ((traceId = "" ∨ ∃ e, env.GetTraceIdIndex traceId cfg.TypeIsIncrementalId cfg.FormatIsHex
          cfg.IncrementalIdLocationStart cfg.IncrementalIdLocationLength = .error e) →
        (ParseTraceIdIndex env traceId cfg last).2 = last ∧
        (last < 2 ^ 64 - 1 →
          ParseTraceIdIndex env traceId cfg last = (last + 1, last) ∧
          (ParseTraceIdIndex env traceId cfg last).1 ≠ 0)) ∧
      (∀ index, traceId.utf8ByteSize ≠ 0 →
        env.GetTraceIdIndex traceId cfg.TypeIsIncrementalId cfg.FormatIsHex
          cfg.IncrementalIdLocationStart cfg.IncrementalIdLocationLength = .ok index →
        ParseTraceIdIndex env traceId cfg last = (index.val, index.val)) ∧
      ((ParseTraceIdIndex env traceId cfg last).2 ≠ last →
        ∃ index, env.GetTraceIdIndex traceId cfg.TypeIsIncrementalId cfg.FormatIsHex
          cfg.IncrementalIdLocationStart cfg.IncrementalIdLocationLength = .ok index ∧
          ParseTraceIdIndex env traceId cfg last = (index.val, index.val))) := by
  refine ⟨fun hd => by simp [ParseTraceIdIndex, hd], fun hd => ⟨?_, ?_, ?_⟩⟩
  · intro h
    have hval : ParseTraceIdIndex env traceId cfg last = ((last + 1) % 2 ^ 64, last) := by
      unfold ParseTraceIdIndex
      simp only [hd, Bool.false_eq_true, if_false]
      split
      · rfl
      · rcases h with h | ⟨e, he⟩
        · subst h
          rename_i hne
          exact absurd rfl hne
        · rw [he]
    refine ⟨by rw [hval], fun hlast => ?_⟩
    have hmod : (last + 1) % 2 ^ 64 = last + 1 := Nat.mod_eq_of_lt (by omega)
    rw [hval, hmod]
    exact ⟨rfl, by simp⟩
  · intro index hne hok
    unfold ParseTraceIdIndex
    simp only [hd, Bool.false_eq_true, if_false, hok]
    simp [hne]
  · intro hchg
    unfold ParseTraceIdIndex at hchg ⊢
    simp only [hd, Bool.false_eq_true, if_false] at hchg ⊢
    split at hchg
    · exact absurd rfl hchg
    · rename_i hne
      simp only [hne, if_false]
      split at hchg
      · exact absurd rfl hchg
      · rename_i index hok
        exact ⟨index, hok, by simp⟩

/-- Witness of `ParseTraceIdIndex_fallback`: enabled and disabled configuration, the empty
trace id, one that does not parse and one that parses to 77 at counter 5, and the disabled
configuration at the largest counter value. -/
theorem ParseTraceIdIndex_fallback_witness :
    ParseTraceIdIndex exampleEnv "" disabledCfg 5 = (0, 5) ∧
    ParseTraceIdIndex exampleEnv "abc" disabledCfg (2 ^ 64 - 1) = (0, 2 ^ 64 - 1) ∧
    (ParseTraceIdIndex exampleEnv "" enabledCfg 5 = (5 + 1, 5) ∧
      (ParseTraceIdIndex exampleEnv "" enabledCfg 5).1 ≠ 0) ∧
    (ParseTraceIdIndex exampleEnv "abc" enabledCfg 5 = (5 + 1, 5) ∧
      (ParseTraceIdIndex exampleEnv "abc" enabledCfg 5).1 ≠ 0) ∧
    ParseTraceIdIndex exampleEnv "77" enabledCfg 5 = (77, 77) :=
  ⟨(ParseTraceIdIndex_fallback exampleEnv "" disabledCfg 5).1 rfl,
   (ParseTraceIdIndex_fallback exampleEnv "abc" disabledCfg (2 ^ 64 - 1)).1 rfl,
   (((ParseTraceIdIndex_fallback exampleEnv "" enabledCfg 5).2 rfl).1 (Or.inl rfl)).2
     (by decide),
   (((ParseTraceIdIndex_fallback exampleEnv "abc" enabledCfg 5).2 rfl).1
     (Or.inr ⟨"not an index", by decide⟩)).2 (by decide),
   ((ParseTraceIdIndex_fallback exampleEnv "77" enabledCfg 5).2 rfl).2.1
     77 (by decide) (by decide)⟩

/-- C17, as stated, fails for a disabled configuration: with the empty `traceId` and the
counter at 5 the result is 0, not 6. -/
theorem ParseTraceIdIndex_counterexample :
    (ParseTraceIdIndex exampleEnv "" disabledCfg 5).1 = 0 ∧
    (ParseTraceIdIndex exampleEnv "" disabledCfg 5).1 ≠ 5 + 1 := by
  decide

/-- At the largest counter value the fallback wraps around to zero. -/
theorem ParseTraceIdIndex_wraps :
    ParseTraceIdIndex exampleEnv "" enabledCfg (2 ^ 64 - 1) = (0, 2 ^ 64 - 1) := by
  decide

/-! ## Nullable fields filled by `fillL7FlowLog` -/

theorem core_head (h : L7FlowLog) (l : AppProtoLogsData) :
    (fillL7FlowLog.head h l).core =
      { h.core with requestLength := l.ReqLen, responseLength := l.RespLen } := by
  unfold fillL7FlowLog.head
  simp only []
  split <;> rfl

theorem core_request (env : Env) (h : L7FlowLog) (l : AppProtoLogsData) :
    (fillL7FlowLog.request env h l).core =
      match l.Req with
      | none => h.core
      | some _ =>
        if h.requestLength != -1 && h.MsgType != env.MSG_T_RESPONSE % 256 then
          { h.core with RequestLength := .addr }
        else h.core := by
  unfold fillL7FlowLog.request
  cases l.Req with
  | none => rfl
  | some req =>
    simp only []
    split <;> rfl

theorem core_fillExceptionDesc (env : Env) (h : L7FlowLog) (l : AppProtoLogsData)
    (resp : L7Response) : (fillExceptionDesc env h l resp).core = h.core := by
  unfold fillExceptionDesc
  simp only []
  repeat' split
  all_goals rfl

theorem core_response (env : Env) (h : L7FlowLog) (l : AppProtoLogsData) :
    (fillL7FlowLog.response env h l).core =
      match l.Resp with
      | none => h.core
      | some resp =>
        if h.MsgType != env.MSG_T_REQUEST % 256 then
          if h.responseLength != -1 then
            if resp.Code != L7PROTOCOL_LOG_RESP_CODE_NONE then
              { h.core with responseCode := resp.Code, ResponseCode := .addr,
                            ResponseLength := .addr }
            else { h.core with responseCode := resp.Code, ResponseLength := .addr }
          else
            if resp.Code != L7PROTOCOL_LOG_RESP_CODE_NONE then
              { h.core with responseCode := resp.Code, ResponseCode := .addr }
            else { h.core with responseCode := resp.Code }
        else h.core := by
  unfold fillL7FlowLog.response
  cases l.Resp with
  | none => rfl
  | some resp =>
    simp only []
    by_cases hty : (h.MsgType != env.MSG_T_REQUEST % 256) = true
    · simp only [hty, if_true]
      generalize hx : (if (resp.Exception == "") = true then
        fillExceptionDesc env
          { h with ResponseStatus := resp.Status % 256, ResponseResult := resp.Result,
                   responseCode := resp.Code, ResponseException := resp.Exception } l resp
        else
          { h with ResponseStatus := resp.Status % 256, ResponseResult := resp.Result,
                   responseCode := resp.Code, ResponseException := resp.Exception }) = hx'
      have hcore : hx'.core = { h.core with responseCode := resp.Code } := by
        rw [← hx]
        split
        · rw [core_fillExceptionDesc]; rfl
        · rfl
      clear hx
      simp only [L7FlowLog.core, Core.mk.injEq] at hcore
      obtain ⟨e1, e2, e3, e4, e5, e6, e7, e8, e9, e10⟩ := hcore
      by_cases h1 : h.responseLength = -1 <;>
        by_cases h2 : resp.Code = L7PROTOCOL_LOG_RESP_CODE_NONE <;>
        simp [L7FlowLog.core, h1, h2, e1, e2, e3, e4, e5, e6, e7, e8, e9, e10]
    · simp only [hty, if_false, Bool.false_eq_true]
      rfl

theorem core_extInfo (h : L7FlowLog) (l : AppProtoLogsData) :
    (fillL7FlowLog.extInfo h l).core =
      match l.ExtInfo with
      | none => h.core
      | some ext =>
        if ext.RequestId != 0 then
          { h.core with requestId := ext.RequestId, RequestId := .addr }
        else { h.core with requestId := ext.RequestId } := by
  unfold fillL7FlowLog.extInfo
  cases l.ExtInfo with
  | none => rfl
  | some ext =>
    simp only []
    repeat' split
    all_goals rfl

theorem core_traceInfo (h : L7FlowLog) (l : AppProtoLogsData) :
    (fillL7FlowLog.traceInfo h l).core = h.core := by
  unfold fillL7FlowLog.traceInfo
  cases l.TraceInfo <;> rfl

theorem core_special (env : Env) (h : L7FlowLog) (l : AppProtoLogsData) :
    (fillL7FlowLog.special env h l).core =
      if h.L7Protocol == env.L7_PROTOCOL_KAFKA then
        match l.Req with
        | none => h.core
        | some req =>
          if h.responseCode == 0 && !IsKafkaSupportedCommand env req.ReqType then
            { h.core with ResponseCode := .nil, RequestId := .addr }
          else { h.core with RequestId := .addr }
      else if h.L7Protocol == env.L7_PROTOCOL_SOFARPC then
        { h.core with RequestId := .addr }
      else h.core := by
  unfold fillL7FlowLog.special
  split
  · cases l.Req with
    | none => rfl
    | some req =>
      simp only []
      split <;> rfl
  · split <;> rfl

theorem core_head_eq (h : L7FlowLog) (l : AppProtoLogsData) :
    (fillL7FlowLog.head h l).core = Core.head h.core l :=
  core_head h l

theorem core_request_eq (env : Env) (h : L7FlowLog) (l : AppProtoLogsData) :
    (fillL7FlowLog.request env h l).core = Core.request env h.core l :=
  core_request env h l

theorem core_response_eq (env : Env) (h : L7FlowLog) (l : AppProtoLogsData) :
    (fillL7FlowLog.response env h l).core = Core.response env h.core l :=
  core_response env h l

theorem core_extInfo_eq (h : L7FlowLog) (l : AppProtoLogsData) :
    (fillL7FlowLog.extInfo h l).core = Core.extInfo h.core l :=
  core_extInfo h l

theorem core_special_eq (env : Env) (h : L7FlowLog) (l : AppProtoLogsData) :
    (fillL7FlowLog.special env h l).core = Core.special env h.core l :=
  core_special env h l

/-- The core fields after `fillL7FlowLog`, block by block. -/
theorem core_fillL7FlowLog (env : Env) (h : L7FlowLog) (l : AppProtoLogsData)
    (cfg : TraceIdWithIndex) (last : Nat) :
    (fillL7FlowLog env h l cfg last).1.core =
      Core.special env
        (Core.extInfo (Core.response env (Core.request env (Core.head h.core l) l) l) l) l := by
  unfold fillL7FlowLog
  simp only []
  have hti : ∀ (x : L7FlowLog) (n : Nat),
      ({ x with TraceIdIndex := n } : L7FlowLog).core = x.core :=
    fun _ _ => rfl
  rw [core_special_eq, hti, core_traceInfo, core_extInfo_eq, core_response_eq, core_request_eq,
    core_head_eq]

theorem LengthsInv_head (c : Core) (l : AppProtoLogsData)
    (h1 : c.RequestLength = .nil) (h2 : c.ResponseLength = .nil) (h3 : c.ResponseCode = .nil) :
    LengthsInv l (Core.head c l) := by
  simp [LengthsInv, Core.head, h1, h2, h3]

theorem LengthsInv_request (env : Env) (c : Core) (l : AppProtoLogsData)
    (h : LengthsInv l c) : LengthsInv l (Core.request env c l) := by
  obtain ⟨a1, a2, a3, a4, a5⟩ := h
  unfold Core.request
  cases l.Req with
  | none => exact ⟨a1, a2, a3, a4, a5⟩
  | some req =>
    simp only []
    split
    · rename_i hc
      refine ⟨a1, a2, ?_, a4, a5⟩
      intro _
      rw [a1] at hc
      simp at hc
      exact hc.1
    · exact ⟨a1, a2, a3, a4, a5⟩

theorem LengthsInv_response (env : Env) (c : Core) (l : AppProtoLogsData)
    (h : LengthsInv l c) : LengthsInv l (Core.response env c l) := by
  obtain ⟨a1, a2, a3, a4, a5⟩ := h
  unfold Core.response
  cases hresp : l.Resp with
  | none =>
    refine ⟨a1, a2, a3, a4, ?_⟩
    intro hp
    obtain ⟨r, hr, _⟩ := a5 hp
    rw [hresp] at hr
    cases hr
  | some resp =>
    simp only []
    split
    · split
      · rename_i hlen
        rw [a2] at hlen
        have hlen' : l.RespLen ≠ -1 := by simpa using hlen
        split
        · rename_i hcode
          have hcode' : resp.Code ≠ L7PROTOCOL_LOG_RESP_CODE_NONE := by simpa using hcode
          exact ⟨a1, a2, a3, fun _ => hlen', fun _ => ⟨resp, hresp, hcode', rfl⟩⟩
        · rename_i hcode
          have hcode' : resp.Code = L7PROTOCOL_LOG_RESP_CODE_NONE := by simpa using hcode
          refine ⟨a1, a2, a3, fun _ => hlen', ?_⟩
          intro hp
          obtain ⟨r, hr, hne, _⟩ := a5 hp
          rw [hresp] at hr
          cases hr
          exact absurd hcode' hne
      · split
        · rename_i hcode
          have hcode' : resp.Code ≠ L7PROTOCOL_LOG_RESP_CODE_NONE := by simpa using hcode
          exact ⟨a1, a2, a3, a4, fun _ => ⟨resp, hresp, hcode', rfl⟩⟩
        · rename_i hcode
          have hcode' : resp.Code = L7PROTOCOL_LOG_RESP_CODE_NONE := by simpa using hcode
          refine ⟨a1, a2, a3, a4, ?_⟩
          intro hp
          obtain ⟨r, hr, hne, _⟩ := a5 hp
          rw [hresp] at hr
          cases hr
          exact absurd hcode' hne
    · refine ⟨a1, a2, a3, a4, ?_⟩
      intro hp
      obtain ⟨r, hr, hne, hv⟩ := a5 hp
      exact ⟨r, hr, hne, hv⟩

theorem LengthsInv_extInfo (c : Core) (l : AppProtoLogsData)
    (h : LengthsInv l c) : LengthsInv l (Core.extInfo c l) := by
  obtain ⟨a1, a2, a3, a4, a5⟩ := h
  unfold Core.extInfo
  cases l.ExtInfo with
  | none => exact ⟨a1, a2, a3, a4, a5⟩
  | some ext =>
    simp only []
    split <;> exact ⟨a1, a2, a3, a4, a5⟩

theorem LengthsInv_special (env : Env) (c : Core) (l : AppProtoLogsData)
    (h : LengthsInv l c) : LengthsInv l (Core.special env c l) := by
  obtain ⟨a1, a2, a3, a4, a5⟩ := h
  unfold Core.special
  split
  · cases l.Req with
    | none => exact ⟨a1, a2, a3, a4, a5⟩
    | some req =>
      simp only []
      split
      · exact ⟨a1, a2, a3, a4, fun hp => by cases hp⟩
      · exact ⟨a1, a2, a3, a4, a5⟩
  · split <;> exact ⟨a1, a2, a3, a4, a5⟩

theorem core_lengths (env : Env) (c : Core) (l : AppProtoLogsData)
    (h1 : c.RequestLength = .nil) (h2 : c.ResponseLength = .nil) (h3 : c.ResponseCode = .nil) :
    LengthsInv l (Core.special env
      (Core.extInfo (Core.response env (Core.request env (Core.head c l) l) l) l) l) :=
  LengthsInv_special env _ l (LengthsInv_extInfo _ l (LengthsInv_response env _ l
    (LengthsInv_request env _ l (LengthsInv_head c l h1 h2 h3))))

/-- C18: for a freshly reset log filled by `fillL7FlowLog`, `RequestLength` is nil whenever
`ReqLen = -1`, `ResponseLength` is nil whenever `RespLen = -1`, `ResponseCode` is nil whenever
the response code is `L7PROTOCOL_LOG_RESP_CODE_NONE` (-32768), and whenever one of the three is
set, the value behind it is the input's `ReqLen`, `RespLen` or `Resp.Code`. -/
theorem fillL7FlowLog_no_value (env : Env) (h : L7FlowLog) (l : AppProtoLogsData)
    (cfg : TraceIdWithIndex) (last : Nat) (hreset : FreshlyReset h) :
    (l.ReqLen = -1 → (fillL7FlowLog env h l cfg last).1.RequestLengthValue = none) ∧
    (l.RespLen = -1 → (fillL7FlowLog env h l cfg last).1.ResponseLengthValue = none) ∧
    (∀ resp, l.Resp = some resp → resp.Code = L7PROTOCOL_LOG_RESP_CODE_NONE →
      (fillL7FlowLog env h l cfg last).1.ResponseCodeValue = none) ∧
    (∀ v, (fillL7FlowLog env h l cfg last).1.RequestLengthValue = some v → v = l.ReqLen) ∧
    (∀ v, (fillL7FlowLog env h l cfg last).1.ResponseLengthValue = some v → v = l.RespLen) ∧
    (∀ v, (fillL7FlowLog env h l cfg last).1.ResponseCodeValue = some v →
      ∃ resp, l.Resp = some resp ∧ v = resp.Code) := by
  obtain ⟨_, _, hrc, _, hrl, _, hsl, _, _, _⟩ := hreset
  have hcore := core_fillL7FlowLog env h l cfg last
  obtain ⟨c1, c2, c3, c4, c5⟩ := core_lengths env h.core l hrl hsl hrc
  rw [← hcore] at c1 c2 c3 c4 c5
  generalize (fillL7FlowLog env h l cfg last).1 = h' at c1 c2 c3 c4 c5 ⊢
  have e1 : h'.core.requestLength = h'.requestLength := rfl
  have e2 : h'.core.responseLength = h'.responseLength := rfl
  have e3 : h'.core.RequestLength = h'.RequestLength := rfl
  have e4 : h'.core.ResponseLength = h'.ResponseLength := rfl
  have e5 : h'.core.ResponseCode = h'.ResponseCode := rfl
  have e6 : h'.core.responseCode = h'.responseCode := rfl
  rw [e1] at c1
  rw [e2] at c2
  rw [e3] at c3
  rw [e4] at c4
  rw [e5, e6] at c5
  simp only [L7FlowLog.RequestLengthValue, L7FlowLog.ResponseLengthValue,
    L7FlowLog.ResponseCodeValue]
  refine ⟨?_, ?_, ?_, ?_, ?_, ?_⟩
  · intro hlen
    cases hp : h'.RequestLength with
    | nil => rfl
    | addr => exact absurd hlen (c3 hp)
  · intro hlen
    cases hp : h'.ResponseLength with
    | nil => rfl
    | addr => exact absurd hlen (c4 hp)
  · intro resp hresp hcode
    cases hp : h'.ResponseCode with
    | nil => rfl
    | addr =>
      obtain ⟨resp', hresp', hne, _⟩ := c5 hp
      rw [hresp] at hresp'
      cases hresp'
      exact absurd hcode hne
  · intro v hv
    cases hp : h'.RequestLength with
    | nil => rw [hp] at hv; cases hv
    | addr =>
      rw [hp] at hv
      simp only [FieldPtr.read, Option.some.injEq] at hv
      rw [← hv, c1]
  · intro v hv
    cases hp : h'.ResponseLength with
    | nil => rw [hp] at hv; cases hv
    | addr =>
      rw [hp] at hv
      simp only [FieldPtr.read, Option.some.injEq] at hv
      rw [← hv, c2]
  · intro v hv
    cases hp : h'.ResponseCode with
    | nil => rw [hp] at hv; cases hv
    | addr =>
      rw [hp] at hv
      simp only [FieldPtr.read, Option.some.injEq] at hv
      obtain ⟨resp, hresp, _, hval⟩ := c5 hp
      exact ⟨resp, hresp, by rw [← hv, hval]⟩

/-- Witness of `fillL7FlowLog_no_value`: a SofaRPC session log filled from an input whose
lengths are -1 and whose response code is -32768. -/
theorem fillL7FlowLog_no_value_witness :
    (fillL7FlowLog exampleEnv sofaLog noValueInput enabledCfg 5).1.RequestLengthValue = none ∧
    (fillL7FlowLog exampleEnv sofaLog noValueInput enabledCfg 5).1.ResponseLengthValue = none ∧
    (fillL7FlowLog exampleEnv sofaLog noValueInput enabledCfg 5).1.ResponseCodeValue = none :=
  ⟨(fillL7FlowLog_no_value exampleEnv sofaLog noValueInput enabledCfg 5 (by decide)).1 rfl,
   (fillL7FlowLog_no_value exampleEnv sofaLog noValueInput enabledCfg 5 (by decide)).2.1 rfl,
   (fillL7FlowLog_no_value exampleEnv sofaLog noValueInput enabledCfg 5 (by decide)).2.2.1
     { Code := -32768 } rfl rfl⟩

/-! ## The request id -/

theorem core_before_extInfo (env : Env) (c : Core) (l : AppProtoLogsData) :
    (Core.response env (Core.request env (Core.head c l) l) l).RequestId = c.RequestId ∧
    (Core.response env (Core.request env (Core.head c l) l) l).requestId = c.requestId ∧
    (Core.response env (Core.request env (Core.head c l) l) l).L7Protocol = c.L7Protocol := by
  have h1 : ∀ x : Core, (Core.request env x l).RequestId = x.RequestId ∧
      (Core.request env x l).requestId = x.requestId ∧
      (Core.request env x l).L7Protocol = x.L7Protocol := by
    intro x
    unfold Core.request
    cases l.Req with
    | none => exact ⟨rfl, rfl, rfl⟩
    | some req =>
      simp only []
      split <;> exact ⟨rfl, rfl, rfl⟩
  have h2 : ∀ x : Core, (Core.response env x l).RequestId = x.RequestId ∧
      (Core.response env x l).requestId = x.requestId ∧
      (Core.response env x l).L7Protocol = x.L7Protocol := by
    intro x
    unfold Core.response
    cases l.Resp with
    | none => exact ⟨rfl, rfl, rfl⟩
    | some resp =>
      simp only []
      repeat' split
      all_goals exact ⟨rfl, rfl, rfl⟩
  obtain ⟨a1, a2, a3⟩ := h2 (Core.request env (Core.head c l) l)
  obtain ⟨b1, b2, b3⟩ := h1 (Core.head c l)
  exact ⟨by rw [a1, b1]; rfl, by rw [a2, b2]; rfl, by rw [a3, b3]; rfl⟩

/-- The request id fields after the five blocks, for a log whose request id was nil and
zero. -/
theorem core_requestId (env : Env) (c : Core) (l : AppProtoLogsData)
    (h1 : c.RequestId = .nil) (h2 : c.requestId = 0)
    (hdist : env.L7_PROTOCOL_KAFKA ≠ env.L7_PROTOCOL_SOFARPC) :
    ((Core.special env
      (Core.extInfo (Core.response env (Core.request env (Core.head c l) l) l) l) l).RequestId
        = .addr ↔
      (∃ ext, l.ExtInfo = some ext ∧ ext.RequestId ≠ 0) ∨
      c.L7Protocol = env.L7_PROTOCOL_SOFARPC ∨
      (c.L7Protocol = env.L7_PROTOCOL_KAFKA ∧ l.Req ≠ none)) ∧
    (Core.special env
      (Core.extInfo (Core.response env (Core.request env (Core.head c l) l) l) l) l).requestId
        = (match l.ExtInfo with
          | some ext => ext.RequestId
          | none => 0) := by
  obtain ⟨a1, a2, a3⟩ := core_before_extInfo env c l
  generalize Core.response env (Core.request env (Core.head c l) l) l = x at a1 a2 a3
  rw [h1] at a1
  rw [h2] at a2
  -- after the `ExtInfo` block
  have hext : ((Core.extInfo x l).RequestId = .addr ↔
        ∃ ext, l.ExtInfo = some ext ∧ ext.RequestId ≠ 0) ∧
      (Core.extInfo x l).requestId = (match l.ExtInfo with
          | some ext => ext.RequestId
          | none => 0) ∧
      (Core.extInfo x l).L7Protocol = c.L7Protocol := by
    unfold Core.extInfo
    cases l.ExtInfo with
    | none => simp [a1, a2, a3]
    | some ext =>
      simp only []
      split
      · rename_i hne
        have : ext.RequestId ≠ 0 := by simpa using hne
        simp [a3, this]
      · rename_i hne
        have : ext.RequestId = 0 := by simpa using hne
        simp [a1, a3, this]
  obtain ⟨e1, e2, e3⟩ := hext
  generalize Core.extInfo x l = y at e1 e2 e3
  unfold Core.special
  rw [e3]
  by_cases hk : c.L7Protocol = env.L7_PROTOCOL_KAFKA
  · have hs : c.L7Protocol ≠ env.L7_PROTOCOL_SOFARPC := fun h => hdist (hk.symm.trans h)
    simp only [hk, beq_self_eq_true, if_true]
    cases hreq : l.Req with
    | none =>
      simp only []
      refine ⟨?_, e2⟩
      rw [e1]
      simp [hdist]
    | some req =>
      simp only []
      split
      · exact ⟨by simp, e2⟩
      · exact ⟨by simp, e2⟩
  · by_cases hs : c.L7Protocol = env.L7_PROTOCOL_SOFARPC
    · have hk' : (c.L7Protocol == env.L7_PROTOCOL_KAFKA) = false := by simpa using hk
      simp only [hk', Bool.false_eq_true, if_false]
      have hs' : (c.L7Protocol == env.L7_PROTOCOL_SOFARPC) = true := by simpa using hs
      simp only [hs', if_true]
      exact ⟨by simp [hs], e2⟩
    · have hk' : (c.L7Protocol == env.L7_PROTOCOL_KAFKA) = false := by simpa using hk
      have hs' : (c.L7Protocol == env.L7_PROTOCOL_SOFARPC) = false := by simpa using hs
      simp only [hk', hs', Bool.false_eq_true, if_false]
      refine ⟨?_, e2⟩
      rw [e1]
      simp [hk, hs]

/-- C19: for a freshly reset log filled by `fillL7FlowLog` (the Kafka and SofaRPC protocol
constants being distinct), `RequestId` is set if and only if `ExtInfo` carries a non-zero
request id, or the protocol is SofaRPC, or the protocol is Kafka and the input has a request
part; when set, the value behind it is `ExtInfo.RequestId` if `ExtInfo` exists and 0 otherwise;
so a SofaRPC log always has a request id. -/
theorem fillL7FlowLog_requestId (env : Env) (h : L7FlowLog) (l : AppProtoLogsData)
    (cfg : TraceIdWithIndex) (last : Nat) (hreset : FreshlyReset h)
    (hdist : env.L7_PROTOCOL_KAFKA ≠ env.L7_PROTOCOL_SOFARPC) :
    ((fillL7FlowLog env h l cfg last).1.RequestId = .addr ↔
      (∃ ext, l.ExtInfo = some ext ∧ ext.RequestId ≠ 0) ∨
      h.L7Protocol = env.L7_PROTOCOL_SOFARPC ∨
      (h.L7Protocol = env.L7_PROTOCOL_KAFKA ∧ l.Req ≠ none)) ∧
    (∀ v, (fillL7FlowLog env h l cfg last).1.RequestIdValue = some v →
      v = (match l.ExtInfo with
        | some ext => ext.RequestId
        | none => 0)) ∧
    (h.L7Protocol = env.L7_PROTOCOL_SOFARPC →
      ∃ v, (fillL7FlowLog env h l cfg last).1.RequestIdValue = some v) := by
  obtain ⟨hri, hrv, _⟩ := hreset
  have hcore := core_fillL7FlowLog env h l cfg last
  obtain ⟨c1, c2⟩ := core_requestId env h.core l hri hrv hdist
  rw [← hcore] at c1 c2
  generalize (fillL7FlowLog env h l cfg last).1 = h' at c1 c2 ⊢
  have e1 : h'.core.RequestId = h'.RequestId := rfl
  have e2 : h'.core.requestId = h'.requestId := rfl
  have e3 : h.core.L7Protocol = h.L7Protocol := rfl
  rw [e1, e3] at c1
  rw [e2] at c2
  refine ⟨c1, ?_, ?_⟩
  · intro v hv
    simp only [L7FlowLog.RequestIdValue] at hv
    cases hp : h'.RequestId with
    | nil => rw [hp] at hv; cases hv
    | addr =>
      rw [hp] at hv
      simp only [FieldPtr.read, Option.some.injEq] at hv
      rw [← hv, c2]
  · intro hs
    have : h'.RequestId = .addr := c1.mpr (Or.inr (Or.inl hs))
    exact ⟨h'.requestId, by simp [L7FlowLog.RequestIdValue, this, FieldPtr.read]⟩

/-- Witness of `fillL7FlowLog_requestId`: a SofaRPC log without extended info has the request
id 0. -/
theorem fillL7FlowLog_requestId_witness :
    ∃ v, (fillL7FlowLog exampleEnv sofaLog noValueInput enabledCfg 5).1.RequestIdValue
      = some v :=
  (fillL7FlowLog_requestId exampleEnv sofaLog noValueInput enabledCfg 5 (by decide)
    (by decide)).2.2 rfl

/-! ## Flow tags -/

theorem minNamesLen_eq (n m : Nat) : minNamesLen n m = min n m := by
  unfold minNamesLen
  by_cases h : n = m
  · simp [h]
  · by_cases h2 : n > m
    · simp [h, h2, Nat.min_eq_right (Nat.le_of_lt h2)]
    · simp [h, h2, Nat.min_eq_left (Nat.le_of_not_gt h2)]

theorem attributeNames_length (h : L7FlowLog) :
    (attributeNames h).length = h.AttributeNames.length + 3 := by
  simp [attributeNames, extraFieldNamesNeedWriteFlowTag]

theorem attributeValues_length (h : L7FlowLog) :
    (attributeValues h).length = h.AttributeValues.length + 3 := by
  simp [attributeValues]

theorem loopNames_length (h : L7FlowLog) :
    (loopNames h).length = min (h.AttributeNames.length + 3) (h.AttributeValues.length + 3) := by
  unfold loopNames
  rw [List.length_take, minNamesLen_eq, attributeNames_length, attributeValues_length]
  omega

theorem loopNames_getElem? (h : L7FlowLog) (j : Nat) (hj : j < (loopNames h).length) :
    (loopNames h)[j]? = (attributeNames h)[j]? := by
  unfold loopNames at hj ⊢
  rw [List.length_take] at hj
  rw [List.getElem?_take]
  simp only [ite_eq_left_iff]
  intro hn
  omega

/-- The attribute loop from index `i` on, over names that are the entries `i`, `i + 1`, ... of
`attributeNames`, all within the bounds of `attributeValues`: the loop ends normally, leaves
the field type of the buffer alone and appends to `Fields` only entries named by
`h.AttributeNames`. -/
theorem attributeLoop_ok {σ : Type} (ops : LRUOps σ) (h : L7FlowLog) (time : Nat)
    (P : FlowTag → Prop)
    (hP : ∀ (b : FlowTagInfo) (i : Nat) (name : String), b.FieldType = .FieldTag →
      i < h.AttributeNames.length → h.AttributeNames[i]? = some name →
      P { TagType := .TagField, Timestamp := time,
          FlowTagInfo := { b with FieldName := name, FieldValue := "" } }) :
    ∀ (names : List String) (i : Nat) (cache : FlowTagCache σ),
      (∀ j, j < names.length → names[j]? = (attributeNames h)[i + j]?) →
      i + names.length ≤ (attributeValues h).length →
      cache.FlowTagInfoBuffer.FieldType = .FieldTag →
      (∀ t ∈ cache.Fields, P t) →
      ∃ cache', attributeLoop ops h time i names cache = .ok cache' ∧
        cache'.FlowTagInfoBuffer.FieldType = .FieldTag ∧ ∀ t ∈ cache'.Fields, P t := by
  intro names
  induction names with
  | nil =>
    intro i cache _ _ hb hf
    exact ⟨cache, rfl, hb, hf⟩
  | cons name rest ih =>
    intro i cache hn hlen hb hf
    have hi : i < (attributeValues h).length := by
      simp only [List.length_cons] at hlen
      omega
    have hname : (attributeNames h)[i]? = some name := by
      have := hn 0 (by simp)
      simpa using this.symm
    have hrest : ∀ j, j < rest.length → rest[j]? = (attributeNames h)[i + 1 + j]? := by
      intro j hj
      have := hn (j + 1) (by simp only [List.length_cons]; omega)
      rw [List.getElem?_cons_succ] at this
      rw [this]
      congr 1
      omega
    have hlen2 : i + 1 + rest.length ≤ (attributeValues h).length := by
      simp only [List.length_cons] at hlen
      omega
    have hval : (attributeValues h)[i]? = some ((attributeValues h)[i]) :=
      List.getElem?_eq_getElem hi
    unfold attributeLoop
    rw [hval]
    simp only []
    have hfrom : i < h.AttributeNames.length → h.AttributeNames[i]? = some name := by
      intro hlt
      unfold attributeNames at hname
      rw [List.getElem?_append_left hlt] at hname
      exact hname
    repeat' split
    all_goals
      refine ih (i + 1) _ hrest hlen2 hb ?_
      intro t ht
      first
      | exact hf t ht
      | (rw [List.mem_append, List.mem_singleton] at ht
         rcases ht with ht | ht
         · exact hf t ht
         · rw [ht]
           exact hP _ i name hb (by omega) (hfrom (by omega)))

/-- The metrics loop over names of `h.MetricsNames`, entered with the field type
`FieldMetrics`, appends to `Fields` only metrics entries. -/
theorem metricsLoop_ok {σ : Type} (ops : LRUOps σ) (time : Nat) (P : FlowTag → Prop)
    (all : List String)
    (hP : ∀ (b : FlowTagInfo) (name : String), b.FieldType = .FieldMetrics → name ∈ all →
      P { TagType := .TagField, Timestamp := time, FlowTagInfo := { b with FieldName := name } }) :
    ∀ (names : List String) (cache : FlowTagCache σ),
      (∀ n ∈ names, n ∈ all) →
      cache.FlowTagInfoBuffer.FieldType = .FieldMetrics →
      (∀ t ∈ cache.Fields, P t) →
      ∀ t ∈ (metricsLoop ops time names cache).Fields, P t := by
  intro names
  induction names with
  | nil =>
    intro cache _ _ hf
    exact hf
  | cons name rest ih =>
    intro cache hsub hb hf
    have hrest : ∀ n ∈ rest, n ∈ all := fun n hn => hsub n (List.mem_cons_of_mem _ hn)
    unfold metricsLoop
    simp only []
    repeat' split
    all_goals
      refine ih _ hrest hb ?_
      intro t ht
      first
      | exact hf t ht
      | (rw [List.mem_append, List.mem_singleton] at ht
         rcases ht with ht | ht
         · exact hf t ht
         · rw [ht]
           exact hP _ name hb (hsub name (List.mem_cons_self _ _)))

/-- One round of the outer loop with `idx < 2` ends normally and keeps a property of the
entries of `Fields` that the tag entries of `h.AttributeNames` and the metrics entries of
`h.MetricsNames` have. -/
theorem flowTagsBody_ok {σ : Type} (env : Env) (ops : LRUOps σ) (h : L7FlowLog) (time : Nat)
    (P : FlowTag → Prop)
    (hP : ∀ (b : FlowTagInfo) (i : Nat) (name : String), b.FieldType = .FieldTag →
      i < h.AttributeNames.length → h.AttributeNames[i]? = some name →
      P { TagType := .TagField, Timestamp := time,
          FlowTagInfo := { b with FieldName := name, FieldValue := "" } })
    (hM : ∀ (b : FlowTagInfo) (name : String), b.FieldType = .FieldMetrics →
      name ∈ h.MetricsNames →
      P { TagType := .TagField, Timestamp := time, FlowTagInfo := { b with FieldName := name } })
    (idx : Nat) (cache : FlowTagCache σ) (hidx : idx < 2) (hf : ∀ t ∈ cache.Fields, P t) :
    ∃ cache', flowTagsBody env ops h time idx cache = .ok cache' ∧
      ∀ t ∈ cache'.Fields, P t := by
  have hlen : 0 + (loopNames h).length ≤ (attributeValues h).length := by
    rw [loopNames_length, attributeValues_length]
    omega
  have hnames : ∀ j, j < (loopNames h).length →
      (loopNames h)[j]? = (attributeNames h)[0 + j]? := by
    intro j hj
    rw [Nat.zero_add]
    exact loopNames_getElem? h j hj
  have hrun : ∀ (vpcId : Int) (podNsId : Nat),
      ∃ cache', attributeLoop ops h time 0 (loopNames h)
          { cache with
            FlowTagInfoBuffer :=
              { Table := env.L7_FLOW_ID_String, VpcId := vpcId, PodNsId := podNsId,
                OrgId := h.OrgId, TeamID := h.TeamID } } = .ok cache' ∧
        cache'.FlowTagInfoBuffer.FieldType = .FieldTag ∧ ∀ t ∈ cache'.Fields, P t :=
    fun vpcId podNsId => attributeLoop_ok ops h time P hP (loopNames h) 0 _ hnames hlen rfl hf
  unfold flowTagsBody
  have hcases : idx = 0 ∨ idx = 1 := by omega
  rcases hcases with h0 | h1
  · subst h0
    obtain ⟨c, hc, hb, hfc⟩ := hrun h.L3EpcID0 h.PodNSID0
    simp only [List.getElem?_cons_zero, hc]
    exact ⟨_, rfl, metricsLoop_ok ops time P h.MetricsNames hM h.MetricsNames _
      (fun _ hn => hn) rfl hfc⟩
  · subst h1
    obtain ⟨c, hc, hb, hfc⟩ := hrun h.L3EpcID1 h.PodNSID1
    simp only [List.getElem?_cons_succ, List.getElem?_cons_zero, hc]
    exact ⟨_, rfl, metricsLoop_ok ops time P h.MetricsNames hM h.MetricsNames _
      (fun _ hn => hn) rfl hfc⟩

/-- The outer loop with at most two rounds in all ends normally and keeps the property of
`flowTagsBody_ok`. -/
theorem flowTagsLoop_ok {σ : Type} (env : Env) (ops : LRUOps σ) (h : L7FlowLog) (time : Nat)
    (P : FlowTag → Prop)
    (hP : ∀ (b : FlowTagInfo) (i : Nat) (name : String), b.FieldType = .FieldTag →
      i < h.AttributeNames.length → h.AttributeNames[i]? = some name →
      P { TagType := .TagField, Timestamp := time,
          FlowTagInfo := { b with FieldName := name, FieldValue := "" } })
    (hM : ∀ (b : FlowTagInfo) (name : String), b.FieldType = .FieldMetrics →
      name ∈ h.MetricsNames →
      P { TagType := .TagField, Timestamp := time, FlowTagInfo := { b with FieldName := name } }) :
    ∀ (n idx : Nat) (cache : FlowTagCache σ), idx + n ≤ 2 → (∀ t ∈ cache.Fields, P t) →
      ∃ cache', flowTagsLoop env ops h time n idx cache = .ok cache' ∧
        ∀ t ∈ cache'.Fields, P t := by
  intro n
  induction n with
  | zero =>
    intro idx cache _ hf
    exact ⟨cache, rfl, hf⟩
  | succ n ih =>
    intro idx cache hle hf
    obtain ⟨c, hc, hfc⟩ := flowTagsBody_ok env ops h time P hP hM idx cache (by omega) hf
    unfold flowTagsLoop
    rw [hc]
    exact ih (idx + 1) c (by omega) hfc

/-! ### The attribute loop as a fold over the visited pairs -/

theorem attributeLoop_cons {σ : Type} (ops : LRUOps σ) (h : L7FlowLog) (time i : Nat)
    (name value : String) (rest : List String) (cache : FlowTagCache σ)
    (hval : (attributeValues h)[i]? = some value) :
    attributeLoop ops h time i (name :: rest) cache =
      attributeLoop ops h time (i + 1) rest (attributeStep ops h time cache (i, name, value)) := by
  rw [attributeLoop, hval]
  simp only [attributeStep]
  split_ifs <;> rfl

theorem attributeLoop_fold {σ : Type} (ops : LRUOps σ) (h : L7FlowLog) (time : Nat) :
    ∀ (ps : List (String × String)) (i : Nat) (cache : FlowTagCache σ),
      (∀ j p, ps[j]? = some p → (attributeValues h)[i + j]? = some p.2) →
      attributeLoop ops h time i (ps.map Prod.fst) cache =
        .ok ((ps.enumFrom i).foldl (attributeStep ops h time) cache) := by
  intro ps
  induction ps with
  | nil =>
    intro i cache _
    rfl
  | cons p ps ih =>
    intro i cache hv
    have hval : (attributeValues h)[i]? = some p.2 := by
      have := hv 0 p (by simp)
      simpa using this
    have hrest : ∀ j q, ps[j]? = some q → (attributeValues h)[i + 1 + j]? = some q.2 := by
      intro j q hq
      have := hv (j + 1) q (by simpa using hq)
      rw [← this]
      congr 1
      omega
    rw [List.map_cons, attributeLoop_cons ops h time i p.1 p.2 _ cache hval, ih (i + 1) _ hrest,
      List.enumFrom_cons, List.foldl_cons]

theorem loopNames_eq_zip (h : L7FlowLog) :
    loopNames h = (List.zip (attributeNames h) (attributeValues h)).map Prod.fst := by
  unfold loopNames
  rw [minNamesLen_eq, List.zip_eq_zip_take_min, List.map_fst_zip]
  rw [List.length_take, List.length_take]
  omega

/-- The attribute loop of the source ends normally and is `attributeStep` folded over the
visited pairs, in order. -/
theorem attributeLoop_visited {σ : Type} (ops : LRUOps σ) (h : L7FlowLog) (time : Nat)
    (cache : FlowTagCache σ) :
    attributeLoop ops h time 0 (loopNames h) cache =
      .ok ((visitedPairs h).foldl (attributeStep ops h time) cache) := by
  rw [loopNames_eq_zip]
  refine attributeLoop_fold ops h time _ 0 cache ?_
  intro j p hp
  rw [Nat.zero_add]
  exact (List.getElem?_zip_eq_some.mp hp).2

theorem visitedPairs_length (h : L7FlowLog) :
    (visitedPairs h).length =
      min (h.AttributeNames.length + 3) (h.AttributeValues.length + 3) := by
  unfold visitedPairs
  rw [List.enum_length, List.length_zip, attributeNames_length, attributeValues_length]

theorem visitedPairs_getElem? (h : L7FlowLog) (i : Nat)
    (hi : i < min (h.AttributeNames.length + 3) (h.AttributeValues.length + 3)) :
    ∃ name value, (attributeNames h)[i]? = some name ∧ (attributeValues h)[i]? = some value ∧
      (visitedPairs h)[i]? = some (i, name, value) := by
  have h1 : i < (attributeNames h).length := by
    rw [attributeNames_length]
    omega
  have h2 : i < (attributeValues h).length := by
    rw [attributeValues_length]
    omega
  refine ⟨(attributeNames h)[i], (attributeValues h)[i], List.getElem?_eq_getElem h1,
    List.getElem?_eq_getElem h2, ?_⟩
  unfold visitedPairs
  rw [List.getElem?_enum]
  have hz : (List.zip (attributeNames h) (attributeValues h))[i]? =
      some ((attributeNames h)[i], (attributeValues h)[i]) :=
    List.getElem?_zip_eq_some.mpr ⟨List.getElem?_eq_getElem h1, List.getElem?_eq_getElem h2⟩
  rw [hz]
  rfl

theorem flowTagsBody_zero {σ : Type} (env : Env) (ops : LRUOps σ) (h : L7FlowLog) (time : Nat)
    (cache : FlowTagCache σ) :
    flowTagsBody env ops h time 0 cache =
      .ok (flowTagsRound env ops h time h.L3EpcID0 h.PodNSID0 cache) := by
  unfold flowTagsBody flowTagsRound roundInfo
  simp only [List.getElem?_cons_zero, attributeLoop_visited]

theorem flowTagsBody_one {σ : Type} (env : Env) (ops : LRUOps σ) (h : L7FlowLog) (time : Nat)
    (cache : FlowTagCache σ) :
    flowTagsBody env ops h time 1 cache =
      .ok (flowTagsRound env ops h time h.L3EpcID1 h.PodNSID1 cache) := by
  unfold flowTagsBody flowTagsRound roundInfo
  simp only [List.getElem?_cons_succ, List.getElem?_cons_zero, attributeLoop_visited]

/-- The call of `GenerateNewFlowTags` ends normally: it is one round for the first VPC and pod
namespace and, when the second pair differs, one more round for the second. -/
theorem GenerateNewFlowTags_rounds {σ : Type} (env : Env) (ops : LRUOps σ) (h : L7FlowLog)
    (cache : FlowTagCache σ) :
    GenerateNewFlowTags env ops h cache =
      .ok (if (h.L3EpcID0 == h.L3EpcID1 && h.PodNSID0 == h.PodNSID1) = true then
          flowTagsRound env ops h (flowTagTime env h) h.L3EpcID0 h.PodNSID0
            { cache with Fields := [], FieldValues := [] }
        else
          flowTagsRound env ops h (flowTagTime env h) h.L3EpcID1 h.PodNSID1
            (flowTagsRound env ops h (flowTagTime env h) h.L3EpcID0 h.PodNSID0
              { cache with Fields := [], FieldValues := [] })) := by
  unfold GenerateNewFlowTags flowTagTime
  simp only []
  split
  · simp only [flowTagsLoop, flowTagsBody_zero]
  · simp only [flowTagsLoop, flowTagsBody_zero, Nat.zero_add, flowTagsBody_one]

/-! ### Caches that hold none of the keys -/

theorem filterMap_cons_toList {α β : Type} (f : α → Option β) (a : α) (l : List α) :
    (a :: l).filterMap f = (f a).toList ++ l.filterMap f := by
  rw [List.filterMap_cons]
  cases f a <;> rfl

/-- A pass at an index from `len(h.AttributeNames)` on leaves `cache.Fields` as it is,
whatever the caches answer. -/
theorem attributeStep_extra {σ : Type} (ops : LRUOps σ) (h : L7FlowLog) (time : Nat)
    (cache : FlowTagCache σ) (p : Nat × String × String)
    (hp : h.AttributeNames.length ≤ p.1) :
    (attributeStep ops h time cache p).Fields = cache.Fields := by
  unfold attributeStep
  simp only [ge_iff_le, hp, if_true]
  split_ifs <;> rfl

theorem attributeStep_fresh {σ : Type} (ops : LRUOps σ) (h : L7FlowLog) (time : Nat)
    (hfresh : ∀ s k t, (ops.AddOrGet s k t).1.2 = false) (b : FlowTagInfo)
    (cache : FlowTagCache σ) (p : Nat × String × String)
    (hb : ∀ n v, { cache.FlowTagInfoBuffer with FieldName := n, FieldValue := v } =
      { b with FieldName := n, FieldValue := v }) :
    (∀ n v, { (attributeStep ops h time cache p).FlowTagInfoBuffer with
          FieldName := n, FieldValue := v } = { b with FieldName := n, FieldValue := v }) ∧
    (attributeStep ops h time cache p).FieldValues =
      cache.FieldValues ++ (fieldValueEntry time b p).toList ∧
    (attributeStep ops h time cache p).Fields =
      cache.Fields ++ (fieldEntry h time b p).toList := by
  unfold attributeStep fieldValueEntry fieldEntry
  by_cases hv : p.2.2 = ""
  · simp [hv, hb]
  · have hv2 : (p.2.2 == "") = false := by simpa using hv
    simp only [hv2, Bool.false_eq_true, if_false, hfresh, Bool.false_and, hv, false_or]
    by_cases hi : h.AttributeNames.length ≤ p.1
    · simp only [ge_iff_le, hi, if_true, Option.toList, List.append_nil]
      exact ⟨hb, congrArg (fun x => cache.FieldValues ++ [FlowTag.mk .TagFieldValue time x])
        (hb p.2.1 p.2.2), trivial⟩
    · simp only [ge_iff_le, hi, if_false, Option.toList]
      exact ⟨hb, congrArg (fun x => cache.FieldValues ++ [FlowTag.mk .TagFieldValue time x])
        (hb p.2.1 p.2.2), congrArg (fun x => cache.Fields ++ [FlowTag.mk .TagField time x])
        (hb p.2.1 "")⟩

theorem attributeStep_foldl_fresh {σ : Type} (ops : LRUOps σ) (h : L7FlowLog) (time : Nat)
    (hfresh : ∀ s k t, (ops.AddOrGet s k t).1.2 = false) (b : FlowTagInfo) :
    ∀ (ps : List (Nat × String × String)) (cache : FlowTagCache σ),
      (∀ n v, { cache.FlowTagInfoBuffer with FieldName := n, FieldValue := v } =
        { b with FieldName := n, FieldValue := v }) →
      (∀ n v, { (ps.foldl (attributeStep ops h time) cache).FlowTagInfoBuffer with
            FieldName := n, FieldValue := v } = { b with FieldName := n, FieldValue := v }) ∧
      (ps.foldl (attributeStep ops h time) cache).FieldValues =
        cache.FieldValues ++ ps.filterMap (fieldValueEntry time b) ∧
      (ps.foldl (attributeStep ops h time) cache).Fields =
        cache.Fields ++ ps.filterMap (fieldEntry h time b) := by
  intro ps
  induction ps with
  | nil =>
    intro cache hb
    exact ⟨hb, by simp, by simp⟩
  | cons p ps ih =>
    intro cache hb
    obtain ⟨s1, s2, s3⟩ := attributeStep_fresh ops h time hfresh b cache p hb
    obtain ⟨i1, i2, i3⟩ := ih (attributeStep ops h time cache p) s1
    rw [List.foldl_cons]
    refine ⟨i1, ?_, ?_⟩
    · rw [i2, s2, filterMap_cons_toList, List.append_assoc]
    · rw [i3, s3, filterMap_cons_toList, List.append_assoc]

theorem metricsLoop_fresh {σ : Type} (ops : LRUOps σ) (time : Nat)
    (hfresh : ∀ s k t, (ops.AddOrGet s k t).1.2 = false) (b : FlowTagInfo) :
    ∀ (names : List String) (cache : FlowTagCache σ),
      (∀ n, { cache.FlowTagInfoBuffer with FieldName := n } =
        { b with FieldType := .FieldMetrics, FieldName := n, FieldValue := "" }) →
      (metricsLoop ops time names cache).FieldValues = cache.FieldValues ∧
      (metricsLoop ops time names cache).Fields =
        cache.Fields ++ names.map (metricsEntry time b) := by
  intro names
  induction names with
  | nil =>
    intro cache _
    exact ⟨rfl, by simp [metricsLoop]⟩
  | cons name rest ih =>
    intro cache hb
    unfold metricsLoop
    simp only [hfresh, Bool.false_and, Bool.false_eq_true, if_false]
    obtain ⟨i1, i2⟩ := ih
      { cache with
        FlowTagInfoBuffer := { cache.FlowTagInfoBuffer with FieldName := name },
        FieldCache := (ops.AddOrGet cache.FieldCache
          { cache.FlowTagInfoBuffer with FieldName := name } time).2,
        Fields := cache.Fields ++ [FlowTag.mk .TagField time
          { cache.FlowTagInfoBuffer with FieldName := name }] } hb
    refine ⟨i1, ?_⟩
    rw [i2, List.map_cons, List.append_assoc]
    exact congrArg (fun x => cache.Fields ++ ([FlowTag.mk .TagField time x] ++
      rest.map (metricsEntry time b))) (hb name)

/-- What one round appends when the caches hold none of the keys. -/
theorem flowTagsRound_fresh {σ : Type} (env : Env) (ops : LRUOps σ) (h : L7FlowLog)
    (time : Nat) (hfresh : ∀ s k t, (ops.AddOrGet s k t).1.2 = false) (vpcId : Int)
    (podNsId : Nat) (cache : FlowTagCache σ) :
    (flowTagsRound env ops h time vpcId podNsId cache).FieldValues =
      cache.FieldValues ++ newFieldValues h time (roundInfo env h vpcId podNsId) ∧
    (flowTagsRound env ops h time vpcId podNsId cache).Fields =
      cache.Fields ++ newFields h time (roundInfo env h vpcId podNsId) := by
  obtain ⟨a1, a2, a3⟩ := attributeStep_foldl_fresh ops h time hfresh
    (roundInfo env h vpcId podNsId) (visitedPairs h)
    { cache with FlowTagInfoBuffer := roundInfo env h vpcId podNsId } (fun _ _ => rfl)
  obtain ⟨m1, m2⟩ := metricsLoop_fresh ops time hfresh (roundInfo env h vpcId podNsId)
    h.MetricsNames
    { (visitedPairs h).foldl (attributeStep ops h time)
        { cache with FlowTagInfoBuffer := roundInfo env h vpcId podNsId } with
      FlowTagInfoBuffer :=
        { ((visitedPairs h).foldl (attributeStep ops h time)
            { cache with FlowTagInfoBuffer := roundInfo env h vpcId podNsId }).FlowTagInfoBuffer
          with FieldType := .FieldMetrics, FieldValue := "" } }
    (fun n => congrArg (fun x : FlowTagInfo => { x with FieldType := .FieldMetrics })
      (a1 n ""))
  unfold flowTagsRound newFieldValues newFields
  exact ⟨by rw [m1]; exact a2, by rw [m2, ← List.append_assoc]; exact congrArg (· ++ _) a3⟩

/-- C20: whatever the lengths of `AttributeNames` and `AttributeValues`,
`GenerateNewFlowTags` never indexes out of range and its attribute loop visits exactly the
first `min (len AttributeNames + 3) (len AttributeValues + 3)` name/value pairs:
`visitedPairs` has that length, its entry `i` is `attributeNames[i]` with `attributeValues[i]`,
both of which exist, and the names at the indices from `len AttributeNames` on are the three
extra names; the loop of the source ends normally and is the loop body passed once over each of
these pairs, in order, and the whole call ends normally and is one such round per VPC and pod
namespace pair.  A pass at an index from `len AttributeNames` on, where the three extra names
sit, leaves `cache.Fields` as it is; every entry of the resulting `cache.Fields` is a name-only
`TagField` entry, either a tag named by `h.AttributeNames[i]` for an index `i` below
`len AttributeNames` or a metrics entry named by `h.MetricsNames`.  When the caches hold none
of the keys, `cache.FieldValues` is, round by round, one `TagFieldValue` entry per visited pair
with a non-empty value, and `cache.Fields` is one `TagField` entry per visited pair with a
non-empty value at an index below `len AttributeNames`, followed by one entry per metrics
name. -/
theorem GenerateNewFlowTags_in_range {σ : Type} (env : Env) (ops : LRUOps σ) (h : L7FlowLog)
    (cache : FlowTagCache σ) :
    (visitedPairs h).length =
      min (h.AttributeNames.length + 3) (h.AttributeValues.length + 3) ∧
    (∀ i, i < min (h.AttributeNames.length + 3) (h.AttributeValues.length + 3) →
      ∃ name value, (attributeNames h)[i]? = some name ∧
        (attributeValues h)[i]? = some value ∧
        (visitedPairs h)[i]? = some (i, name, value)) ∧
    (∀ i, h.AttributeNames.length ≤ i → i < h.AttributeNames.length + 3 →
      (attributeNames h)[i]? = extraFieldNamesNeedWriteFlowTag[i - h.AttributeNames.length]?) ∧
    (∀ (time : Nat) (c : FlowTagCache σ),
      attributeLoop ops h time 0 (loopNames h) c =
        .ok ((visitedPairs h).foldl (attributeStep ops h time) c)) ∧
    GenerateNewFlowTags env ops h cache =
      .ok (if (h.L3EpcID0 == h.L3EpcID1 && h.PodNSID0 == h.PodNSID1) = true then
          flowTagsRound env ops h (flowTagTime env h) h.L3EpcID0 h.PodNSID0
            { cache with Fields := [], FieldValues := [] }
        else
          flowTagsRound env ops h (flowTagTime env h) h.L3EpcID1 h.PodNSID1
            (flowTagsRound env ops h (flowTagTime env h) h.L3EpcID0 h.PodNSID0
              { cache with Fields := [], FieldValues := [] })) ∧
    (∀ (time : Nat) (c : FlowTagCache σ) (p : Nat × String × String),
      h.AttributeNames.length ≤ p.1 → (attributeStep ops h time c p).Fields = c.Fields) ∧
    (∃ cache', GenerateNewFlowTags env ops h cache = .ok cache' ∧
      ∀ t ∈ cache'.Fields, t.TagType = .TagField ∧
        ((t.FlowTagInfo.FieldType = .FieldTag ∧
            ∃ i, i < h.AttributeNames.length ∧
              h.AttributeNames[i]? = some t.FlowTagInfo.FieldName) ∨
          (t.FlowTagInfo.FieldType = .FieldMetrics ∧
            t.FlowTagInfo.FieldName ∈ h.MetricsNames))) ∧
    ((∀ s k t, (ops.AddOrGet s k t).1.2 = false) →
      ∃ cache', GenerateNewFlowTags env ops h cache = .ok cache' ∧
        cache'.FieldValues =
          newFieldValues h (flowTagTime env h) (roundInfo env h h.L3EpcID0 h.PodNSID0) ++
            (if (h.L3EpcID0 == h.L3EpcID1 && h.PodNSID0 == h.PodNSID1) = true then []
             else newFieldValues h (flowTagTime env h)
              (roundInfo env h h.L3EpcID1 h.PodNSID1)) ∧
        cache'.Fields =
          newFields h (flowTagTime env h) (roundInfo env h h.L3EpcID0 h.PodNSID0) ++
            (if (h.L3EpcID0 == h.L3EpcID1 && h.PodNSID0 == h.PodNSID1) = true then []
             else newFields h (flowTagTime env h)
              (roundInfo env h h.L3EpcID1 h.PodNSID1))) := by
  refine ⟨visitedPairs_length h, visitedPairs_getElem? h, ?_,
    fun time c => attributeLoop_visited ops h time c, GenerateNewFlowTags_rounds env ops h cache,
    fun time c p hp => attributeStep_extra ops h time c p hp, ?_, ?_⟩
  · intro i h1 h2
    unfold attributeNames
    rw [List.getElem?_append_right h1]
  · have hmain := flowTagsLoop_ok env ops h
      ((h.EndTime.tdiv env.US_TO_S_DEVISOR) % 2 ^ 32).toNat
      (fun t => t.TagType = .TagField ∧
        ((t.FlowTagInfo.FieldType = .FieldTag ∧
            ∃ i, i < h.AttributeNames.length ∧
              h.AttributeNames[i]? = some t.FlowTagInfo.FieldName) ∨
          (t.FlowTagInfo.FieldType = .FieldMetrics ∧
            t.FlowTagInfo.FieldName ∈ h.MetricsNames)))
      (fun b i name hb hi hn => ⟨rfl, Or.inl ⟨hb, i, hi, hn⟩⟩)
      (fun b name hb hn => ⟨rfl, Or.inr ⟨hb, hn⟩⟩)
    unfold GenerateNewFlowTags
    simp only []
    split
    · exact hmain 1 0 _ (by omega) (fun t ht => by cases ht)
    · exact hmain 2 0 _ (by omega) (fun t ht => by cases ht)
  · intro hfresh
    rw [GenerateNewFlowTags_rounds]
    refine ⟨_, rfl, ?_⟩
    split
    · obtain ⟨a1, a2⟩ := flowTagsRound_fresh env ops h (flowTagTime env h) hfresh
        h.L3EpcID0 h.PodNSID0 { cache with Fields := [], FieldValues := [] }
      rw [a1, a2]
      simp
    · obtain ⟨a1, a2⟩ := flowTagsRound_fresh env ops h (flowTagTime env h) hfresh
        h.L3EpcID0 h.PodNSID0 { cache with Fields := [], FieldValues := [] }
      obtain ⟨b1, b2⟩ := flowTagsRound_fresh env ops h (flowTagTime env h) hfresh
        h.L3EpcID1 h.PodNSID1
        (flowTagsRound env ops h (flowTagTime env h) h.L3EpcID0 h.PodNSID0
          { cache with Fields := [], FieldValues := [] })
      rw [b1, b2, a1, a2]
      simp

/-- Witness of `GenerateNewFlowTags_in_range`: a log with the attribute names `endpoint`, `k2`
and the one attribute value `v1`, two VPCs and caches that hold no key.  Four pairs are
visited; each round gives four `TagFieldValue` entries and, for the two indices below
`len AttributeNames`, two `TagField` entries followed by the metrics entry: the name `endpoint`
appears once per round, for the attribute at index 0 and not for the extra name at index 3. -/
theorem GenerateNewFlowTags_in_range_witness :
    (visitedPairs unevenLog).length = 4 ∧
    ∃ cache', GenerateNewFlowTags exampleEnv forgetful unevenLog emptyCache = .ok cache' ∧
      cache'.FieldValues.map (fun t => (t.FlowTagInfo.FieldName, t.FlowTagInfo.FieldValue)) =
        [("endpoint", "v1"), ("k2", "svc"), ("app_service", "ep"), ("endpoint", "inst"),
         ("endpoint", "v1"), ("k2", "svc"), ("app_service", "ep"), ("endpoint", "inst")] ∧
      cache'.Fields.map (fun t => (t.FlowTagInfo.FieldType, t.FlowTagInfo.FieldName)) =
        [(.FieldTag, "endpoint"), (.FieldTag, "k2"), (.FieldMetrics, "m1"),
         (.FieldTag, "endpoint"), (.FieldTag, "k2"), (.FieldMetrics, "m1")] := by
  obtain ⟨hlen, _, _, _, _, _, _, hfresh⟩ :=
    GenerateNewFlowTags_in_range exampleEnv forgetful unevenLog emptyCache
  obtain ⟨cache', hok, hfv, hf⟩ := hfresh (fun _ _ _ => rfl)
  refine ⟨hlen, cache', hok, ?_, ?_⟩
  · rw [hfv]
    decide
  · rw [hf]
    decide

end log_data
